import Mathlib

/-!
# SSO server: login automaton, sessions and OAuth2 code/refresh flows

A shallow embedding of the security core of `sso-server`:

* `internal/models`            : the persisted records,
* `internal/repository`        : the tables, as lists of rows with the unique
                                 indexes declared on the models,
* `internal/service`           : `AuthService`, `SessionService`,
                                 `OAuth2AuthorizationService`, `OAuth2TokenService`,
* `internal/handler`           : the OAuth2 authorization and token handlers.

Conventions.  Columns and relationship fields that none of the embedded
functions reads (`CreatedAt`, `UpdatedAt`, `Roles`, descriptions, owners, the
`User` preloaded into a session) are left out of the records.  An instant
(`time.Time`) and a duration (`time.Duration`) are integers counting
nanoseconds.  Every service call receives the instant `now`
that `time.Now()` returns during the call.  Values drawn from a random source
(`uuid.New`, `crypto/rand`) are arguments of the function that draws them.
A function that writes to the database returns the database after the call
next to its result.  bcrypt and SHA-256 are parameters (`Crypto`).
-/

namespace SSO

/-! ## Time -/

/-- An instant, in nanoseconds. -/
abbrev Time := Int

/-- A duration, in nanoseconds (`time.Duration`). -/
abbrev Duration := Int

/-- The constant `time.Minute`. -/
def Minute : Duration := 60 * 1000000000

/-- The constant `time.Hour`. -/
def Hour : Duration := 60 * Minute

/-! ## Errors -/

/-- The sentinel errors of the repositories and services, and the errors made
in place with `errors.New` (`msg`) or returned by the database driver (`gorm`).
`ErrResetTokenExpired` and `ErrResetTokenNotFound` are `ErrTokenExpired` and
`ErrTokenNotFound` of package `service` (password reset), which share their
names with the errors of the OAuth2 token repository. -/
inductive Err where
  | ErrNotFound
  | ErrInvalidCredentials
  | ErrAccountLocked
  | ErrAccountInactive
  | ErrExpiredToken
  | ErrCodeNotFound
  | ErrCodeExpired
  | ErrCodeUsed
  | ErrInvalidPKCE
  | ErrTokenNotFound
  | ErrTokenExpired
  | ErrTokenRevoked
  | ErrClientNotFound
  | ErrConsentNotFound
  | ErrPasswordTooShort
  | ErrPasswordNoUppercase
  | ErrPasswordNoLowercase
  | ErrPasswordNoNumber
  | ErrPasswordNoSpecial
  | ErrPasswordCommon
  | ErrPasswordReused
  | ErrTokenUsed
  | ErrResetTokenExpired
  | ErrResetTokenNotFound
  | ErrInvalidTOTPCode
  | ErrTwoFactorNotSetup
  | msg (text : String)
  | gorm (text : String)
  deriving DecidableEq, Repr

/-- Results of fallible calls can be compared. -/
instance instDecidableEqExcept {ε α : Type} [DecidableEq ε] [DecidableEq α] :
    DecidableEq (Except ε α)
  | .ok a, .ok b => if h : a = b then isTrue (by rw [h]) else isFalse (fun e => h (by cases e; rfl))
  | .error a, .error b =>
    if h : a = b then isTrue (by rw [h]) else isFalse (fun e => h (by cases e; rfl))
  | .ok _, .error _ => isFalse (fun e => by cases e)
  | .error _, .ok _ => isFalse (fun e => by cases e)

/-! ## Models (`internal/models`) -/

/-- The record `models.TwoFactorAuth`. -/
structure TwoFactorAuth where
  ID : String
  UserID : String
  SecretEncrypted : String
  Enabled : Bool
  BackupCodesEncrypted : String
  EnabledAt : Option Time
  deriving DecidableEq, Repr

/-- The record `models.User`.  `TwoFactorAuth` is the relationship field that
`Preload("TwoFactorAuth")` fills from the `two_factor_auth` table. -/
structure User where
  ID : String
  Email : String
  PasswordHash : String
  Name : String
  EmailVerified : Bool
  IsActive : Bool
  IsLocked : Bool
  FailedLoginAttempts : Int
  LockedUntil : Option Time
  PasswordChangedAt : Time
  LastLoginAt : Option Time
  TwoFactorAuth : Option TwoFactorAuth
  deriving DecidableEq, Repr

/-- The record `models.Session` (columns of the `sessions` table). -/
structure Session where
  ID : String
  UserID : String
  SessionToken : String
  IPAddress : String
  UserAgent : String
  ExpiresAt : Time
  LastActivityAt : Time
  deriving DecidableEq, Repr

/-- The record `models.AuditLog` (the generated id is left out). -/
structure AuditLog where
  UserID : Option String
  Action : String
  Resource : String
  IPAddress : String
  UserAgent : String
  Details : String
  CreatedAt : Time
  deriving DecidableEq, Repr

/-- The record `models.OAuth2Client`. -/
structure OAuth2Client where
  ID : String
  ClientID : String
  ClientSecret : String
  Name : String
  RedirectURIs : List String
  AllowedScopes : List String
  GrantTypes : List String
  IsPublic : Bool
  IsActive : Bool
  deriving DecidableEq, Repr

/-- The record `models.OAuth2Scope`. -/
structure OAuth2Scope where
  ID : String
  Name : String
  deriving DecidableEq, Repr

/-- The record `models.OAuth2AuthorizationCode`. -/
structure OAuth2AuthorizationCode where
  ID : String
  Code : String
  ClientID : String
  UserID : String
  RedirectURI : String
  Scopes : List String
  CodeChallenge : Option String
  CodeChallengeMethod : Option String
  ExpiresAt : Time
  Used : Bool
  deriving DecidableEq, Repr

/-- The record `models.OAuth2AccessToken`. -/
structure OAuth2AccessToken where
  ID : String
  TokenHash : String
  ClientID : String
  UserID : Option String
  Scopes : List String
  ExpiresAt : Time
  deriving DecidableEq, Repr

/-- The record `models.OAuth2RefreshToken`. -/
structure OAuth2RefreshToken where
  ID : String
  Token : String
  AccessTokenID : Option String
  ClientID : String
  UserID : String
  Scopes : List String
  ExpiresAt : Time
  Revoked : Bool
  deriving DecidableEq, Repr

/-- The record `models.OAuth2Consent`. -/
structure OAuth2Consent where
  ID : String
  UserID : String
  ClientID : String
  Scopes : List String
  deriving DecidableEq, Repr

/-! ## The database -/

/-- The record `models.PasswordHistory` (a row of `password_history`). -/
structure PasswordHistory where
  ID : String
  UserID : String
  PasswordHash : String
  CreatedAt : Time
  deriving DecidableEq, Repr

/-- The record `models.PasswordResetToken` (a row of
`password_reset_tokens`). -/
structure PasswordResetToken where
  ID : String
  UserID : String
  Email : String
  Token : String
  ExpiresAt : Time
  Used : Bool
  UsedAt : Option Time
  deriving DecidableEq, Repr

/-- The tables the core reads and writes, each a list of rows in insertion
order. -/
structure DB where
  users : List User
  two_factor_auth : List TwoFactorAuth
  sessions : List Session
  audit_logs : List AuditLog
  oauth2_clients : List OAuth2Client
  oauth2_scopes : List OAuth2Scope
  oauth2_authorization_codes : List OAuth2AuthorizationCode
  oauth2_access_tokens : List OAuth2AccessToken
  oauth2_refresh_tokens : List OAuth2RefreshToken
  oauth2_consents : List OAuth2Consent
  password_history : List PasswordHistory := []
  password_reset_tokens : List PasswordResetToken := []
  deriving DecidableEq, Repr

/-- The database with no row in any table. -/
def DB.empty : DB :=
  { users := [], two_factor_auth := [], sessions := [], audit_logs := [],
    oauth2_clients := [], oauth2_scopes := [], oauth2_authorization_codes := [],
    oauth2_access_tokens := [], oauth2_refresh_tokens := [], oauth2_consents := [] }

/-- The primitives taken from libraries: `bcrypt.CompareHashAndPassword`
(true when it returns no error) and the S256 transform
`base64.RawURLEncoding.EncodeToString(sha256.Sum256(verifier))`. -/
structure Crypto where
  ComparePassword : String → String → Bool
  S256 : String → String

/-! ## `repository.UserRepository` -/

namespace UserRepository

/-- Filling the relationship field of a user. -/
def withTwoFactorAuth (u : User) (t : Option TwoFactorAuth) : User :=
  { u with TwoFactorAuth := t }

/-- The effect of `Preload("TwoFactorAuth")` on a fetched user row. -/
def preload (db : DB) (u : User) : User :=
  withTwoFactorAuth u (db.two_factor_auth.find? (fun t => t.UserID == u.ID))

/-- `UserRepository.GetByEmail`: the first row with that email. -/
def GetByEmail (db : DB) (email : String) : Except Err User :=
  match db.users.find? (fun u => u.Email == email) with
  | none => .error .ErrNotFound
  | some u => .ok (preload db u)

/-- `UserRepository.GetByID`: the first row with that id. -/
def GetByID (db : DB) (id : String) : Except Err User :=
  match db.users.find? (fun u => u.ID == id) with
  | none => .error .ErrNotFound
  | some u => .ok (preload db u)

/-- `UserRepository.Update`: `Save` writes every column of the row with the
user's primary key; no row affected is `ErrNotFound`. -/
def Update (db : DB) (user : User) : Except Err Unit × DB :=
  if db.users.any (fun u => u.ID == user.ID) then
    (.ok (), { db with users := db.users.map (fun u => if u.ID == user.ID then user else u) })
  else
    (.error .ErrNotFound, db)

/-- `UserRepository.IncrementFailedAttempts`:
`UPDATE users SET failed_login_attempts = failed_login_attempts + 1 WHERE id = ?`. -/
def IncrementFailedAttempts (db : DB) (id : String) : Except Err Unit × DB :=
  (.ok (), { db with users := db.users.map (fun u =>
      if u.ID == id then { u with FailedLoginAttempts := u.FailedLoginAttempts + 1 } else u) })

/-- `UserRepository.ResetFailedAttempts`: sets the column to 0 for the id; no
row affected is an error. -/
def ResetFailedAttempts (db : DB) (id : String) : Except Err Unit × DB :=
  if db.users.any (fun u => u.ID == id) then
    (.ok (), { db with users := db.users.map (fun u =>
      if u.ID == id then { u with FailedLoginAttempts := 0 } else u) })
  else
    (.error (.msg "no rows affected - user not found"), db)

/-- `UserRepository.UnlockAccount`: sets `failed_login_attempts = 0` and
`locked_until = NULL` for the id. -/
def UnlockAccount (db : DB) (userID : String) : Except Err Unit × DB :=
  (.ok (), { db with users := db.users.map (fun u =>
      if u.ID == userID then { u with FailedLoginAttempts := 0, LockedUntil := none } else u) })

/-- `UserRepository.UpdateLastLogin`: sets only `last_login_at` for the id. -/
def UpdateLastLogin (db : DB) (id : String) (lastLoginAt : Option Time) : Except Err Unit × DB :=
  (.ok (), { db with users := db.users.map (fun u =>
      if u.ID == id then { u with LastLoginAt := lastLoginAt } else u) })

end UserRepository

/-! ## `repository.AuditLogRepository` -/

/-- `AuditLogRepository.Create`: appends the entry. -/
def AuditLogRepository.Create (db : DB) (log : AuditLog) : Except Err Unit × DB :=
  (.ok (), { db with audit_logs := db.audit_logs ++ [log] })

/-! ## `repository.DatabaseSessionStore` -/

namespace DatabaseSessionStore

/-- `DatabaseSessionStore.Create`: an empty id is replaced by a fresh uuid
(`freshID`); the insert fails on a duplicate primary key or a duplicate
`session_token` (unique column). -/
def Create (db : DB) (session : Session) (freshID : String) : Except Err Session × DB :=
  let session := if session.ID == "" then { session with ID := freshID } else session
  if db.sessions.any (fun r => r.ID == session.ID || r.SessionToken == session.SessionToken) then
    (.error (.gorm "UNIQUE constraint failed"), db)
  else
    (.ok session, { db with sessions := db.sessions ++ [session] })

/-- `DatabaseSessionStore.GetByToken`: the first row with that token. -/
def GetByToken (db : DB) (token : String) : Except Err Session :=
  match db.sessions.find? (fun r => r.SessionToken == token) with
  | none => .error (.gorm "record not found")
  | some r => .ok r

/-- `DatabaseSessionStore.GetByUserID`: every row of the user. -/
def GetByUserID (db : DB) (userID : String) : List Session :=
  db.sessions.filter (fun r => r.UserID == userID)

/-- `DatabaseSessionStore.Update`: `Save` writes every column of the row with
the session's primary key. -/
def Update (db : DB) (session : Session) : Except Err Unit × DB :=
  (.ok (), { db with sessions := db.sessions.map (fun r => if r.ID == session.ID then session else r) })

/-- `DatabaseSessionStore.Delete`: deletes the rows with that id. -/
def Delete (db : DB) (id : String) : Except Err Unit × DB :=
  (.ok (), { db with sessions := db.sessions.filter (fun r => !(r.ID == id)) })

/-- `DatabaseSessionStore.DeleteByToken`: deletes the rows with that token. -/
def DeleteByToken (db : DB) (token : String) : Except Err Unit × DB :=
  (.ok (), { db with sessions := db.sessions.filter (fun r => !(r.SessionToken == token)) })

/-- `DatabaseSessionStore.DeleteByUserID`: deletes the rows of that user. -/
def DeleteByUserID (db : DB) (userID : String) : Except Err Unit × DB :=
  (.ok (), { db with sessions := db.sessions.filter (fun r => !(r.UserID == userID)) })

/-- `DatabaseSessionStore.DeleteExpired`: deletes the rows with
`expires_at < NOW()`. -/
def DeleteExpired (db : DB) (now : Time) : Except Err Unit × DB :=
  (.ok (), { db with sessions := db.sessions.filter (fun r => !(decide (r.ExpiresAt < now))) })

end DatabaseSessionStore

/-! ## `service.SessionService` -/

/-- The configuration of `service.SessionService` (over the database-backed
store). -/
structure SessionService where
  timeout : Duration
  deriving DecidableEq, Repr

/-- The random values one `CreateSession` call draws: the result of
`utils.GenerateRandomToken(64)` and the two uuids. -/
structure SessionDraw where
  token : Except Err String
  id : String
  freshID : String

/-- The draw lets `CreateSession` succeed on `db`: a token was generated and
neither the token nor the session id is already in the `sessions` table. -/
def SessionDraw.usable (rnd : SessionDraw) (db : DB) : Bool :=
  match rnd.token with
  | .error _ => false
  | .ok tok =>
    !(db.sessions.any (fun r =>
        r.ID == (if rnd.id == "" then rnd.freshID else rnd.id) || r.SessionToken == tok))

namespace SessionService

/-- `SessionService.CreateSession`. -/
def CreateSession (s : SessionService) (db : DB) (now : Time)
    (userID ipAddress userAgent : String) (rnd : SessionDraw) : Except Err Session × DB :=
  match rnd.token with
  | .error e => (.error e, db)
  | .ok sessionToken =>
    let session : Session :=
      { ID := rnd.id, UserID := userID, SessionToken := sessionToken, IPAddress := ipAddress,
        UserAgent := userAgent, ExpiresAt := now + s.timeout, LastActivityAt := now }
    DatabaseSessionStore.Create db session rnd.freshID

/-- `SessionService.ValidateSession`: a session found by token is returned
unless `now` is after its `ExpiresAt`, in which case it is deleted. -/
def ValidateSession (_s : SessionService) (db : DB) (now : Time) (token : String) :
    Except Err Session × DB :=
  match DatabaseSessionStore.GetByToken db token with
  | .error e => (.error e, db)
  | .ok session =>
    if now > session.ExpiresAt then
      (.error .ErrExpiredToken, (DatabaseSessionStore.Delete db session.ID).2)
    else
      (.ok session, db)

/-- `SessionService.RenewSession`. -/
def RenewSession (s : SessionService) (db : DB) (now : Time) (token : String) :
    Except Err Session × DB :=
  match ValidateSession s db now token with
  | (.error e, db) => (.error e, db)
  | (.ok session, db) =>
    let session := { session with ExpiresAt := now + s.timeout, LastActivityAt := now }
    match DatabaseSessionStore.Update db session with
    | (.error e, db) => (.error e, db)
    | (.ok _, db) => (.ok session, db)

/-- `SessionService.TerminateSession`. -/
def TerminateSession (_s : SessionService) (db : DB) (token : String) : Except Err Unit × DB :=
  DatabaseSessionStore.DeleteByToken db token

end SessionService

/-! ## `service.AuthService` -/

/-- The configuration of `service.AuthService`. -/
structure AuthService where
  crypto : Crypto
  sessionService : SessionService
  maxAttempts : Int
  lockoutDuration : Duration

/-- The record `service.LoginResult`. -/
structure LoginResult where
  User : User
  Session : Session
  RequiresTwoFactor : Bool
  TempToken : String
  deriving DecidableEq, Repr

namespace AuthService

/-- `AuthService.logAudit`: writes an audit entry; a write error is only
logged. -/
def logAudit (db : DB) (now : Time) (userID : Option String)
    (action resource ipAddress userAgent details : String) : DB :=
  (AuditLogRepository.Create db
    { UserID := userID, Action := action, Resource := resource, IPAddress := ipAddress,
      UserAgent := userAgent, Details := details, CreatedAt := now }).2

/-- The branch of `Login` taken when the password does not verify:
increment, re-fetch, lock at `maxAttempts`. -/
def loginWrongPassword (s : AuthService) (db : DB) (now : Time) (user : User)
    (email ipAddress userAgent : String) : Except Err LoginResult × DB :=
  let db := (UserRepository.IncrementFailedAttempts db user.ID).2
  match UserRepository.GetByEmail db email with
  | .error e => (.error e, db)
  | .ok user =>
    if user.FailedLoginAttempts ≥ s.maxAttempts then
      let user := { user with IsLocked := true, LockedUntil := some (now + s.lockoutDuration) }
      let db := (UserRepository.Update db user).2
      let db := logAudit db now (some user.ID) "account_locked" "authentication" ipAddress userAgent
        "max login attempts exceeded"
      (.error .ErrAccountLocked, db)
    else
      let db := logAudit db now (some user.ID) "login_failed" "authentication" ipAddress userAgent
        "invalid password"
      (.error .ErrInvalidCredentials, db)

/-- The part of `Login` after the password has verified: counter reset, the
2FA branch with its temporary session, or a normal session. -/
def loginVerified (s : AuthService) (db : DB) (now : Time) (user : User)
    (ipAddress userAgent : String) (rnd : SessionDraw) : Except Err LoginResult × DB :=
  let db := if user.FailedLoginAttempts > 0 then
      (UserRepository.ResetFailedAttempts db user.ID).2 else db
  if (match user.TwoFactorAuth with | some t => t.Enabled | none => false) then
    match s.sessionService.CreateSession db now user.ID ipAddress userAgent rnd with
    | (.error e, db) => (.error e, db)
    | (.ok tempSession, db) =>
      let tempSession := { tempSession with ExpiresAt := now + 5 * Minute }
      let db := logAudit db now (some user.ID) "2fa_required" "authentication" ipAddress userAgent ""
      (.ok { User := user, Session := tempSession, RequiresTwoFactor := true,
             TempToken := tempSession.SessionToken }, db)
  else
    match s.sessionService.CreateSession db now user.ID ipAddress userAgent rnd with
    | (.error e, db) => (.error e, db)
    | (.ok session, db) =>
      let db := (UserRepository.UpdateLastLogin db user.ID (some now)).2
      let db := logAudit db now (some user.ID) "login_success" "authentication" ipAddress userAgent ""
      (.ok { User := user, Session := session, RequiresTwoFactor := false, TempToken := "" }, db)

/-- `AuthService.Login`. -/
def Login (s : AuthService) (db : DB) (now : Time)
    (email password ipAddress userAgent : String) (rnd : SessionDraw) :
    Except Err LoginResult × DB :=
  match UserRepository.GetByEmail db email with
  | .error _ =>
    (.error .ErrInvalidCredentials,
      logAudit db now none "login_failed" "authentication" ipAddress userAgent "user not found")
  | .ok user =>
    if user.IsLocked && (match user.LockedUntil with | some t => decide (now < t) | none => false) then
      (.error .ErrAccountLocked,
        logAudit db now (some user.ID) "login_failed" "authentication" ipAddress userAgent
          "account locked")
    else
      let unlocked : User × DB :=
        if user.IsLocked then
          let user := { user with IsLocked := false, LockedUntil := none, FailedLoginAttempts := 0 }
          (user, (UserRepository.Update db user).2)
        else (user, db)
      let user := unlocked.1
      let db := unlocked.2
      if !user.IsActive then
        (.error .ErrAccountInactive,
          logAudit db now (some user.ID) "login_failed" "authentication" ipAddress userAgent
            "account inactive")
      else if !s.crypto.ComparePassword user.PasswordHash password then
        loginWrongPassword s db now user email ipAddress userAgent
      else
        loginVerified s db now user ipAddress userAgent rnd

end AuthService

/-- One login request: the instant of the call and its inputs. -/
structure LoginAttempt where
  now : Time
  password : String
  ipAddress : String
  userAgent : String
  rnd : SessionDraw

/-- Consecutive `Login` calls for one email, each on the database the previous
call left: the result of every call with the database after it. -/
def loginSeq (s : AuthService) (email : String) :
    DB → List LoginAttempt → List (Except Err LoginResult × DB)
  | _, [] => []
  | db, a :: rest =>
    (s.Login db a.now email a.password a.ipAddress a.userAgent a.rnd) ::
      loginSeq s email (s.Login db a.now email a.password a.ipAddress a.userAgent a.rnd).2 rest

/-! ## `utils` : PKCE -/

/-- `utils.GenerateCodeChallenge`: the S256 challenge of a verifier. -/
def GenerateCodeChallenge (c : Crypto) (verifier : String) : String :=
  c.S256 verifier

/-- `utils.VerifyCodeChallenge`. -/
def VerifyCodeChallenge (c : Crypto) (verifier challenge method : String) : Except Err Bool :=
  if method == "" || method == "plain" then
    .ok (verifier == challenge)
  else if method == "S256" then
    .ok (GenerateCodeChallenge c verifier == challenge)
  else
    .error (.msg ("unsupported code challenge method: " ++ method))

/-! ## `repository.OAuth2ClientRepository` -/

namespace OAuth2ClientRepository

/-- `OAuth2ClientRepository.GetByClientID`. -/
def GetByClientID (db : DB) (clientID : String) : Except Err OAuth2Client :=
  match db.oauth2_clients.find? (fun c => c.ClientID == clientID) with
  | none => .error .ErrClientNotFound
  | some c => .ok c

/-- `OAuth2ClientRepository.ValidateRedirectURI`: exact membership in the
client's registered redirect URIs. -/
def ValidateRedirectURI (db : DB) (clientID redirectURI : String) : Except Err Bool :=
  match GetByClientID db clientID with
  | .error e => .error e
  | .ok client => .ok (client.RedirectURIs.any (fun uri => uri == redirectURI))

/-- `OAuth2ClientRepository.ValidateScopes`. -/
def ValidateScopes (db : DB) (clientID : String) (requestedScopes : List String) :
    Except Err Bool :=
  match GetByClientID db clientID with
  | .error e => .error e
  | .ok client =>
    if client.AllowedScopes.length == 0 then .ok false
    else .ok (requestedScopes.all (fun requested => client.AllowedScopes.contains requested))

end OAuth2ClientRepository

/-! ## `repository.OAuth2ScopeRepository` -/

/-- `OAuth2ScopeRepository.ValidateScopes`: as many scope rows carry one of
the requested names as there are requested names. -/
def OAuth2ScopeRepository.ValidateScopes (db : DB) (requestedScopes : List String) :
    Except Err Bool :=
  if requestedScopes.length == 0 then .ok true
  else if (db.oauth2_scopes.filter (fun s => requestedScopes.contains s.Name)).length
      != requestedScopes.length then .ok false
  else .ok true

/-! ## `repository.OAuth2ConsentRepository` -/

namespace OAuth2ConsentRepository

/-- `OAuth2ConsentRepository.GetByUserAndClient`. -/
def GetByUserAndClient (db : DB) (userID clientID : String) : Except Err OAuth2Consent :=
  match db.oauth2_consents.find? (fun c => c.UserID == userID && c.ClientID == clientID) with
  | none => .error .ErrConsentNotFound
  | some c => .ok c

/-- `OAuth2ConsentRepository.Create`: the insert fails on a duplicate primary
key. -/
def Create (db : DB) (consent : OAuth2Consent) : Except Err Unit × DB :=
  if db.oauth2_consents.any (fun c => c.ID == consent.ID) then
    (.error (.gorm "UNIQUE constraint failed"), db)
  else
    (.ok (), { db with oauth2_consents := db.oauth2_consents ++ [consent] })

/-- `OAuth2ConsentRepository.Update`: `Save` by primary key. -/
def Update (db : DB) (consent : OAuth2Consent) : Except Err Unit × DB :=
  (.ok (), { db with oauth2_consents :=
      db.oauth2_consents.map (fun c => if c.ID == consent.ID then consent else c) })

/-- `OAuth2ConsentRepository.Upsert`: replaces the scopes of the existing
entry, or creates the entry. -/
def Upsert (db : DB) (consent : OAuth2Consent) : Except Err Unit × DB :=
  match GetByUserAndClient db consent.UserID consent.ClientID with
  | .ok existing => Update db { existing with Scopes := consent.Scopes }
  | .error _ => Create db consent

/-- `OAuth2ConsentRepository.CheckConsent`: granted flag and missing scopes. -/
def CheckConsent (db : DB) (userID clientID : String) (requestedScopes : List String) :
    Except Err (Bool × List String) :=
  match GetByUserAndClient db userID clientID with
  | .error _ => .ok (false, [])
  | .ok consent =>
    let missingScopes := requestedScopes.filter (fun requested => !consent.Scopes.contains requested)
    if missingScopes.length > 0 then .ok (false, missingScopes) else .ok (true, [])

end OAuth2ConsentRepository

/-! ## `service.OAuth2ConsentService` -/

namespace OAuth2ConsentService

/-- `OAuth2ConsentService.GrantConsent`. -/
def GrantConsent (db : DB) (userID clientID : String) (scopes : List String) :
    Except Err Unit × DB :=
  match OAuth2ClientRepository.GetByClientID db clientID with
  | .error e => (.error e, db)
  | .ok _ =>
    let go : Unit → Except Err Unit × DB := fun _ =>
      OAuth2ConsentRepository.Upsert db
        { ID := "", UserID := userID, ClientID := clientID, Scopes := scopes }
    if scopes.length > 0 then
      match OAuth2ScopeRepository.ValidateScopes db scopes with
      | .error e => (.error e, db)
      | .ok valid => if !valid then (.error (.msg "invalid scopes"), db) else go ()
    else go ()

/-- `OAuth2ConsentService.CheckConsent`. -/
def CheckConsent (db : DB) (userID clientID : String) (requestedScopes : List String) :
    Except Err (Bool × List String) :=
  OAuth2ConsentRepository.CheckConsent db userID clientID requestedScopes

end OAuth2ConsentService

/-! ## `repository.OAuth2CodeRepository` -/

namespace OAuth2CodeRepository

/-- `OAuth2CodeRepository.Create`: the insert fails on a duplicate primary key
or a duplicate `code` (unique index). -/
def Create (db : DB) (code : OAuth2AuthorizationCode) : Except Err Unit × DB :=
  if db.oauth2_authorization_codes.any (fun r => r.ID == code.ID || r.Code == code.Code) then
    (.error (.gorm "UNIQUE constraint failed"), db)
  else
    (.ok (), { db with oauth2_authorization_codes := db.oauth2_authorization_codes ++ [code] })

/-- `OAuth2CodeRepository.GetByCode`. -/
def GetByCode (db : DB) (code : String) : Except Err OAuth2AuthorizationCode :=
  match db.oauth2_authorization_codes.find? (fun r => r.Code == code) with
  | none => .error .ErrCodeNotFound
  | some r => .ok r

/-- `OAuth2CodeRepository.MarkAsUsed`:
`UPDATE oauth2_authorization_codes SET used = true WHERE code = ?`; the number
of rows affected is not looked at. -/
def MarkAsUsed (db : DB) (code : String) : Except Err Unit × DB :=
  (.ok (), { db with oauth2_authorization_codes :=
      db.oauth2_authorization_codes.map (fun r =>
        if r.Code == code then { r with Used := true } else r) })

/-- `OAuth2CodeRepository.ValidateCode`. -/
def ValidateCode (db : DB) (now : Time) (code clientID redirectURI : String) :
    Except Err OAuth2AuthorizationCode :=
  match GetByCode db code with
  | .error e => .error e
  | .ok authCode =>
    if authCode.Used then .error .ErrCodeUsed
    else if now > authCode.ExpiresAt then .error .ErrCodeExpired
    else if authCode.ClientID != clientID then .error (.msg "client ID mismatch")
    else if authCode.RedirectURI != redirectURI then .error (.msg "redirect URI mismatch")
    else .ok authCode

end OAuth2CodeRepository

/-! ## `repository.OAuth2TokenRepository` -/

namespace OAuth2TokenRepository

/-- `OAuth2TokenRepository.CreateAccessToken`: an empty hash is refused; the
insert fails on a duplicate primary key or `token_hash` (unique index). -/
def CreateAccessToken (db : DB) (token : OAuth2AccessToken) : Except Err Unit × DB :=
  if token.TokenHash == "" then
    (.error (.msg "token hash is required"), db)
  else if db.oauth2_access_tokens.any (fun r => r.ID == token.ID || r.TokenHash == token.TokenHash)
  then
    (.error (.gorm "UNIQUE constraint failed"), db)
  else
    (.ok (), { db with oauth2_access_tokens := db.oauth2_access_tokens ++ [token] })

/-- `OAuth2TokenRepository.GetAccessTokenByHash`. -/
def GetAccessTokenByHash (db : DB) (now : Time) (tokenHash : String) :
    Except Err OAuth2AccessToken :=
  match db.oauth2_access_tokens.find? (fun r => r.TokenHash == tokenHash) with
  | none => .error .ErrTokenNotFound
  | some token => if now > token.ExpiresAt then .error .ErrTokenExpired else .ok token

/-- `OAuth2TokenRepository.RevokeAccessToken`: deletes the rows with that id. -/
def RevokeAccessToken (db : DB) (tokenID : String) : Except Err Unit × DB :=
  (.ok (), { db with oauth2_access_tokens :=
      db.oauth2_access_tokens.filter (fun r => !(r.ID == tokenID)) })

/-- `OAuth2TokenRepository.CreateRefreshToken`: the insert fails on a
duplicate primary key or `token` (unique index). -/
def CreateRefreshToken (db : DB) (token : OAuth2RefreshToken) : Except Err Unit × DB :=
  if db.oauth2_refresh_tokens.any (fun r => r.ID == token.ID || r.Token == token.Token) then
    (.error (.gorm "UNIQUE constraint failed"), db)
  else
    (.ok (), { db with oauth2_refresh_tokens := db.oauth2_refresh_tokens ++ [token] })

/-- `OAuth2TokenRepository.GetRefreshToken`: found, not revoked, not expired. -/
def GetRefreshToken (db : DB) (now : Time) (token : String) : Except Err OAuth2RefreshToken :=
  match db.oauth2_refresh_tokens.find? (fun r => r.Token == token) with
  | none => .error .ErrTokenNotFound
  | some refreshToken =>
    if refreshToken.Revoked then .error .ErrTokenRevoked
    else if now > refreshToken.ExpiresAt then .error .ErrTokenExpired
    else .ok refreshToken

/-- `OAuth2TokenRepository.RevokeRefreshToken`:
`UPDATE oauth2_refresh_tokens SET revoked = true WHERE token = ?`. -/
def RevokeRefreshToken (db : DB) (token : String) : Except Err Unit × DB :=
  (.ok (), { db with oauth2_refresh_tokens :=
      db.oauth2_refresh_tokens.map (fun r =>
        if r.Token == token then { r with Revoked := true } else r) })

end OAuth2TokenRepository

/-! ## `service.OAuth2TokenService` -/

/-- A value of a JWT claim. -/
inductive ClaimValue where
  | str (s : String)
  | num (n : Int)
  deriving DecidableEq, Repr

/-- The claim set handed to `JWTService.GenerateCustomToken`, in the order
the source fills the map. -/
abbrev Claims := List (String × ClaimValue)

/-- The configuration of `service.OAuth2TokenService`.  `sign` is
`JWTService.GenerateCustomToken` (RS256 over the claims with the process
key) and `hashToken` the hex SHA-256 of the token string. -/
structure OAuth2TokenService where
  sign : Claims → Except Err String
  hashToken : String → String
  accessTokenExpiry : Duration
  refreshTokenExpiry : Duration

/-- The record `service.TokenResponse`. -/
structure TokenResponse where
  AccessToken : String
  TokenType : String
  ExpiresIn : Int
  RefreshToken : String
  Scope : String
  deriving DecidableEq, Repr

/-- The random values a token mint draws: the uuid of the access-token
record, the 32 random bytes of the refresh token as encoded by
`generateRandomToken`, and the uuid of the refresh-token record. -/
structure TokenDraw where
  accessID : String
  refreshToken : String
  refreshID : String
  deriving DecidableEq, Repr

/-- `time.Time.Unix`: whole seconds of an instant. -/
def unix (t : Time) : Int := t / 1000000000

/-- `Duration.Seconds` converted with `int64(...)`: whole seconds, truncated. -/
def seconds (d : Duration) : Int := Int.tdiv d 1000000000

namespace OAuth2TokenService

/-- The claims `GenerateAccessToken` builds. -/
def accessClaims (s : OAuth2TokenService) (now : Time) (clientID : String)
    (userID : Option String) (scopes : List String) : Claims :=
  [("client_id", .str clientID), ("scope", .str (String.intercalate " " scopes)),
   ("iat", .num (unix now)), ("exp", .num (unix (now + s.accessTokenExpiry)))] ++
  (match userID with
   | some uid => [("sub", .str uid)]
   | none => [])

/-- `OAuth2TokenService.GenerateAccessToken`. -/
def GenerateAccessToken (s : OAuth2TokenService) (db : DB) (now : Time) (clientID : String)
    (userID : Option String) (scopes : List String) (id : String) :
    Except Err (String × OAuth2AccessToken) × DB :=
  match s.sign (accessClaims s now clientID userID scopes) with
  | .error e => (.error e, db)
  | .ok token =>
    let accessToken : OAuth2AccessToken :=
      { ID := id, TokenHash := s.hashToken token, ClientID := clientID, UserID := userID,
        Scopes := scopes, ExpiresAt := now + s.accessTokenExpiry }
    match OAuth2TokenRepository.CreateAccessToken db accessToken with
    | (.error e, db) => (.error e, db)
    | (.ok _, db) => (.ok (token, accessToken), db)

/-- `OAuth2TokenService.GenerateRefreshToken`. -/
def GenerateRefreshToken (s : OAuth2TokenService) (db : DB) (now : Time)
    (clientID userID : String) (scopes : List String) (accessTokenID : String)
    (token id : String) : Except Err String × DB :=
  let refreshToken : OAuth2RefreshToken :=
    { ID := id, Token := token, AccessTokenID := some accessTokenID, ClientID := clientID,
      UserID := userID, Scopes := scopes, ExpiresAt := now + s.refreshTokenExpiry,
      Revoked := false }
  match OAuth2TokenRepository.CreateRefreshToken db refreshToken with
  | (.error e, db) => (.error e, db)
  | (.ok _, db) => (.ok token, db)

/-- `OAuth2TokenService.RefreshAccessToken`: validate the presented token,
mint a new access token and a new refresh token, then revoke the presented
one (the error of the revocation is dropped). -/
def RefreshAccessToken (s : OAuth2TokenService) (db : DB) (now : Time)
    (refreshTokenString clientID : String) (rnd : TokenDraw) : Except Err TokenResponse × DB :=
  match OAuth2TokenRepository.GetRefreshToken db now refreshTokenString with
  | .error e => (.error e, db)
  | .ok refreshToken =>
    if refreshToken.ClientID != clientID then (.error (.msg "client ID mismatch"), db)
    else
      match s.GenerateAccessToken db now refreshToken.ClientID (some refreshToken.UserID)
          refreshToken.Scopes rnd.accessID with
      | (.error e, db) => (.error e, db)
      | (.ok (accessTokenString, accessToken), db) =>
        match s.GenerateRefreshToken db now refreshToken.ClientID refreshToken.UserID
            refreshToken.Scopes accessToken.ID rnd.refreshToken rnd.refreshID with
        | (.error e, db) => (.error e, db)
        | (.ok newRefreshToken, db) =>
          let db := (OAuth2TokenRepository.RevokeRefreshToken db refreshTokenString).2
          (.ok { AccessToken := accessTokenString, TokenType := "Bearer",
                 ExpiresIn := seconds s.accessTokenExpiry, RefreshToken := newRefreshToken,
                 Scope := String.intercalate " " refreshToken.Scopes }, db)

end OAuth2TokenService

/-- The mint of an access token and a refresh token succeeds on `db`: the
claims can be signed, the token hash is not empty, and neither the drawn ids
nor the token hash nor the drawn refresh token are already stored. -/
def OAuth2TokenService.mintable (s : OAuth2TokenService) (db : DB) (now : Time)
    (clientID : String) (userID : Option String) (scopes : List String) (rnd : TokenDraw) :
    Bool :=
  match s.sign (s.accessClaims now clientID userID scopes) with
  | .error _ => false
  | .ok token =>
    !(s.hashToken token == "") &&
    !(db.oauth2_access_tokens.any (fun r =>
        r.ID == rnd.accessID || r.TokenHash == s.hashToken token)) &&
    !(db.oauth2_refresh_tokens.any (fun r =>
        r.ID == rnd.refreshID || r.Token == rnd.refreshToken))

/-! ## `service.OAuth2AuthorizationService` -/

/-- The configuration of `service.OAuth2AuthorizationService`. -/
structure OAuth2AuthorizationService where
  crypto : Crypto
  tokenService : OAuth2TokenService
  codeExpiry : Duration
  enforcePKCE : Bool

/-- The helper `scopesToString`: the scopes separated by single blanks. -/
def scopesToString (scopes : List String) : String :=
  scopes.enum.foldl
    (fun result p => (if p.1 > 0 then result ++ " " else result) ++ p.2) ""

namespace OAuth2AuthorizationService

/-- The scope validation of `CreateAuthorizationCode`: only a non-empty scope
list is checked against the client. -/
def scopeCheck (db : DB) (clientID : String) (scopes : List String) : Except Err Unit :=
  if scopes.length > 0 then
    match OAuth2ClientRepository.ValidateScopes db clientID scopes with
    | .error e => .error e
    | .ok valid => if !valid then .error (.msg "invalid scopes for this client") else .ok ()
  else .ok ()

/-- The PKCE enforcement of `CreateAuthorizationCode`: a public client
without a challenge is refused when `enforcePKCE` is set. -/
def pkceCheck (s : OAuth2AuthorizationService) (client : OAuth2Client)
    (codeChallenge : Option String) : Except Err Unit :=
  if client.IsPublic && codeChallenge.isNone then
    if s.enforcePKCE then .error (.msg "PKCE required for public clients") else .ok ()
  else .ok ()

/-- `OAuth2AuthorizationService.CreateAuthorizationCode`; `code` is the value
`generateAuthCode` draws and `id` the uuid of the record. -/
def CreateAuthorizationCode (s : OAuth2AuthorizationService) (db : DB) (now : Time)
    (clientID userID redirectURI : String) (scopes : List String)
    (codeChallenge codeChallengeMethod : Option String) (code id : String) :
    Except Err String × DB :=
  match OAuth2ClientRepository.GetByClientID db clientID with
  | .error e => (.error e, db)
  | .ok client =>
    if !client.IsActive then (.error (.msg "client is not active"), db)
    else
      match OAuth2ClientRepository.ValidateRedirectURI db clientID redirectURI with
      | .error e => (.error e, db)
      | .ok valid =>
        if !valid then (.error (.msg "invalid redirect URI"), db)
        else
          match scopeCheck db clientID scopes with
          | .error e => (.error e, db)
          | .ok _ =>
            match pkceCheck s client codeChallenge with
            | .error e => (.error e, db)
            | .ok _ =>
              match OAuth2CodeRepository.Create db
                  { ID := id, Code := code, ClientID := clientID, UserID := userID,
                    RedirectURI := redirectURI, Scopes := scopes, CodeChallenge := codeChallenge,
                    CodeChallengeMethod := codeChallengeMethod, ExpiresAt := now + s.codeExpiry,
                    Used := false } with
              | (.error e, db) => (.error e, db)
              | (.ok _, db) => (.ok code, db)

/-- The PKCE step of `ExchangeCodeForTokens`: a stored challenge requires a
verifier that matches it under the recorded method (`S256` when none is
recorded). -/
def checkPKCE (s : OAuth2AuthorizationService) (authCode : OAuth2AuthorizationCode)
    (codeVerifier : Option String) : Except Err Unit :=
  match authCode.CodeChallenge with
  | none => .ok ()
  | some challenge =>
    match codeVerifier with
    | none => .error (.msg "code verifier required")
    | some verifier =>
      let method := match authCode.CodeChallengeMethod with
        | some m => m
        | none => "S256"
      match VerifyCodeChallenge s.crypto verifier challenge method with
      | .error _ => .error .ErrInvalidPKCE
      | .ok valid => if !valid then .error .ErrInvalidPKCE else .ok ()

/-- The part of `ExchangeCodeForTokens` after the code has been marked used:
mint the access token and the refresh token and build the response. -/
def mintTokens (s : OAuth2AuthorizationService) (db : DB) (now : Time) (clientID : String)
    (authCode : OAuth2AuthorizationCode) (rnd : TokenDraw) : Except Err TokenResponse × DB :=
  match s.tokenService.GenerateAccessToken db now clientID (some authCode.UserID)
      authCode.Scopes rnd.accessID with
  | (.error e, db) => (.error e, db)
  | (.ok (accessToken, tokenModel), db) =>
    match s.tokenService.GenerateRefreshToken db now clientID authCode.UserID authCode.Scopes
        tokenModel.ID rnd.refreshToken rnd.refreshID with
    | (.error e, db) => (.error e, db)
    | (.ok refreshToken, db) =>
      (.ok { AccessToken := accessToken, TokenType := "Bearer",
             ExpiresIn := seconds s.tokenService.accessTokenExpiry,
             RefreshToken := refreshToken, Scope := scopesToString authCode.Scopes }, db)

/-- `OAuth2AuthorizationService.ExchangeCodeForTokens`. -/
def ExchangeCodeForTokens (s : OAuth2AuthorizationService) (db : DB) (now : Time)
    (code clientID redirectURI : String) (codeVerifier : Option String) (rnd : TokenDraw) :
    Except Err TokenResponse × DB :=
  match OAuth2CodeRepository.ValidateCode db now code clientID redirectURI with
  | .error e => (.error e, db)
  | .ok authCode =>
    match checkPKCE s authCode codeVerifier with
    | .error e => (.error e, db)
    | .ok _ =>
      match OAuth2CodeRepository.MarkAsUsed db code with
      | (.error e, db) => (.error e, db)
      | (.ok _, db) => mintTokens s db now clientID authCode rnd

end OAuth2AuthorizationService

/-! ## `handler.OAuth2Handler` -/

/-- What a handler sends back: a JSON error body with its status, a redirect,
the rendered consent screen, or a token response. -/
inductive Response where
  | json (status : Nat) (error : String) (description : String)
  | redirect (url : String)
  | render (template : String) (clientID redirectURI scope state codeChallenge
      codeChallengeMethod : String) (requestedScopes : List String)
  | tokens (resp : TokenResponse)
  deriving DecidableEq, Repr

/-- The predicate `unicode.IsSpace`. -/
def isSpace (c : Char) : Bool :=
  c == '\t' || c == '\n' || c == '\x0b' || c == '\x0c' || c == '\r' || c == ' ' ||
  c.toNat == 0x85 || c.toNat == 0xA0 || c.toNat == 0x1680 ||
  (0x2000 ≤ c.toNat && c.toNat ≤ 0x200A) || c.toNat == 0x2028 || c.toNat == 0x2029 ||
  c.toNat == 0x202F || c.toNat == 0x205F || c.toNat == 0x3000

/-- The helper `parseScopes`: `strings.Fields` of the scope parameter. -/
def parseScopes (scopeStr : String) : List String :=
  if scopeStr == "" then []
  else (scopeStr.split isSpace).filter (fun f => !(f == ""))

/-- The query parameters of `GET /oauth2/authorize`. -/
structure AuthorizeQuery where
  responseType : String
  clientID : String
  redirectURI : String
  scope : String
  state : String
  codeChallenge : String
  codeChallengeMethod : String
  deriving DecidableEq, Repr

/-- The form `ConsentRequest` of `POST /oauth2/authorize/consent`. -/
structure ConsentRequest where
  ClientID : String
  RedirectURI : String
  Scope : String
  State : String
  CodeChallenge : String
  CodeChallengeMethod : String
  Approve : String
  deriving DecidableEq, Repr

namespace OAuth2Handler

/-- The challenge and method pointers both authorization handlers build: no
challenge gives two nils, a challenge without method records `S256`. -/
def challengePointers (codeChallenge codeChallengeMethod : String) :
    Option String × Option String :=
  if codeChallenge != "" then
    (some codeChallenge, if codeChallengeMethod == "" then some "S256" else some codeChallengeMethod)
  else (none, none)

/-- The redirect back to the client with the code, and the state when there
is one. -/
def codeRedirect (redirectURI code state : String) : Response :=
  .redirect (if state != "" then redirectURI ++ "?code=" ++ code ++ "&state=" ++ state
             else redirectURI ++ "?code=" ++ code)

/-- `OAuth2Handler.Authorize`.  `userID` is `c.Locals("user_id")` and
`originalURL` is `c.OriginalURL()`. -/
def Authorize (s : OAuth2AuthorizationService) (db : DB) (now : Time) (q : AuthorizeQuery)
    (userID : Option String) (originalURL : String) (code id : String) : Response × DB :=
  if q.responseType != "code" then
    (.json 400 "unsupported_response_type" "Only authorization code flow is supported", db)
  else if q.clientID == "" || q.redirectURI == "" then
    (.json 400 "invalid_request" "Missing required parameters", db)
  else
    match OAuth2ClientRepository.ValidateRedirectURI db q.clientID q.redirectURI with
    | .error _ => (.json 400 "invalid_client" "Invalid client_id or redirect_uri", db)
    | .ok false => (.json 400 "invalid_client" "Invalid client_id or redirect_uri", db)
    | .ok true =>
      match userID with
      | none => (.redirect ("/login.html?return_url=" ++ originalURL), db)
      | some userIDStr =>
        let scopes := parseScopes q.scope
        match OAuth2ConsentService.CheckConsent db userIDStr q.clientID scopes with
        | .error _ => (.json 500 "server_error" "", db)
        | .ok (hasConsent, missingScopes) =>
          if !hasConsent || missingScopes.length > 0 then
            (.render "oauth2/consent" q.clientID q.redirectURI q.scope q.state q.codeChallenge
              q.codeChallengeMethod scopes, db)
          else
            let ptrs := challengePointers q.codeChallenge q.codeChallengeMethod
            match s.CreateAuthorizationCode db now q.clientID userIDStr q.redirectURI scopes
                ptrs.1 ptrs.2 code id with
            | (.error _, db) => (.json 500 "server_error" "", db)
            | (.ok code, db) => (codeRedirect q.redirectURI code q.state, db)

/-- `OAuth2Handler.AuthorizeConsent`.  `body` is the parsed form, `none` when
`BodyParser` fails. -/
def AuthorizeConsent (s : OAuth2AuthorizationService) (db : DB) (now : Time)
    (userID : Option String) (body : Option ConsentRequest) (code id : String) : Response × DB :=
  match userID with
  | none => (.json 401 "unauthorized" "", db)
  | some userIDStr =>
    match body with
    | none => (.json 400 "invalid_request" "", db)
    | some req =>
      if req.Approve != "true" then
        (.redirect (if req.State != "" then
                      req.RedirectURI ++ "?error=access_denied" ++ "&state=" ++ req.State
                    else req.RedirectURI ++ "?error=access_denied"), db)
      else
        let scopes := parseScopes req.Scope
        match OAuth2ConsentService.GrantConsent db userIDStr req.ClientID scopes with
        | (.error _, db) => (.json 500 "server_error" "", db)
        | (.ok _, db) =>
          let ptrs := challengePointers req.CodeChallenge req.CodeChallengeMethod
          match s.CreateAuthorizationCode db now req.ClientID userIDStr req.RedirectURI scopes
              ptrs.1 ptrs.2 code id with
          | (.error _, db) => (.json 500 "server_error" "", db)
          | (.ok code, db) => (codeRedirect req.RedirectURI code req.State, db)

/-- The error text of `err.Error()` for the errors the token endpoint shows. -/
def errorText : Err → String
  | .ErrNotFound => "record not found"
  | .ErrInvalidCredentials => "invalid email or password"
  | .ErrAccountLocked => "account is locked due to too many failed attempts"
  | .ErrAccountInactive => "account is not active"
  | .ErrExpiredToken => "token has expired"
  | .ErrCodeNotFound => "authorization code not found"
  | .ErrCodeExpired => "authorization code has expired"
  | .ErrCodeUsed => "authorization code has already been used"
  | .ErrInvalidPKCE => "invalid PKCE challenge/verifier"
  | .ErrTokenNotFound => "token not found"
  | .ErrTokenExpired => "token has expired"
  | .ErrTokenRevoked => "token has been revoked"
  | .ErrClientNotFound => "oauth2 client not found"
  | .ErrConsentNotFound => "user consent not found"
  | .ErrPasswordTooShort => "password is too short"
  | .ErrPasswordNoUppercase => "password must contain at least one uppercase letter"
  | .ErrPasswordNoLowercase => "password must contain at least one lowercase letter"
  | .ErrPasswordNoNumber => "password must contain at least one number"
  | .ErrPasswordNoSpecial => "password must contain at least one special character"
  | .ErrPasswordCommon => "password is too common"
  | .ErrPasswordReused => "password was recently used"
  | .ErrTokenUsed => "reset token has already been used"
  | .ErrResetTokenExpired => "reset token has expired"
  | .ErrResetTokenNotFound => "reset token not found"
  | .ErrInvalidTOTPCode => "invalid TOTP code"
  | .ErrTwoFactorNotSetup => "two-factor authentication not setup"
  | .msg text => text
  | .gorm text => text

/-- `OAuth2Handler.handleAuthorizationCodeGrant`: the form values `code`,
`redirect_uri` and `code_verifier` (empty when absent); every error of the
exchange is answered `400 invalid_grant`. -/
def handleAuthorizationCodeGrant (s : OAuth2AuthorizationService) (db : DB) (now : Time)
    (clientID code redirectURI codeVerifier : String) (rnd : TokenDraw) : Response × DB :=
  if code == "" || redirectURI == "" then (.json 400 "invalid_request" "", db)
  else
    let verifierPtr : Option String := if codeVerifier != "" then some codeVerifier else none
    match s.ExchangeCodeForTokens db now code clientID redirectURI verifierPtr rnd with
    | (.error e, db) => (.json 400 "invalid_grant" (errorText e), db)
    | (.ok tokenResp, db) => (.tokens tokenResp, db)

/-- `OAuth2Handler.handleRefreshTokenGrant`. -/
def handleRefreshTokenGrant (s : OAuth2AuthorizationService) (db : DB) (now : Time)
    (clientID refreshToken : String) (rnd : TokenDraw) : Response × DB :=
  if refreshToken == "" then (.json 400 "invalid_request" "", db)
  else
    match s.tokenService.RefreshAccessToken db now refreshToken clientID rnd with
    | (.error e, db) => (.json 400 "invalid_grant" (errorText e), db)
    | (.ok tokenResp, db) => (.tokens tokenResp, db)

end OAuth2Handler

/-- The code is stored and its `used` flag is set. -/
def codeIsUsed (db : DB) (code : String) : Bool :=
  match OAuth2CodeRepository.GetByCode db code with
  | .ok r => r.Used
  | .error _ => false

/-- Every stored code that belongs to a public client carries a PKCE
challenge. -/
def pkceBound (db : DB) : Bool :=
  db.oauth2_authorization_codes.all (fun r =>
    match OAuth2ClientRepository.GetByClientID db r.ClientID with
    | .ok client => !client.IsPublic || r.CodeChallenge.isSome
    | .error _ => true)

/-! ## Sequences of OAuth2 operations -/

/-- A call of one of the OAuth2 services that write to the code and token
tables, with the instant of the call and the values it draws. -/
inductive OAuth2Op where
  | createCode (now : Time) (clientID userID redirectURI : String) (scopes : List String)
      (codeChallenge codeChallengeMethod : Option String) (code id : String)
  | exchange (now : Time) (code clientID redirectURI : String) (codeVerifier : Option String)
      (rnd : TokenDraw)
  | refresh (now : Time) (refreshToken clientID : String) (rnd : TokenDraw)

/-- The database an operation leaves. -/
def OAuth2Op.run (s : OAuth2AuthorizationService) (db : DB) : OAuth2Op → DB
  | .createCode now clientID userID redirectURI scopes codeChallenge codeChallengeMethod code id =>
    (s.CreateAuthorizationCode db now clientID userID redirectURI scopes codeChallenge
      codeChallengeMethod code id).2
  | .exchange now code clientID redirectURI codeVerifier rnd =>
    (s.ExchangeCodeForTokens db now code clientID redirectURI codeVerifier rnd).2
  | .refresh now refreshToken clientID rnd =>
    (s.tokenService.RefreshAccessToken db now refreshToken clientID rnd).2

/-- The database a sequence of operations leaves. -/
def runOps (s : OAuth2AuthorizationService) (db : DB) (ops : List OAuth2Op) : DB :=
  ops.foldl (OAuth2Op.run s) db

/-! ## Two exchanges of one code, step by step

`ExchangeCodeForTokens` touches the code table twice: `ValidateCode` reads the
row, `MarkAsUsed` writes it.  The two steps of one call can be separated by
steps of another call. -/

/-- The inputs of one `ExchangeCodeForTokens` call other than the code. -/
structure ExchangeCall where
  now : Time
  clientID : String
  redirectURI : String
  codeVerifier : Option String
  rnd : TokenDraw

/-- Where a call stands: not started, past `ValidateCode` and the PKCE check
with the row it read, or returned. -/
inductive CallState where
  | ready
  | validated (authCode : OAuth2AuthorizationCode)
  | returned (result : Except Err TokenResponse)
  deriving DecidableEq, Repr

/-- The next store step of a call: from `ready`, `ValidateCode` and the PKCE
check; from `validated`, `MarkAsUsed` and the minting of the tokens. -/
def CallState.step (s : OAuth2AuthorizationService) (code : String) (call : ExchangeCall)
    (db : DB) : CallState → CallState × DB
  | .ready =>
    match OAuth2CodeRepository.ValidateCode db call.now code call.clientID call.redirectURI with
    | .error e => (.returned (.error e), db)
    | .ok authCode =>
      match s.checkPKCE authCode call.codeVerifier with
      | .error e => (.returned (.error e), db)
      | .ok _ => (.validated authCode, db)
  | .validated authCode =>
    match OAuth2CodeRepository.MarkAsUsed db code with
    | (.error e, db) => (.returned (.error e), db)
    | (.ok _, db) =>
      let r := s.mintTokens db call.now call.clientID authCode call.rnd
      (.returned r.1, r.2)
  | .returned result => (.returned result, db)

/-- The state of two calls `a` and `b` exchanging the same code. -/
structure RaceState where
  a : CallState
  b : CallState
  db : DB

/-- Runs a schedule: `true` lets call `a` take its next step, `false` call
`b`. -/
def runSchedule (s : OAuth2AuthorizationService) (code : String) (a b : ExchangeCall) :
    List Bool → RaceState → RaceState
  | [], st => st
  | true :: rest, st =>
    runSchedule s code a b rest
      { st with a := (st.a.step s code a st.db).1, db := (st.a.step s code a st.db).2 }
  | false :: rest, st =>
    runSchedule s code a b rest
      { st with b := (st.b.step s code b st.db).1, db := (st.b.step s code b st.db).2 }

/-- The call returned tokens. -/
def CallState.gotTokens : CallState → Bool
  | .returned (.ok _) => true
  | _ => false

/-! ## Library primitives: bytes, `encoding/base64`, `crypto/sha256` -/

/-- A byte. -/
abbrev Byte := Fin 256

/-- The conversion `[]byte(s)`: the UTF-8 bytes of a string. -/
def bytesOf (s : String) : List Byte :=
  s.toUTF8.data.toList.map (fun b => b.val)

namespace base64

/-- The alphabet of `base64.URLEncoding` and `base64.RawURLEncoding`. -/
def encodeURL : List Char :=
  "ABCDEFGHIJKLMNOPQRSTUVWXYZabcdefghijklmnopqrstuvwxyz0123456789-_".data

/-- The character `enc.encode[i & 0x3F]`. -/
def encodeChar (i : Nat) : Char :=
  encodeURL.getD (i % 64) 'A'

/-- The data characters that `Encoding.Encode` writes: four per full group of
three bytes (`val = b0<<16 | b1<<8 | b2`, then the sextets `val>>18`,
`val>>12`, `val>>6`, `val`), and two or three for a final group of one or two
bytes. -/
def encodeData : List Byte → List Char
  | [] => []
  | [a] =>
    let val := a.val * 65536
    [encodeChar (val / 262144), encodeChar (val / 4096)]
  | [a, b] =>
    let val := a.val * 65536 + b.val * 256
    [encodeChar (val / 262144), encodeChar (val / 4096), encodeChar (val / 64)]
  | a :: b :: c :: rest =>
    let val := a.val * 65536 + b.val * 256 + c.val
    encodeChar (val / 262144) :: encodeChar (val / 4096) :: encodeChar (val / 64) ::
      encodeChar val :: encodeData rest

/-- The padding characters of the standard padded encodings. -/
def padding (n : Nat) : List Char :=
  if n % 3 = 1 then ['=', '='] else if n % 3 = 2 then ['='] else []

/-- `base64.URLEncoding.EncodeToString`: URL-safe alphabet, padded with `=`. -/
def URLEncoding.EncodeToString (src : List Byte) : String :=
  ⟨encodeData src ++ padding src.length⟩

/-- `base64.RawURLEncoding.EncodeToString`: URL-safe alphabet, no padding. -/
def RawURLEncoding.EncodeToString (src : List Byte) : String :=
  ⟨encodeData src⟩

end base64

namespace sha256

/-- The round constants of SHA-256 (FIPS 180-4, 4.2.2). -/
def K : List Nat :=
  [ 0x428a2f98, 0x71374491, 0xb5c0fbcf, 0xe9b5dba5, 0x3956c25b, 0x59f111f1,
    0x923f82a4, 0xab1c5ed5, 0xd807aa98, 0x12835b01, 0x243185be, 0x550c7dc3,
    0x72be5d74, 0x80deb1fe, 0x9bdc06a7, 0xc19bf174, 0xe49b69c1, 0xefbe4786,
    0x0fc19dc6, 0x240ca1cc, 0x2de92c6f, 0x4a7484aa, 0x5cb0a9dc, 0x76f988da,
    0x983e5152, 0xa831c66d, 0xb00327c8, 0xbf597fc7, 0xc6e00bf3, 0xd5a79147,
    0x06ca6351, 0x14292967, 0x27b70a85, 0x2e1b2138, 0x4d2c6dfc, 0x53380d13,
    0x650a7354, 0x766a0abb, 0x81c2c92e, 0x92722c85, 0xa2bfe8a1, 0xa81a664b,
    0xc24b8b70, 0xc76c51a3, 0xd192e819, 0xd6990624, 0xf40e3585, 0x106aa070,
    0x19a4c116, 0x1e376c08, 0x2748774c, 0x34b0bcb5, 0x391c0cb3, 0x4ed8aa4a,
    0x5b9cca4f, 0x682e6ff3, 0x748f82ee, 0x78a5636f, 0x84c87814, 0x8cc70208,
    0x90befffa, 0xa4506ceb, 0xbef9a3f7, 0xc67178f2 ]

/-- The initial hash value (FIPS 180-4, 5.3.3). -/
def init : List Nat :=
  [ 0x6a09e667, 0xbb67ae85, 0x3c6ef372, 0xa54ff53a, 0x510e527f, 0x9b05688c,
    0x1f83d9ab, 0x5be0cd19 ]

/-- Rotation of a 32-bit word to the right. -/
def rotr (x n : Nat) : Nat :=
  ((x >>> n) ||| (x <<< (32 - n))) % 2 ^ 32

/-- The message with the bit `1`, zero bytes up to 56 modulo 64, and the
bit length as 8 big-endian bytes appended (FIPS 180-4, 5.1.1). -/
def pad (msg : List Nat) : List Nat :=
  msg ++ [0x80] ++ List.replicate ((119 - msg.length % 64) % 64) 0 ++
    (List.range 8).map (fun i => (8 * msg.length) / 2 ^ (8 * (7 - i)) % 256)

/-- Big-endian 32-bit words of a byte sequence. -/
def words : List Nat → List Nat
  | a :: b :: c :: d :: rest => (a * 2 ^ 24 + b * 2 ^ 16 + c * 2 ^ 8 + d) :: words rest
  | _ => []

/-- The message schedule of one block of 16 words (FIPS 180-4, 6.2.2 step 1). -/
def schedule (block : List Nat) : List Nat :=
  (List.range 48).foldl
    (fun w i =>
      let x := w.getD (i + 1) 0
      let y := w.getD (i + 14) 0
      let s0 := rotr x 7 ^^^ rotr x 18 ^^^ (x >>> 3)
      let s1 := rotr y 17 ^^^ rotr y 19 ^^^ (y >>> 10)
      w ++ [(s1 + w.getD (i + 9) 0 + s0 + w.getD i 0) % 2 ^ 32])
    block

/-- One round of the compression function on the working variables
`[a, b, c, d, e, f, g, h]` (FIPS 180-4, 6.2.2 step 3). -/
def round (v : List Nat) (k w : Nat) : List Nat :=
  match v with
  | [a, b, c, d, e, f, g, h] =>
    let S1 := rotr e 6 ^^^ rotr e 11 ^^^ rotr e 25
    let ch := (e &&& f) ^^^ ((e ^^^ 0xffffffff) &&& g)
    let t1 := (h + S1 + ch + k + w) % 2 ^ 32
    let S0 := rotr a 2 ^^^ rotr a 13 ^^^ rotr a 22
    let maj := (a &&& b) ^^^ (a &&& c) ^^^ (b &&& c)
    let t2 := (S0 + maj) % 2 ^ 32
    [(t1 + t2) % 2 ^ 32, a, b, c, (d + t1) % 2 ^ 32, e, f, g]
  | _ => v

/-- The hash value after one more block. -/
def compress (H : List Nat) (block : List Nat) : List Nat :=
  let v := (List.zip K (schedule block)).foldl (fun v kw => round v kw.1 kw.2) H
  List.zipWith (fun x y => (x + y) % 2 ^ 32) H v

/-- The digest words of a padded message, block by block. -/
def blocks (ws : List Nat) : List Nat :=
  (List.range (ws.length / 16)).foldl
    (fun H i => compress H ((ws.drop (16 * i)).take 16)) init

/-- `sha256.Sum256`: the 32 bytes of the SHA-256 digest. -/
def Sum256 (data : List Byte) : List Byte :=
  (blocks (words (pad (data.map (fun b => b.val))))).flatMap
    (fun w => [Fin.ofNat (w / 2 ^ 24), Fin.ofNat (w / 2 ^ 16), Fin.ofNat (w / 2 ^ 8),
               Fin.ofNat w])

end sha256

/-- The library primitives of the deployed server: a password comparison
`cmp` (bcrypt) and the S256 transform computed as
`base64.RawURLEncoding.EncodeToString(sha256.Sum256([]byte(verifier)))`. -/
def Crypto.standard (cmp : String → String → Bool) : Crypto :=
  { ComparePassword := cmp
    S256 := fun verifier =>
      base64.RawURLEncoding.EncodeToString (sha256.Sum256 (bytesOf verifier)) }

/-! ## `utils.GenerateRandomToken` -/

/-- `utils.GenerateRandomToken(length)`. The argument `read` is the outcome of
`rand.Read(bytes)` on the buffer of `length` bytes: an error, or the filled
buffer. The result is `none` when the slice `[:length]` of the encoded string
is out of range (a run-time panic). -/
def GenerateRandomToken (length : Nat) (read : Except Err (List Byte)) :
    Option (Except Err String) :=
  match read with
  | .error e => some (.error e)
  | .ok bytes =>
    let s := base64.URLEncoding.EncodeToString bytes
    if length ≤ s.length then some (.ok ⟨s.data.take length⟩) else none

/-! ## `utils` : password policy -/

/-- `utils.PasswordPolicy`. -/
structure PasswordPolicy where
  MinLength : Int
  RequireUpper : Bool
  RequireLower : Bool
  RequireNumber : Bool
  RequireSpecial : Bool
  deriving DecidableEq, Repr

/-- The functions of the Go packages `unicode` and `strings` that classify and
lower-case characters: `unicode.IsUpper`, `unicode.IsLower`, `unicode.IsDigit`
and `strings.ToLower`. -/
structure Unicode where
  IsUpper : Char → Bool
  IsLower : Char → Bool
  IsDigit : Char → Bool
  ToLower : String → String

/-- The character class of the regular expression in `ValidatePassword`:
the characters ! @ # $ % ^ & * ( ) _ + - = [ ] { } ; ' : " \ | , . < > / ? -/
def specialChars : List Char :=
  ['!', '@', '#', '$', '%', '^', '&', '*', '(', ')', '_', '+', '-', '=', '[', ']',
   '\x7b', '\x7d', ';', '\x27', ':', '\x22', '\x5c', '|', ',', '.', '<', '>', '/', '?']

/-- The list `commonPasswords` bundled in `isCommonPassword`. -/
def commonPasswords : List String :=
  ["password", "123456", "12345678", "qwerty", "abc123",
   "monkey", "1234567", "letmein", "trustno1", "dragon",
   "baseball", "iloveyou", "master", "sunshine", "ashley",
   "bailey", "passw0rd", "shadow", "123123", "654321",
   "superman", "qazwsx", "michael", "football"]

/-- Whether `substr` occurs in `s` as a contiguous run of characters. -/
def containsChars : List Char → List Char → Bool
  | [], substr => substr.isEmpty
  | c :: rest, substr => substr.isPrefixOf (c :: rest) || containsChars rest substr

/-- `strings.Contains`. -/
def Contains (s substr : String) : Bool :=
  containsChars s.data substr.data

/-- `utils.isCommonPassword`: an exact match of the lower-cased password with
an entry of the list, or an entry of more than 4 bytes contained in it. -/
def isCommonPassword (u : Unicode) (password : String) : Bool :=
  let passwordLower := u.ToLower password
  if commonPasswords.any (fun common => passwordLower == common) then true
  else commonPasswords.any (fun common =>
    Contains passwordLower common && decide (4 < common.utf8ByteSize))

/-- `utils.ValidatePassword`: `len(password)` is the length in bytes, the
loops range over the characters, and the regular expression matches when some
character is in its class. -/
def ValidatePassword (u : Unicode) (password : String) (policy : PasswordPolicy) :
    Except Err Unit :=
  if (password.utf8ByteSize : Int) < policy.MinLength then .error .ErrPasswordTooShort
  else if policy.RequireUpper && !(password.data.any u.IsUpper) then
    .error .ErrPasswordNoUppercase
  else if policy.RequireLower && !(password.data.any u.IsLower) then
    .error .ErrPasswordNoLowercase
  else if policy.RequireNumber && !(password.data.any u.IsDigit) then
    .error .ErrPasswordNoNumber
  else if policy.RequireSpecial && !(password.data.any (fun ch => specialChars.contains ch)) then
    .error .ErrPasswordNoSpecial
  else if isCommonPassword u password then .error .ErrPasswordCommon
  else .ok ()

/-- The too-common check as the specification words it: the lower-cased
password equals an entry of the bundled list, or contains an entry of length
greater than 4 as a substring. -/
def tooCommon_spec (u : Unicode) (password : String) : Prop :=
  u.ToLower password ∈ commonPasswords ∨
  ∃ common ∈ commonPasswords, 4 < common.utf8ByteSize ∧
    common.data <:+: (u.ToLower password).data

/-- The too-common check of the specification can be evaluated. -/
instance instDecidableTooCommon (u : Unicode) (password : String) :
    Decidable (tooCommon_spec u password) :=
  inferInstanceAs (Decidable (_ ∨ _))

/-- The checks of the specification in their fixed order, each with whether
it fails on the password and the error it stands for. -/
def passwordChecks_spec (u : Unicode) (password : String) (policy : PasswordPolicy) :
    List (Bool × Err) :=
  [ (decide ((password.utf8ByteSize : Int) < policy.MinLength), .ErrPasswordTooShort),
    (policy.RequireUpper && !(password.data.any u.IsUpper), .ErrPasswordNoUppercase),
    (policy.RequireLower && !(password.data.any u.IsLower), .ErrPasswordNoLowercase),
    (policy.RequireNumber && !(password.data.any u.IsDigit), .ErrPasswordNoNumber),
    (policy.RequireSpecial && !(password.data.any (fun ch => decide (ch ∈ specialChars))),
      .ErrPasswordNoSpecial),
    (decide (tooCommon_spec u password), .ErrPasswordCommon) ]

/-- The validation as the specification words it: the error of the first
failing check, and no error when none fails. -/
def ValidatePassword_spec (u : Unicode) (password : String) (policy : PasswordPolicy) :
    Except Err Unit :=
  match (passwordChecks_spec u password policy).find? (fun check => check.1) with
  | some check => .error check.2
  | none => .ok ()

/-! ## `repository.PasswordHistoryRepository` -/

namespace PasswordHistoryRepository

/-- `PasswordHistoryRepository.Create`: a row with a fresh uuid (`id`) and the
current time; the insert fails on a duplicate primary key. -/
def Create (db : DB) (userID passwordHash id : String) (now : Time) : Except Err Unit × DB :=
  if db.password_history.any (fun r => r.ID == id) then
    (.error (.gorm "UNIQUE constraint failed"), db)
  else
    (.ok (), { db with
      password_history := db.password_history ++
        [{ ID := id, UserID := userID, PasswordHash := passwordHash, CreatedAt := now }] })

/-- The rows of a user in the order of `ORDER BY created_at DESC`; rows with
equal `created_at` are kept in insertion order. -/
def newestFirst (db : DB) (userID : String) : List PasswordHistory :=
  (db.password_history.filter (fun r => r.UserID == userID)).insertionSort
    (fun a b => b.CreatedAt ≤ a.CreatedAt)

/-- `PasswordHistoryRepository.GetRecentPasswords`: the `count` newest rows of
the user. -/
def GetRecentPasswords (db : DB) (userID : String) (count : Int) : List PasswordHistory :=
  (newestFirst db userID).take count.toNat

/-- `PasswordHistoryRepository.CleanupOldPasswords`: keeps the ids of the
`keepCount` newest rows of the user and deletes the user's other rows; with no
id to keep it deletes every row of the user. -/
def CleanupOldPasswords (db : DB) (userID : String) (keepCount : Int) : Except Err Unit × DB :=
  let idsToKeep := ((newestFirst db userID).take keepCount.toNat).map (fun r => r.ID)
  if 0 < idsToKeep.length then
    (.ok (), { db with
      password_history := db.password_history.filter
        (fun r => !(r.UserID == userID && !(idsToKeep.contains r.ID))) })
  else
    (.ok (), { db with
      password_history := db.password_history.filter (fun r => !(r.UserID == userID)) })

end PasswordHistoryRepository

/-! ## `service.PasswordService` -/

/-- The configuration of `service.PasswordService` (over the database-backed
session store). -/
structure PasswordService where
  crypto : Crypto
  unicode : Unicode
  policy : PasswordPolicy
  historyCount : Int
  tokenExpiry : Duration

namespace PasswordService

/-- The loop of `ChangePassword` over the recent passwords: some stored hash
verifies the new password. -/
def reused (s : PasswordService) (db : DB) (userID newPassword : String) : Bool :=
  decide (0 < s.historyCount) &&
    (PasswordHistoryRepository.GetRecentPasswords db userID s.historyCount).any
      (fun oldPassword => s.crypto.ComparePassword oldPassword.PasswordHash newPassword)

/-- The history writes of `ChangePassword` after the password update: the old
hash is added and the history is trimmed; their errors are not returned. -/
def recordHistory (s : PasswordService) (db : DB) (now : Time)
    (userID oldPasswordHash historyID : String) : DB :=
  if 0 < s.historyCount then
    (PasswordHistoryRepository.CleanupOldPasswords
      (PasswordHistoryRepository.Create db userID oldPasswordHash historyID now).2
      userID s.historyCount).2
  else db

/-- `PasswordService.ChangePassword`. The argument `hashed` is the outcome of
`utils.HashPassword(newPassword)` (a salted bcrypt hash, or its error) and
`historyID` the uuid drawn for the history row. -/
def ChangePassword (s : PasswordService) (db : DB) (now : Time)
    (userID currentPassword newPassword : String) (hashed : Except Err String)
    (historyID : String) : Except Err Unit × DB :=
  match UserRepository.GetByID db userID with
  | .error e => (.error e, db)
  | .ok user =>
    if !(s.crypto.ComparePassword user.PasswordHash currentPassword) then
      (.error (.msg "current password is incorrect"), db)
    else
      match ValidatePassword s.unicode newPassword s.policy with
      | .error e => (.error e, db)
      | .ok () =>
        if s.reused db userID newPassword then (.error .ErrPasswordReused, db)
        else
          match hashed with
          | .error e => (.error e, db)
          | .ok hashedPassword =>
            match UserRepository.Update db
                { user with PasswordHash := hashedPassword, PasswordChangedAt := now } with
            | (.error e, db) => (.error e, db)
            | (.ok (), db) =>
              (.ok (), (DatabaseSessionStore.DeleteByUserID
                (s.recordHistory db now userID user.PasswordHash historyID) userID).2)

end PasswordService

/-- The unique index on `sessions.session_token`: no two rows carry the same
token. -/
def uniqueSessionTokens (db : DB) : Prop :=
  ∀ a ∈ db.sessions, ∀ b ∈ db.sessions, a.SessionToken = b.SessionToken → a = b

/-! ## `repository.RedisSessionStore` -/

/-- The keys of the Redis server that the session store uses: string keys
holding the JSON of a session and set keys holding session tokens. Keys leave
by their time to live through the server, not through the store; the state
lists the keys present. -/
structure Redis where
  strings : List (String × Session)
  sets : List (String × List String)
  deriving DecidableEq, Repr

namespace Redis

/-- The command `GET`. -/
def get (rd : Redis) (key : String) : Option Session :=
  (rd.strings.find? (fun kv => kv.1 == key)).map (fun kv => kv.2)

/-- The command `SET`. -/
def set (rd : Redis) (key : String) (value : Session) : Redis :=
  { rd with strings := (key, value) :: rd.strings.filter (fun kv => !(kv.1 == key)) }

/-- The command `DEL`, on a key of either kind. -/
def del (rd : Redis) (key : String) : Redis :=
  { strings := rd.strings.filter (fun kv => !(kv.1 == key))
    sets := rd.sets.filter (fun kv => !(kv.1 == key)) }

/-- The command `SMEMBERS`: a missing key is the empty set. -/
def smembers (rd : Redis) (key : String) : List String :=
  match rd.sets.find? (fun kv => kv.1 == key) with
  | none => []
  | some kv => kv.2

/-- The command `SADD`. -/
def sadd (rd : Redis) (key member : String) : Redis :=
  let members := rd.smembers key
  { rd with sets :=
      (key, if members.contains member then members else members ++ [member]) ::
        rd.sets.filter (fun kv => !(kv.1 == key)) }

/-- The command `SREM`: a set left empty is removed. -/
def srem (rd : Redis) (key member : String) : Redis :=
  let members := (rd.smembers key).filter (fun m => !(m == member))
  { rd with sets :=
      if members.isEmpty then rd.sets.filter (fun kv => !(kv.1 == key))
      else (key, members) :: rd.sets.filter (fun kv => !(kv.1 == key)) }

end Redis

namespace RedisSessionStore

/-- `RedisSessionStore.key`. -/
def key (token : String) : String := "session:" ++ token

/-- `RedisSessionStore.userKey`. -/
def userKey (userID : String) : String := "user_sessions:" ++ userID

/-- `RedisSessionStore.Create`: stores the JSON of the session under the key
of its token and adds the token to the set of the user. -/
def Create (rd : Redis) (session : Session) (freshID : String) : Except Err Session × Redis :=
  let session := if session.ID == "" then { session with ID := freshID } else session
  (.ok session,
    ((rd.set (key session.SessionToken) session).sadd (userKey session.UserID)
      session.SessionToken))

/-- `RedisSessionStore.GetByToken`. -/
def GetByToken (rd : Redis) (token : String) : Except Err Session :=
  match rd.get (key token) with
  | none => .error (.msg "record not found")
  | some session => .ok session

/-- `RedisSessionStore.GetByUserID`: the sessions of the tokens in the set of
the user; a token without a session is removed from the set. -/
def GetByUserID (rd : Redis) (userID : String) : List Session × Redis :=
  (rd.smembers (userKey userID)).foldl
    (fun acc token =>
      match GetByToken acc.2 token with
      | .error _ => (acc.1, acc.2.srem (userKey userID) token)
      | .ok session => (acc.1 ++ [session], acc.2))
    ([], rd)

/-- `RedisSessionStore.Update`. -/
def Update (rd : Redis) (session : Session) (freshID : String) : Except Err Session × Redis :=
  Create rd session freshID

/-- `RedisSessionStore.Delete`: returns nil and issues no command. -/
def Delete (rd : Redis) (_id : String) : Except Err Unit × Redis :=
  (.ok (), rd)

/-- `RedisSessionStore.DeleteByToken`. -/
def DeleteByToken (rd : Redis) (token : String) : Except Err Unit × Redis :=
  match GetByToken rd token with
  | .error _ => (.ok (), rd)
  | .ok session => (.ok (), (rd.del (key token)).srem (userKey session.UserID) token)

/-- `RedisSessionStore.DeleteByUserID`. -/
def DeleteByUserID (rd : Redis) (userID : String) : Except Err Unit × Redis :=
  (.ok (), ((rd.smembers (userKey userID)).foldl (fun acc token => acc.del (key token)) rd).del
    (userKey userID))

end RedisSessionStore

/-! ## `repository.PasswordResetTokenRepository` -/

namespace PasswordResetTokenRepository

/-- `PasswordResetTokenRepository.Create`: the insert fails on a duplicate
primary key or a duplicate `token` (unique index). -/
def Create (db : DB) (token : PasswordResetToken) : Except Err Unit × DB :=
  if db.password_reset_tokens.any (fun r => r.ID == token.ID || r.Token == token.Token) then
    (.error (.gorm "UNIQUE constraint failed"), db)
  else
    (.ok (), { db with password_reset_tokens := db.password_reset_tokens ++ [token] })

/-- `PasswordResetTokenRepository.FindByToken`: the first row with
`token = ? AND used = false AND expires_at > now`. -/
def FindByToken (db : DB) (now : Time) (token : String) : Except Err PasswordResetToken :=
  match db.password_reset_tokens.find?
      (fun r => r.Token == token && r.Used == false && decide (r.ExpiresAt > now)) with
  | none => .error (.gorm "record not found")
  | some r => .ok r

/-- `PasswordResetTokenRepository.MarkAsUsed`: sets `used = true` and
`used_at = now` on the rows with that token. -/
def MarkAsUsed (db : DB) (now : Time) (token : String) : Except Err Unit × DB :=
  (.ok (), { db with
    password_reset_tokens := db.password_reset_tokens.map (fun r =>
      if r.Token == token then { r with Used := true, UsedAt := some now } else r) })

/-- `PasswordResetTokenRepository.DeleteExpired`: deletes the rows with
`expires_at < now`. -/
def DeleteExpired (db : DB) (now : Time) : Except Err Unit × DB :=
  (.ok (), { db with
    password_reset_tokens := db.password_reset_tokens.filter
      (fun r => !(decide (r.ExpiresAt < now))) })

/-- `PasswordResetTokenRepository.DeleteByEmail`: deletes the rows of that
email. -/
def DeleteByEmail (db : DB) (email : String) : Except Err Unit × DB :=
  (.ok (), { db with
    password_reset_tokens := db.password_reset_tokens.filter (fun r => !(r.Email == email)) })

end PasswordResetTokenRepository

namespace PasswordService

/-- `PasswordService.GenerateResetToken`. The argument `token` is the outcome
of `utils.GenerateRandomToken(32)` and `id` the uuid drawn for the row; for an
email without a principal the result is the empty token and no error. -/
def GenerateResetToken (s : PasswordService) (db : DB) (now : Time) (email : String)
    (token : Except Err String) (id : String) : Except Err String × DB :=
  match UserRepository.GetByEmail db email with
  | .error _ => (.ok "", db)
  | .ok user =>
    match token with
    | .error e => (.error e, db)
    | .ok tokenString =>
      match PasswordResetTokenRepository.Create db
          { ID := id, UserID := user.ID, Email := email, Token := tokenString,
            ExpiresAt := now + s.tokenExpiry, Used := false, UsedAt := none } with
      | (.error e, db) => (.error e, db)
      | (.ok (), db) => (.ok tokenString, db)

/-- `PasswordService.ResetPassword`. The argument `hashed` is the outcome of
`utils.HashPassword(newPassword)` and `historyID` the uuid drawn for the
history row; the error of `MarkAsUsed` is not returned. -/
def ResetPassword (s : PasswordService) (db : DB) (now : Time)
    (tokenString newPassword : String) (hashed : Except Err String) (historyID : String) :
    Except Err Unit × DB :=
  match PasswordResetTokenRepository.FindByToken db now tokenString with
  | .error _ => (.error .ErrResetTokenNotFound, db)
  | .ok token =>
    if token.Used then (.error .ErrTokenUsed, db)
    else if now > token.ExpiresAt then (.error .ErrResetTokenExpired, db)
    else
      match ValidatePassword s.unicode newPassword s.policy with
      | .error e => (.error e, db)
      | .ok () =>
        match UserRepository.GetByID db token.UserID with
        | .error e => (.error e, db)
        | .ok user =>
          if s.reused db user.ID newPassword then (.error .ErrPasswordReused, db)
          else
            match hashed with
            | .error e => (.error e, db)
            | .ok hashedPassword =>
              match UserRepository.Update db
                  { user with PasswordHash := hashedPassword, PasswordChangedAt := now } with
              | (.error e, db) => (.error e, db)
              | (.ok (), db) =>
                (.ok (), (DatabaseSessionStore.DeleteByUserID
                  (s.recordHistory (PasswordResetTokenRepository.MarkAsUsed db now tokenString).2
                    now user.ID user.PasswordHash historyID) token.UserID).2)

end PasswordService

/-! ## Sequences of password operations -/

/-- A call of one of the operations of `PasswordService` that write to the
database, with the instant of the call and the values it draws. -/
inductive PasswordOp where
  | change (now : Time) (userID currentPassword newPassword : String)
      (hashed : Except Err String) (historyID : String)
  | forgot (now : Time) (email : String) (token : Except Err String) (id : String)
  | reset (now : Time) (token newPassword : String) (hashed : Except Err String)
      (historyID : String)

/-- The database an operation leaves. -/
def PasswordOp.run (s : PasswordService) (db : DB) : PasswordOp → DB
  | .change now userID currentPassword newPassword hashed historyID =>
    (s.ChangePassword db now userID currentPassword newPassword hashed historyID).2
  | .forgot now email token id => (s.GenerateResetToken db now email token id).2
  | .reset now token newPassword hashed historyID =>
    (s.ResetPassword db now token newPassword hashed historyID).2

/-- The database a sequence of operations leaves. -/
def runPasswordOps (s : PasswordService) (db : DB) (ops : List PasswordOp) : DB :=
  ops.foldl (PasswordOp.run s) db

/-- The ticket of a token is used up: a row carries the token, and every row
carrying it has `used = true`. -/
def ticketUsed (db : DB) (token : String) : Bool :=
  db.password_reset_tokens.any (fun r => r.Token == token) &&
    db.password_reset_tokens.all (fun r => !(r.Token == token) || r.Used)

/-! ## The password history of a principal along a sequence of operations -/

/-- The rows of a principal in `password_history`, in insertion order. -/
def historyRows (db : DB) (userID : String) : List PasswordHistory :=
  db.password_history.filter (fun r => r.UserID == userID)

/-- The hashes in the password history of a principal, newest first. -/
def historyHashes (db : DB) (userID : String) : List String :=
  (PasswordHistoryRepository.newestFirst db userID).map (fun r => r.PasswordHash)

/-- The stored password hash of a principal. -/
def currentHash (db : DB) (userID : String) : Option String :=
  match UserRepository.GetByID db userID with
  | .ok user => some user.PasswordHash
  | .error _ => none

/-- The rows of a principal were inserted at strictly increasing instants,
carry different ids, and are at most `n`. -/
def historyWF (n : Nat) (db : DB) (userID : String) : Prop :=
  (historyRows db userID).Pairwise (fun a b => a.CreatedAt < b.CreatedAt) ∧
  (historyRows db userID).Pairwise (fun a b => a.ID ≠ b.ID) ∧
  (historyRows db userID).length ≤ n

/-- The error result of an operation. -/
def PasswordOp.result (s : PasswordService) (db : DB) : PasswordOp → Except Err Unit
  | .change now userID currentPassword newPassword hashed historyID =>
    (s.ChangePassword db now userID currentPassword newPassword hashed historyID).1
  | .forgot now email token id => (s.GenerateResetToken db now email token id).1.map (fun _ => ())
  | .reset now token newPassword hashed historyID =>
    (s.ResetPassword db now token newPassword hashed historyID).1

/-- The principal whose password an operation sets: the one named by a
change, the one of the ticket found by a reset. -/
def PasswordOp.principal (db : DB) : PasswordOp → Option String
  | .change _ userID _ _ _ _ => some userID
  | .forgot _ _ _ _ => none
  | .reset now token _ _ _ =>
    match PasswordResetTokenRepository.FindByToken db now token with
    | .ok ticket => some ticket.UserID
    | .error _ => none

/-- The instant of an operation. -/
def PasswordOp.instant : PasswordOp → Time
  | .change now _ _ _ _ _ => now
  | .forgot now _ _ _ => now
  | .reset now _ _ _ _ => now

/-- The uuid an operation draws for the history row. -/
def PasswordOp.historyID : PasswordOp → String
  | .change _ _ _ _ _ historyID => historyID
  | .forgot _ _ _ _ => ""
  | .reset _ _ _ _ historyID => historyID

/-- The hash an operation draws for the new password. -/
def PasswordOp.hashed : PasswordOp → Except Err String
  | .change _ _ _ _ hashed _ => hashed
  | .forgot _ _ _ _ => .error (.msg "")
  | .reset _ _ _ hashed _ => hashed

/-- The operation sets the password of the principal: it is a change or a
reset of that principal and succeeds on `db`. -/
def PasswordOp.sets (s : PasswordService) (userID : String) (db : DB) (op : PasswordOp) : Bool :=
  decide (op.principal db = some userID) && decide (op.result s db = .ok ())

/-- What the clock and the random draws give to an operation that sets the
password of the principal: an instant later than the rows of the principal's
history, a history id that no row carries, and a salted hash that is not
stored for the principal. -/
def PasswordOp.fresh (userID : String) (db : DB) (op : PasswordOp) : Bool :=
  (historyRows db userID).all (fun r => decide (r.CreatedAt < op.instant)) &&
    db.password_history.all (fun r => !(r.ID == op.historyID)) &&
    (match op.hashed with
     | .ok h => !(currentHash db userID == some h) && !((historyHashes db userID).contains h)
     | .error _ => true)

/-- Along the sequence, every operation that sets the password of the
principal runs with a fresh instant, history id and hash. -/
def freshRun (s : PasswordService) (userID : String) : DB → List PasswordOp → Bool
  | _, [] => true
  | db, op :: rest =>
    (!(op.sets s userID db) || op.fresh userID db) && freshRun s userID (op.run s db) rest

/-- The hashes that the operations of the sequence replaced for the principal,
oldest first: the stored hash before each operation that sets the password. -/
def replacedHashes (s : PasswordService) (userID : String) : DB → List PasswordOp → List String
  | _, [] => []
  | db, op :: rest =>
    (if op.sets s userID db then (currentHash db userID).toList else []) ++
      replacedHashes s userID (op.run s db) rest

/-! ## `service.TOTPService` -/

/-- The configuration of `service.TOTPService`; `validate` is
`totp.Validate(passcode, secret)` at the instant of the call. -/
structure TOTPService where
  issuer : String
  validate : String → String → Time → Bool

/-- The random values of one `SetupTOTP` call: the outcome of `totp.Generate`
(the secret of the key, or its error) and the backup codes. -/
structure TOTPDraw where
  key : Except Err String
  backupCodes : List String

namespace TOTPService

/-- `TOTPService.SetupTOTP`: returns the secret of the generated key and the
backup codes. The `models.TwoFactorAuth` record the function fills is handed to
no repository, so the database is left as it was. -/
def SetupTOTP (_s : TOTPService) (db : DB) (userID : String) (rnd : TOTPDraw) :
    Except Err (String × List String) × DB :=
  match UserRepository.GetByID db userID with
  | .error e => (.error e, db)
  | .ok _ =>
    match rnd.key with
    | .error e => (.error e, db)
    | .ok secret => (.ok (secret, rnd.backupCodes), db)

/-- `TOTPService.VerifyAndEnableTOTP`. -/
def VerifyAndEnableTOTP (s : TOTPService) (db : DB) (now : Time) (userID code : String) :
    Except Err Unit × DB :=
  match UserRepository.GetByID db userID with
  | .error e => (.error e, db)
  | .ok user =>
    match user.TwoFactorAuth with
    | none => (.error .ErrTwoFactorNotSetup, db)
    | some twoFA =>
      if !(s.validate code twoFA.SecretEncrypted now) then (.error .ErrInvalidTOTPCode, db)
      else
        UserRepository.Update db
          { user with TwoFactorAuth := some { twoFA with Enabled := true, EnabledAt := some now } }

end TOTPService

/-! ## The lock invariant of a principal -/

/-- The principal invariant of the specification, at the instant `now`: a
locked principal has a lock instant that is set and in the future, or at least
`maxAttempts` failed attempts. -/
def lockInvariant (maxAttempts : Int) (now : Time) (u : User) : Bool :=
  !u.IsLocked ||
    (match u.LockedUntil with
     | some t => decide (now < t)
     | none => false) ||
    decide (maxAttempts ≤ u.FailedLoginAttempts)

/-! ## Sample data

Concrete configurations and databases at which the statements below are
evaluated. -/

namespace Sample

/-- A stand-in for bcrypt and SHA-256: a password verifies against itself and
the S256 transform prefixes its input. -/
def crypto : Crypto :=
  { ComparePassword := fun hash password => hash == password
    S256 := fun verifier => "s256:" ++ verifier }

/-- An auth service locking after two failures for 30 minutes, with 24-hour
sessions. -/
def auth : AuthService :=
  { crypto := crypto, sessionService := { timeout := 24 * Hour },
    maxAttempts := 2, lockoutDuration := 30 * Minute }

/-- An active, unlocked principal without 2FA. -/
def alice : User :=
  { ID := "u1", Email := "a@b.c", PasswordHash := "pw", Name := "Alice",
    EmailVerified := true, IsActive := true, IsLocked := false, FailedLoginAttempts := 0,
    LockedUntil := none, PasswordChangedAt := 0, LastLoginAt := none, TwoFactorAuth := none }

/-- A database holding only `alice`. -/
def db : DB := { DB.empty with users := [alice] }

/-- A session draw with token `T` and id `s1`. -/
def draw : SessionDraw := { token := .ok "T", id := "s1", freshID := "s2" }

/-- Two wrong-password attempts, at instants 10 and 20. -/
def wrongAttempts : List LoginAttempt :=
  [ { now := 10, password := "x", ipAddress := "ip", userAgent := "ua", rnd := draw },
    { now := 20, password := "y", ipAddress := "ip", userAgent := "ua", rnd := draw } ]

/-- The principal `alice`, locked until instant 100. -/
def lockedAlice : User :=
  { alice with IsLocked := true, LockedUntil := some 100, FailedLoginAttempts := 2 }

/-- A database holding only `lockedAlice`. -/
def lockedDb : DB := { DB.empty with users := [lockedAlice] }

/-- An active, unlocked principal with an enabled TOTP enrollment. -/
def carol : User :=
  { ID := "u3", Email := "c@b.c", PasswordHash := "pw", Name := "Carol",
    EmailVerified := true, IsActive := true, IsLocked := false, FailedLoginAttempts := 0,
    LockedUntil := none, PasswordChangedAt := 0, LastLoginAt := none, TwoFactorAuth := none }

/-- The enabled TOTP enrollment of `carol`. -/
def carolTotp : TwoFactorAuth :=
  { ID := "t3", UserID := "u3", SecretEncrypted := "secret", Enabled := true,
    BackupCodesEncrypted := "", EnabledAt := some 0 }

/-- A database holding `carol` and her enrollment. -/
def db2fa : DB := { DB.empty with users := [carol], two_factor_auth := [carolTotp] }

/-- A stand-in for RS256 signing: the claims written out. -/
def sign (claims : Claims) : Except Err String :=
  .ok (claims.foldl (fun acc p => acc ++ "|" ++ p.1 ++ "=" ++
    (match p.2 with
     | .str v => v
     | .num n => toString n)) "jwt")

/-- A token service with one-hour access tokens and 30-day refresh tokens. -/
def tokens : OAuth2TokenService :=
  { sign := sign, hashToken := fun t => "h:" ++ t,
    accessTokenExpiry := Hour, refreshTokenExpiry := 720 * Hour }

/-- An authorization service with 10-minute codes that enforces PKCE. -/
def oauth : OAuth2AuthorizationService :=
  { crypto := crypto, tokenService := tokens, codeExpiry := 10 * Minute, enforcePKCE := true }

/-- The same authorization service with PKCE enforcement switched off. -/
def oauthLax : OAuth2AuthorizationService := { oauth with enforcePKCE := false }

/-- A public client. -/
def publicClient : OAuth2Client :=
  { ID := "c1", ClientID := "C1", ClientSecret := "", Name := "app",
    RedirectURIs := ["http://app/cb"], AllowedScopes := ["openid", "profile"],
    GrantTypes := ["authorization_code", "refresh_token"], IsPublic := true, IsActive := true }

/-- A confidential client. -/
def confidentialClient : OAuth2Client :=
  { ID := "c2", ClientID := "C2", ClientSecret := "secret", Name := "backend",
    RedirectURIs := ["http://srv/cb"], AllowedScopes := ["openid"],
    GrantTypes := ["authorization_code", "refresh_token"], IsPublic := false, IsActive := true }

/-- A database with the two clients and the scopes they may ask for. -/
def oauthDb : DB :=
  { DB.empty with
    oauth2_clients := [publicClient, confidentialClient],
    oauth2_scopes := [{ ID := "sc1", Name := "openid" }, { ID := "sc2", Name := "profile" }] }

/-- The database after the confidential client was issued the code `K` at
instant 0. -/
def codeDb : DB :=
  (oauth.CreateAuthorizationCode oauthDb 0 "C2" "u1" "http://srv/cb" ["openid"] none none
    "K" "k1").2

/-- The draws of a first token mint. -/
def mint1 : TokenDraw := { accessID := "a1", refreshToken := "R1", refreshID := "r1" }

/-- The draws of a second token mint. -/
def mint2 : TokenDraw := { accessID := "a2", refreshToken := "R2", refreshID := "r2" }

/-- The draws of a third token mint. -/
def mint3 : TokenDraw := { accessID := "a3", refreshToken := "R3", refreshID := "r3" }

/-- A first exchange call of the confidential client, at 5 ns. -/
def callA : ExchangeCall :=
  { now := 5, clientID := "C2", redirectURI := "http://srv/cb", codeVerifier := none,
    rnd := mint1 }

/-- A second exchange call of the confidential client, two seconds later. -/
def callB : ExchangeCall :=
  { now := 2000000000, clientID := "C2", redirectURI := "http://srv/cb", codeVerifier := none,
    rnd := mint2 }

/-- The database after the public client was issued the code `P`, bound to
the S256 challenge of the verifier `V`, at instant 0. -/
def pkceDb : DB :=
  (oauth.CreateAuthorizationCode oauthDb 0 "C1" "u1" "http://app/cb" ["openid", "profile"]
    (some "s256:V") (some "S256") "P" "p1").2

/-- The row of the code `P`. -/
def pkceCode : OAuth2AuthorizationCode :=
  { ID := "p1", Code := "P", ClientID := "C1", UserID := "u1", RedirectURI := "http://app/cb",
    Scopes := ["openid", "profile"], CodeChallenge := some "s256:V",
    CodeChallengeMethod := some "S256", ExpiresAt := 10 * Minute, Used := false }

/-- The database after the code `K` was exchanged at 5 ns: it holds the
refresh token `R1` of the confidential client. -/
def tokenDb : DB :=
  (oauth.ExchangeCodeForTokens codeDb 5 "K" "C2" "http://srv/cb" none mint1).2

/-- The row of the refresh token `R1`. -/
def refreshRow : OAuth2RefreshToken :=
  { ID := "r1", Token := "R1", AccessTokenID := some "a1", ClientID := "C2", UserID := "u1",
    Scopes := ["openid"], ExpiresAt := 5 + 720 * Hour, Revoked := false }

/-- The response of refreshing `R1` two seconds after the exchange. -/
def refreshResponse : TokenResponse :=
  { AccessToken := "jwt|client_id=C2|scope=openid|iat=2|exp=3602|sub=u1"
    TokenType := "Bearer"
    ExpiresIn := 3600
    RefreshToken := "R2"
    Scope := "openid" }

/-- A consent form that denies, naming a redirect URI that is not
registered for the client `C1`. -/
def denyForm : ConsentRequest :=
  { ClientID := "C1", RedirectURI := "https://evil.example/cb", Scope := "openid",
    State := "xyz", CodeChallenge := "", CodeChallengeMethod := "", Approve := "false" }

/-- A session of `alice` that expires at instant 100. -/
def aliceSession : Session :=
  { ID := "s1", UserID := "u1", SessionToken := "T", IPAddress := "ip", UserAgent := "ua",
    ExpiresAt := 100, LastActivityAt := 0 }

/-- A session of another principal. -/
def bobSession : Session :=
  { ID := "s9", UserID := "u2", SessionToken := "B", IPAddress := "ip", UserAgent := "ua",
    ExpiresAt := 100, LastActivityAt := 0 }

/-- A database holding `alice`, her session and a session of another
principal. -/
def sessionDb : DB := { db with sessions := [aliceSession, bobSession] }

/-- The character classes on ASCII. -/
def unicode : Unicode :=
  { IsUpper := Char.isUpper
    IsLower := Char.isLower
    IsDigit := Char.isDigit
    ToLower := fun s => String.mk (s.data.map Char.toLower) }

/-- The policy of `TestValidatePassword`. -/
def policy : PasswordPolicy :=
  { MinLength := 8, RequireUpper := true, RequireLower := true, RequireNumber := true,
    RequireSpecial := true }

/-- A password service keeping a history of three passwords. -/
def passwords : PasswordService :=
  { crypto := crypto, unicode := unicode, policy := policy, historyCount := 3,
    tokenExpiry := Hour }

/-- A Redis store holding the session of alice. -/
def redis : Redis :=
  (RedisSessionStore.Create { strings := [], sets := [] } aliceSession "s0").2

/-- A used reset ticket of alice. -/
def usedTicket : PasswordResetToken :=
  { ID := "k1", UserID := "u1", Email := "a@b.c", Token := "RT1", ExpiresAt := 1000,
    Used := true, UsedAt := some 5 }

/-- An unused reset ticket of alice that expires at instant 100. -/
def expiredTicket : PasswordResetToken :=
  { ID := "k2", UserID := "u1", Email := "a@b.c", Token := "RT2", ExpiresAt := 100,
    Used := false, UsedAt := none }

/-- An unused reset ticket of alice that expires at instant 1000. -/
def liveTicket : PasswordResetToken :=
  { ID := "k3", UserID := "u1", Email := "a@b.c", Token := "RT3", ExpiresAt := 1000,
    Used := false, UsedAt := none }

/-- The database of the two sessions with the three tickets. -/
def ticketDb : DB :=
  { sessionDb with password_reset_tokens := [usedTicket, expiredTicket, liveTicket] }

/-- A TOTP service that takes the code `code:` followed by the secret as
valid. -/
def totp : TOTPService :=
  { issuer := "sso", validate := fun code secret _ => code == "code:" ++ secret }

/-- The draws of one TOTP setup. -/
def totpDraw : TOTPDraw := { key := .ok "SECRET", backupCodes := ["b1", "b2"] }

end Sample

end SSO

/-! # Proofs -/

namespace SSO
open UserRepository AuthService

theorem GetByEmail_logAudit (db : DB) (now : Time) (uid : Option String)
    (a r ip ua d email : String) :
    GetByEmail (logAudit db now uid a r ip ua d) email = GetByEmail db email := by
  simp [logAudit, AuditLogRepository.Create, GetByEmail, preload]

theorem find_email_map_replace (l : List User) (user u0 : User) (email : String)
    (h : l.find? (fun u => u.Email == email) = some u0)
    (hid : u0.ID = user.ID) (hem : user.Email = email) :
    (l.map (fun u => if u.ID == user.ID then user else u)).find? (fun u => u.Email == email)
      = some user := by
  induction l with
  | nil => simp at h
  | cons x xs ih =>
    rw [List.map_cons]
    by_cases hx : x.Email = email
    · rw [List.find?_cons_of_pos _ (by simpa using hx)] at h
      have hxu : x = u0 := by simpa using h
      subst hxu
      rw [List.find?_cons_of_pos _ (by simp [hid, hem])]
      simp [hid]
    · rw [List.find?_cons_of_neg _ (by simpa using hx)] at h
      by_cases hxi : x.ID = user.ID
      · rw [List.find?_cons_of_pos _ (by simp [hxi, hem])]
        simp [hxi]
      · rw [List.find?_cons_of_neg _ (by simp [hxi, hx])]
        exact ih h

theorem find_email_map_keep (l : List User) (f : User → User) (email : String)
    (hf : ∀ u, (f u).Email = u.Email) :
    (l.map f).find? (fun u => u.Email == email)
      = (l.find? (fun u => u.Email == email)).map f := by
  induction l with
  | nil => simp
  | cons x xs ih =>
    rw [List.map_cons]
    by_cases hx : x.Email = email
    · rw [List.find?_cons_of_pos _ (by simp [hf, hx]), List.find?_cons_of_pos _ (by simp [hx])]
      rfl
    · rw [List.find?_cons_of_neg _ (by simp [hf, hx]), List.find?_cons_of_neg _ (by simp [hx])]
      exact ih


theorem GetByEmail_ok (db : DB) (email : String) (u : User)
    (h : GetByEmail db email = .ok u) :
    ∃ u0, db.users.find? (fun r => r.Email == email) = some u0 ∧ u = preload db u0 := by
  unfold GetByEmail at h
  split at h
  · cases h
  · next u0 hu0 =>
    refine ⟨u0, hu0, ?_⟩
    injection h with h
    exact h.symm

theorem GetByEmail_email (db : DB) (email : String) (u : User)
    (h : GetByEmail db email = .ok u) : u.Email = email := by
  obtain ⟨u0, h0, rfl⟩ := GetByEmail_ok db email u h
  have := List.find?_some h0
  simpa [preload, withTwoFactorAuth] using this

/-- Rewriting the user rows with a function that keeps `Email` and `ID` and
commutes with the preloaded field maps the fetched user. -/
theorem GetByEmail_mapUsers (db db2 : DB) (f : User → User) (email : String) (u : User)
    (husers : db2.users = db.users.map f) (htfa : db2.two_factor_auth = db.two_factor_auth)
    (hfe : ∀ u, (f u).Email = u.Email) (hfi : ∀ u, (f u).ID = u.ID)
    (hft : ∀ u t, f (withTwoFactorAuth u t) = withTwoFactorAuth (f u) t)
    (h : GetByEmail db email = .ok u) :
    GetByEmail db2 email = .ok (f u) := by
  obtain ⟨u0, h0, rfl⟩ := GetByEmail_ok db email u h
  unfold GetByEmail
  rw [husers, find_email_map_keep _ _ _ hfe, h0]
  show Except.ok (preload db2 (f u0)) = Except.ok (f (preload db u0))
  unfold preload
  rw [htfa, hfi, hft]

theorem GetByEmail_Update (db : DB) (email : String) (u user : User)
    (h : GetByEmail db email = .ok u) (hid : user.ID = u.ID) (hem : user.Email = email) :
    GetByEmail (Update db user).2 email = .ok (preload db user) := by
  obtain ⟨u0, h0, rfl⟩ := GetByEmail_ok db email u h
  have hid0 : u0.ID = user.ID := by simpa [preload, withTwoFactorAuth] using hid.symm
  have hmem : u0 ∈ db.users := List.mem_of_find?_eq_some h0
  have hany : db.users.any (fun r => r.ID == user.ID) = true := by
    rw [List.any_eq_true]
    exact ⟨u0, hmem, by simp [hid0]⟩
  unfold Update GetByEmail
  rw [if_pos hany]
  simp only
  rw [find_email_map_replace _ user u0 email h0 hid0 hem]
  simp [preload]


theorem GetByEmail_Increment (db : DB) (email : String) (u : User)
    (hget : GetByEmail db email = .ok u) :
    GetByEmail (IncrementFailedAttempts db u.ID).2 email
      = .ok { u with FailedLoginAttempts := u.FailedLoginAttempts + 1 } := by
  have h := GetByEmail_mapUsers db (IncrementFailedAttempts db u.ID).2
    (fun r => if r.ID == u.ID then { r with FailedLoginAttempts := r.FailedLoginAttempts + 1 } else r)
    email u rfl rfl
    (by intro r; by_cases hr : r.ID = u.ID <;> simp [hr])
    (by intro r; by_cases hr : r.ID = u.ID <;> simp [hr])
    (by intro r t; by_cases hr : r.ID = u.ID <;> simp [hr, withTwoFactorAuth])
    hget
  simpa using h

theorem Login_wrong_password (s : AuthService) (db : DB) (now : Time)
    (email pw ip ua : String) (rnd : SessionDraw) (u : User)
    (hget : GetByEmail db email = .ok u) (hact : u.IsActive = true) (hunl : u.IsLocked = false)
    (hpw : s.crypto.ComparePassword u.PasswordHash pw = false) :
    Login s db now email pw ip ua rnd = loginWrongPassword s db now u email ip ua := by
  simp [Login, hget, hact, hunl, hpw]

theorem loginWrongPassword_below (s : AuthService) (db : DB) (now : Time)
    (email ip ua : String) (u : User)
    (hget : GetByEmail db email = .ok u)
    (hlt : u.FailedLoginAttempts + 1 < s.maxAttempts) :
    (loginWrongPassword s db now u email ip ua).1 = .error .ErrInvalidCredentials ∧
    GetByEmail (loginWrongPassword s db now u email ip ua).2 email
      = .ok { u with FailedLoginAttempts := u.FailedLoginAttempts + 1 } := by
  have h1 := GetByEmail_Increment db email u hget
  unfold loginWrongPassword
  simp only [h1]
  have : ¬ (u.FailedLoginAttempts + 1 ≥ s.maxAttempts) := by omega
  simp only [this, if_false, GetByEmail_logAudit, h1, and_self]

theorem loginWrongPassword_lock (s : AuthService) (db : DB) (now : Time)
    (email ip ua : String) (u : User)
    (hget : GetByEmail db email = .ok u)
    (hge : s.maxAttempts ≤ u.FailedLoginAttempts + 1) :
    (loginWrongPassword s db now u email ip ua).1 = .error .ErrAccountLocked ∧
    ∃ u2, GetByEmail (loginWrongPassword s db now u email ip ua).2 email = .ok u2 ∧
      u2.IsLocked = true ∧ u2.FailedLoginAttempts = u.FailedLoginAttempts + 1 ∧
      u2.LockedUntil = some (now + s.lockoutDuration) := by
  have h1 := GetByEmail_Increment db email u hget
  have hem := GetByEmail_email db email u hget
  unfold loginWrongPassword
  simp only [h1]
  have : (u.FailedLoginAttempts + 1 ≥ s.maxAttempts) := by omega
  simp only [this, if_true, GetByEmail_logAudit, true_and]
  have h2 := GetByEmail_Update (IncrementFailedAttempts db u.ID).2 email _
    { u with FailedLoginAttempts := u.FailedLoginAttempts + 1, IsLocked := true,
             LockedUntil := some (now + s.lockoutDuration) } h1 rfl hem
  exact ⟨_, h2, by simp [preload, withTwoFactorAuth]⟩


theorem loginSeq_length (s : AuthService) (email : String) (attempts : List LoginAttempt) :
    ∀ db, (loginSeq s email db attempts).length = attempts.length := by
  induction attempts with
  | nil => intro db; rfl
  | cons a rest ih => intro db; simp [loginSeq, ih]

theorem loginSeq_wrong_passwords (s : AuthService) (email : String)
    (attempts : List LoginAttempt) :
    ∀ (db : DB) (u : User),
      GetByEmail db email = .ok u → u.IsActive = true → u.IsLocked = false →
      u.FailedLoginAttempts + (attempts.length : Int) = s.maxAttempts →
      (∀ a ∈ attempts, s.crypto.ComparePassword u.PasswordHash a.password = false) →
      ∀ (i : Nat) (a : LoginAttempt) (r : Except Err LoginResult × DB),
        attempts[i]? = some a → (loginSeq s email db attempts)[i]? = some r →
        (u.FailedLoginAttempts + (i : Int) + 1 < s.maxAttempts →
          r.1 = .error .ErrInvalidCredentials ∧
          ∃ u2, GetByEmail r.2 email = .ok u2 ∧ u2.IsLocked = false) ∧
        (u.FailedLoginAttempts + (i : Int) + 1 = s.maxAttempts →
          r.1 = .error .ErrAccountLocked ∧
          ∃ u2, GetByEmail r.2 email = .ok u2 ∧ u2.IsLocked = true ∧
            u2.FailedLoginAttempts = s.maxAttempts ∧
            u2.LockedUntil = some (a.now + s.lockoutDuration)) := by
  induction attempts with
  | nil => intro db u _ _ _ _ _ i a r ha; simp at ha
  | cons a0 rest ih =>
    intro db u hget hact hunl hlen hwrong i a r ha hr
    have hpw0 := hwrong a0 (List.mem_cons_self _ _)
    have hstep := Login_wrong_password s db a0.now email a0.password a0.ipAddress a0.userAgent
      a0.rnd u hget hact hunl hpw0
    have hlen2 : u.FailedLoginAttempts + ((rest.length : Int) + 1) = s.maxAttempts := by
      simpa using hlen
    cases i with
    | zero =>
      have ha0 : a0 = a := by simpa using ha
      subst ha0
      have hr0 : r = s.Login db a0.now email a0.password a0.ipAddress a0.userAgent a0.rnd := by
        simpa [loginSeq] using hr.symm
      rw [hr0, hstep]
      constructor
      · intro hlt
        have hb := loginWrongPassword_below s db a0.now email a0.ipAddress a0.userAgent u hget
          (by simpa using hlt)
        exact ⟨hb.1, _, hb.2, by simpa using hunl⟩
      · intro heq
        have hb := loginWrongPassword_lock s db a0.now email a0.ipAddress a0.userAgent u hget
          (by simp at heq; omega)
        obtain ⟨h1, u2, h2, h3, h4, h5⟩ := hb
        refine ⟨h1, u2, h2, h3, ?_, h5⟩
        rw [h4]; simpa using heq
    | succ j =>
      have haj : rest[j]? = some a := by simpa using ha
      have hrj : (loginSeq s email
          (s.Login db a0.now email a0.password a0.ipAddress a0.userAgent a0.rnd).2 rest)[j]?
            = some r := by
        simpa [loginSeq] using hr
      have hjlt : j < rest.length := by
        rcases Nat.lt_or_ge j rest.length with h | h
        · exact h
        · rw [List.getElem?_eq_none h] at haj; cases haj
      have hlt : u.FailedLoginAttempts + 1 < s.maxAttempts := by
        have : (j : Int) < (rest.length : Int) := by exact_mod_cast hjlt
        omega
      have hb := loginWrongPassword_below s db a0.now email a0.ipAddress a0.userAgent u hget hlt
      rw [hstep] at hrj
      have := ih _ { u with FailedLoginAttempts := u.FailedLoginAttempts + 1 } hb.2 hact hunl
        (by simp only; omega) (fun a ha => hwrong a (List.mem_cons_of_mem _ ha)) j a r haj hrj
      simp only at this
      constructor
      · intro h
        exact this.1 (by push_cast at h ⊢; omega)
      · intro h
        exact this.2 (by push_cast at h ⊢; omega)


theorem GetByEmail_congr (db db2 : DB) (email : String)
    (hu : db2.users = db.users) (ht : db2.two_factor_auth = db.two_factor_auth) :
    GetByEmail db2 email = GetByEmail db email := by
  simp [GetByEmail, preload, hu, ht]

theorem CreateSession_frame (ss : SessionService) (db : DB) (now : Time)
    (uid ip ua : String) (rnd : SessionDraw) :
    (ss.CreateSession db now uid ip ua rnd).2.users = db.users ∧
    (ss.CreateSession db now uid ip ua rnd).2.two_factor_auth = db.two_factor_auth := by
  unfold SessionService.CreateSession DatabaseSessionStore.Create
  cases rnd.token with
  | error e => simp
  | ok tok =>
    dsimp only
    split_ifs <;> simp

/-- The row `CreateSession` writes for a draw with token `tok`. -/
theorem CreateSession_usable (ss : SessionService) (db : DB) (now : Time)
    (uid ip ua : String) (rnd : SessionDraw) (h : rnd.usable db = true) :
    ∃ tok, rnd.token = .ok tok ∧
      ss.CreateSession db now uid ip ua rnd =
        (.ok { ID := if rnd.id == "" then rnd.freshID else rnd.id, UserID := uid,
               SessionToken := tok, IPAddress := ip, UserAgent := ua,
               ExpiresAt := now + ss.timeout, LastActivityAt := now },
         { db with sessions := db.sessions ++
            [{ ID := if rnd.id == "" then rnd.freshID else rnd.id, UserID := uid,
               SessionToken := tok, IPAddress := ip, UserAgent := ua,
               ExpiresAt := now + ss.timeout, LastActivityAt := now }] }) := by
  unfold SessionDraw.usable at h
  cases htok : rnd.token with
  | error e => simp [htok] at h
  | ok tok =>
    refine ⟨tok, rfl, ?_⟩
    rw [htok] at h
    simp only [Bool.not_eq_true'] at h
    unfold SessionService.CreateSession DatabaseSessionStore.Create
    simp only [htok]
    by_cases hid : rnd.id = ""
    · simp only [hid, beq_self_eq_true, if_true] at h ⊢
      rw [h]; simp
    · have hb : (rnd.id == "") = false := by simpa using hid
      simp only [hb] at h ⊢
      simp only [Bool.false_eq_true, if_false] at h ⊢
      rw [h]; simp

theorem CreateSession_ok_usable (ss : SessionService) (db : DB) (now : Time)
    (uid ip ua : String) (rnd : SessionDraw) (sess : Session)
    (h : (ss.CreateSession db now uid ip ua rnd).1 = .ok sess) : rnd.usable db = true := by
  unfold SessionDraw.usable
  unfold SessionService.CreateSession DatabaseSessionStore.Create at h
  cases htok : rnd.token with
  | error e => simp [htok] at h
  | ok tok =>
    simp only [htok] at h ⊢
    by_cases hid : rnd.id = ""
    · simp only [hid, beq_self_eq_true, if_true] at h ⊢
      split at h
      · cases h
      · next hh => simpa using hh
    · have hb : (rnd.id == "") = false := by simpa using hid
      simp only [hb, Bool.false_eq_true, if_false] at h ⊢
      split at h
      · cases h
      · next hh => simpa using hh


theorem GetByEmail_Reset (db : DB) (email id : String) (v : User)
    (hget : GetByEmail db email = .ok v) :
    GetByEmail (ResetFailedAttempts db id).2 email
      = .ok (if v.ID == id then { v with FailedLoginAttempts := 0 } else v) := by
  unfold ResetFailedAttempts
  split
  · exact GetByEmail_mapUsers db _
      (fun r => if r.ID == id then { r with FailedLoginAttempts := 0 } else r)
      email v rfl rfl
      (by intro r; by_cases hr : r.ID = id <;> simp [hr])
      (by intro r; by_cases hr : r.ID = id <;> simp [hr])
      (by intro r t; by_cases hr : r.ID = id <;> simp [hr, withTwoFactorAuth])
      hget
  · next hany =>
    obtain ⟨u0, h0, rfl⟩ := GetByEmail_ok db email v hget
    have hmem : u0 ∈ db.users := List.mem_of_find?_eq_some h0
    have hne : ¬ u0.ID = id := by
      intro hid
      apply hany
      rw [List.any_eq_true]
      exact ⟨u0, hmem, by simp [hid]⟩
    have : ((preload db u0).ID == id) = false := by simpa [preload, withTwoFactorAuth] using hne
    simp only [this]
    exact hget

theorem GetByEmail_UpdateLastLogin (db : DB) (email id : String) (t : Option Time) (v : User)
    (hget : GetByEmail db email = .ok v) :
    GetByEmail (UpdateLastLogin db id t).2 email
      = .ok (if v.ID == id then { v with LastLoginAt := t } else v) :=
  GetByEmail_mapUsers db _
      (fun r => if r.ID == id then { r with LastLoginAt := t } else r)
      email v rfl rfl
      (by intro r; by_cases hr : r.ID = id <;> simp [hr])
      (by intro r; by_cases hr : r.ID = id <;> simp [hr])
      (by intro r t; by_cases hr : r.ID = id <;> simp [hr, withTwoFactorAuth])
      hget

theorem GetByEmail_CreateSession (ss : SessionService) (db : DB) (now : Time)
    (uid ip ua email : String) (rnd : SessionDraw) :
    GetByEmail (ss.CreateSession db now uid ip ua rnd).2 email = GetByEmail db email :=
  GetByEmail_congr _ _ _ (CreateSession_frame ss db now uid ip ua rnd).1
    (CreateSession_frame ss db now uid ip ua rnd).2

/-- What a fetch by email returns after the verified-password part of `Login`:
only `FailedLoginAttempts` and `LastLoginAt` can differ. -/
theorem loginVerified_fetch (s : AuthService) (db : DB) (now : Time) (user : User)
    (ip ua email : String) (rnd : SessionDraw) (v : User)
    (hget : GetByEmail db email = .ok v) :
    ∃ v2, GetByEmail (loginVerified s db now user ip ua rnd).2 email = .ok v2 ∧
      v2.ID = v.ID ∧ v2.IsLocked = v.IsLocked ∧ v2.LockedUntil = v.LockedUntil ∧
      v2.IsActive = v.IsActive ∧ v2.PasswordHash = v.PasswordHash ∧
      v2.FailedLoginAttempts
        = (if 0 < user.FailedLoginAttempts ∧ v.ID = user.ID then 0 else v.FailedLoginAttempts) := by
  -- the database after the optional counter reset
  have hreset : ∃ v1, GetByEmail
      (if user.FailedLoginAttempts > 0 then (ResetFailedAttempts db user.ID).2 else db) email
        = .ok v1 ∧ v1.ID = v.ID ∧ v1.IsLocked = v.IsLocked ∧ v1.LockedUntil = v.LockedUntil ∧
      v1.IsActive = v.IsActive ∧ v1.PasswordHash = v.PasswordHash ∧
      v1.FailedLoginAttempts
        = (if 0 < user.FailedLoginAttempts ∧ v.ID = user.ID then 0 else v.FailedLoginAttempts) := by
    by_cases hpos : user.FailedLoginAttempts > 0
    · rw [if_pos hpos]
      refine ⟨_, GetByEmail_Reset db email user.ID v hget, ?_⟩
      by_cases hid : v.ID = user.ID
      · simp [hid, hpos]
      · simp [hid]
    · rw [if_neg hpos]
      exact ⟨v, hget, rfl, rfl, rfl, rfl, rfl, by simp [show ¬ (0 < user.FailedLoginAttempts) from hpos]⟩
  obtain ⟨v1, h1, hi, hl, hu, ha, hp, hf⟩ := hreset
  unfold loginVerified
  dsimp only
  generalize (if user.FailedLoginAttempts > 0 then (ResetFailedAttempts db user.ID).2 else db)
    = db1 at h1 ⊢
  have hcs := GetByEmail_CreateSession s.sessionService db1 now user.ID ip ua email rnd
  rw [h1] at hcs
  split
  · -- 2FA branch
    split
    · next e db2 heq =>
      have : db2 = (s.sessionService.CreateSession db1 now user.ID ip ua rnd).2 := by rw [heq]
      subst this
      exact ⟨v1, hcs, hi, hl, hu, ha, hp, hf⟩
    · next sess db2 heq =>
      have : db2 = (s.sessionService.CreateSession db1 now user.ID ip ua rnd).2 := by rw [heq]
      subst this
      rw [GetByEmail_logAudit]
      exact ⟨v1, hcs, hi, hl, hu, ha, hp, hf⟩
  · split
    · next e db2 heq =>
      have : db2 = (s.sessionService.CreateSession db1 now user.ID ip ua rnd).2 := by rw [heq]
      subst this
      exact ⟨v1, hcs, hi, hl, hu, ha, hp, hf⟩
    · next sess db2 heq =>
      have : db2 = (s.sessionService.CreateSession db1 now user.ID ip ua rnd).2 := by rw [heq]
      subst this
      rw [GetByEmail_logAudit]
      refine ⟨_, GetByEmail_UpdateLastLogin _ email user.ID (some now) v1 hcs, ?_⟩
      by_cases hid : v1.ID = user.ID
      · have hb : (v1.ID == user.ID) = true := by simpa using hid
        simp only [hb, if_true]
        exact ⟨hi, hl, hu, ha, hp, hf⟩
      · have hb : (v1.ID == user.ID) = false := by simpa using hid
        simp only [hb, Bool.false_eq_true, if_false]
        exact ⟨hi, hl, hu, ha, hp, hf⟩

/-- C1: from an active, unlocked principal with failure counter 0,
`maxAttempts` consecutive wrong-password logins behave as the lockout
automaton says: each of the first `maxAttempts - 1` calls fails with
`ErrInvalidCredentials` and leaves the principal unlocked, and the last one
fails with `ErrAccountLocked` and leaves `IsLocked = true`,
`FailedLoginAttempts = maxAttempts` and `LockedUntil` at the instant of that
call plus the lockout duration. -/
theorem C1_max_attempts_lockout (s : AuthService) (db : DB) (email : String) (u : User)
    (attempts : List LoginAttempt)
    (hm : 1 ≤ s.maxAttempts) (hlen : (attempts.length : Int) = s.maxAttempts)
    (hget : GetByEmail db email = .ok u) (hact : u.IsActive = true)
    (hunl : u.IsLocked = false) (hzero : u.FailedLoginAttempts = 0)
    (hwrong : ∀ a ∈ attempts, s.crypto.ComparePassword u.PasswordHash a.password = false) :
    (loginSeq s email db attempts).length = attempts.length ∧
    ∀ (i : Nat) (a : LoginAttempt) (r : Except Err LoginResult × DB),
      attempts[i]? = some a → (loginSeq s email db attempts)[i]? = some r →
      ((i : Int) + 1 < s.maxAttempts →
        r.1 = .error .ErrInvalidCredentials ∧
        ∃ u2, GetByEmail r.2 email = .ok u2 ∧ u2.IsLocked = false) ∧
      ((i : Int) + 1 = s.maxAttempts →
        r.1 = .error .ErrAccountLocked ∧
        ∃ u2, GetByEmail r.2 email = .ok u2 ∧ u2.IsLocked = true ∧
          u2.FailedLoginAttempts = s.maxAttempts ∧
          u2.LockedUntil = some (a.now + s.lockoutDuration)) := by
  have _ := hm
  refine ⟨loginSeq_length s email attempts db, ?_⟩
  intro i a r ha hr
  have h := loginSeq_wrong_passwords s email attempts db u hget hact hunl
    (by rw [hzero]; simpa using hlen) hwrong i a r ha hr
  rw [hzero] at h
  simpa using h

theorem C1_max_attempts_lockout_witness :
    (loginSeq Sample.auth "a@b.c" Sample.db Sample.wrongAttempts).length = 2 ∧
    (loginSeq Sample.auth "a@b.c" Sample.db Sample.wrongAttempts).map (fun r => r.1)
      = [.error .ErrInvalidCredentials, .error .ErrAccountLocked] ∧
    ∀ (i : Nat) (a : LoginAttempt) (r : Except Err LoginResult × DB),
      Sample.wrongAttempts[i]? = some a →
      (loginSeq Sample.auth "a@b.c" Sample.db Sample.wrongAttempts)[i]? = some r →
      ((i : Int) + 1 < 2 →
        r.1 = .error .ErrInvalidCredentials ∧
        ∃ u2, GetByEmail r.2 "a@b.c" = .ok u2 ∧ u2.IsLocked = false) ∧
      ((i : Int) + 1 = 2 →
        r.1 = .error .ErrAccountLocked ∧
        ∃ u2, GetByEmail r.2 "a@b.c" = .ok u2 ∧ u2.IsLocked = true ∧
          u2.FailedLoginAttempts = 2 ∧
          u2.LockedUntil = some (a.now + 30 * Minute)) :=
  have h := C1_max_attempts_lockout Sample.auth Sample.db "a@b.c" Sample.alice
    Sample.wrongAttempts (by decide) (by decide) (by decide) (by decide) (by decide) (by decide)
    (by decide)
  ⟨h.1, by decide, h.2⟩

theorem loginWrongPassword_not_ok (s : AuthService) (db : DB) (now : Time) (user : User)
    (email ip ua : String) (res : LoginResult) :
    (loginWrongPassword s db now user email ip ua).1 ≠ .ok res := by
  unfold loginWrongPassword
  dsimp only
  split
  · simp
  · split <;> simp

theorem usable_congr (rnd : SessionDraw) (db db2 : DB) (h : db2.sessions = db.sessions) :
    rnd.usable db2 = rnd.usable db := by
  simp [SessionDraw.usable, h]

theorem Reset_sessions (db : DB) (id : String) :
    (ResetFailedAttempts db id).2.sessions = db.sessions := by
  unfold ResetFailedAttempts
  split <;> rfl

theorem Update_sessions (db : DB) (user : User) :
    (Update db user).2.sessions = db.sessions := by
  unfold Update
  split <;> rfl

/-- After a verified password the login succeeds exactly when the session can
be created. -/
theorem loginVerified_ok_iff (s : AuthService) (db : DB) (now : Time) (user : User)
    (ip ua : String) (rnd : SessionDraw) :
    (∃ res, (loginVerified s db now user ip ua rnd).1 = .ok res) ↔ rnd.usable db = true := by
  have hs : (if user.FailedLoginAttempts > 0 then (ResetFailedAttempts db user.ID).2 else db).sessions
      = db.sessions := by
    split
    · exact Reset_sessions db user.ID
    · rfl
  rw [← usable_congr rnd db _ hs]
  unfold loginVerified
  dsimp only
  generalize (if user.FailedLoginAttempts > 0 then (ResetFailedAttempts db user.ID).2 else db) = db1
  constructor
  · rintro ⟨res, hres⟩
    split at hres
    · split at hres
      · cases hres
      · next sess db2 heq =>
        exact CreateSession_ok_usable s.sessionService db1 now user.ID ip ua rnd sess (by rw [heq])
    · split at hres
      · cases hres
      · next sess db2 heq =>
        exact CreateSession_ok_usable s.sessionService db1 now user.ID ip ua rnd sess (by rw [heq])
  · intro hu
    obtain ⟨tok, _, hcs⟩ := CreateSession_usable s.sessionService db1 now user.ID ip ua rnd hu
    rw [hcs]
    split <;> exact ⟨_, rfl⟩

theorem Login_locked (s : AuthService) (db : DB) (now : Time)
    (email password ip ua : String) (rnd : SessionDraw) (u : User) (t : Time)
    (hget : GetByEmail db email = .ok u) (hlocked : u.IsLocked = true)
    (hunt : u.LockedUntil = some t) (hlt : now < t) :
    s.Login db now email password ip ua rnd =
      (.error .ErrAccountLocked,
        logAudit db now (some u.ID) "login_failed" "authentication" ip ua "account locked") := by
  simp [Login, hget, hlocked, hunt, hlt]

theorem Login_expired_lock (s : AuthService) (db : DB) (now : Time)
    (email password ip ua : String) (rnd : SessionDraw) (u : User) (t : Time)
    (hget : GetByEmail db email = .ok u) (hact : u.IsActive = true) (hlocked : u.IsLocked = true)
    (hunt : u.LockedUntil = some t) (hle : t ≤ now) :
    s.Login db now email password ip ua rnd =
      if !s.crypto.ComparePassword u.PasswordHash password then
        loginWrongPassword s
          (Update db { u with IsLocked := false, LockedUntil := none, FailedLoginAttempts := 0 }).2
          now { u with IsLocked := false, LockedUntil := none, FailedLoginAttempts := 0 } email ip ua
      else
        loginVerified s
          (Update db { u with IsLocked := false, LockedUntil := none, FailedLoginAttempts := 0 }).2
          now { u with IsLocked := false, LockedUntil := none, FailedLoginAttempts := 0 } ip ua rnd := by
  have : ¬ now < t := not_lt.mpr hle
  simp [Login, hget, hlocked, hunt, hact, this]

/-- C2: for an active principal with `IsLocked = true` and `LockedUntil = t`:
while `now < t` every login, whatever the password, fails with
`ErrAccountLocked`, creates no session and leaves the user rows unchanged;
a login with the correct password (and a usable session draw) succeeds if and
only if `t ≤ now`; and whenever the login succeeds the stored principal has
`IsLocked = false`, `LockedUntil = none` and `FailedLoginAttempts = 0`. -/
theorem C2_locked_until_gate (s : AuthService) (db : DB) (now : Time)
    (email password ip ua : String) (rnd : SessionDraw) (u : User) (t : Time)
    (hget : GetByEmail db email = .ok u) (hact : u.IsActive = true)
    (hlocked : u.IsLocked = true) (hunt : u.LockedUntil = some t) :
    (now < t →
      (s.Login db now email password ip ua rnd).1 = .error .ErrAccountLocked ∧
      (s.Login db now email password ip ua rnd).2.sessions = db.sessions ∧
      (s.Login db now email password ip ua rnd).2.users = db.users ∧
      (s.Login db now email password ip ua rnd).2.two_factor_auth = db.two_factor_auth) ∧
    (s.crypto.ComparePassword u.PasswordHash password = true → rnd.usable db = true →
      ((∃ res, (s.Login db now email password ip ua rnd).1 = .ok res) ↔ t ≤ now)) ∧
    (∀ res, (s.Login db now email password ip ua rnd).1 = .ok res →
      ∃ u2, GetByEmail (s.Login db now email password ip ua rnd).2 email = .ok u2 ∧
        u2.IsLocked = false ∧ u2.LockedUntil = none ∧ u2.FailedLoginAttempts = 0) := by
  have hem := GetByEmail_email db email u hget
  have hfetch := GetByEmail_Update db email u
    { u with IsLocked := false, LockedUntil := none, FailedLoginAttempts := 0 } hget rfl hem
  refine ⟨?_, ?_, ?_⟩
  · intro hlt
    rw [Login_locked s db now email password ip ua rnd u t hget hlocked hunt hlt]
    exact ⟨rfl, rfl, rfl, rfl⟩
  · intro hpw huse
    constructor
    · rintro ⟨res, hres⟩
      by_contra hnot
      rw [Login_locked s db now email password ip ua rnd u t hget hlocked hunt
        (lt_of_not_le hnot)] at hres
      cases hres
    · intro hle
      rw [Login_expired_lock s db now email password ip ua rnd u t hget hact hlocked hunt hle]
      simp only [hpw, Bool.not_true, Bool.false_eq_true, if_false]
      rw [loginVerified_ok_iff, usable_congr rnd db _ (Update_sessions db _)]
      exact huse
  · intro res hres
    by_cases hlt : now < t
    · rw [Login_locked s db now email password ip ua rnd u t hget hlocked hunt hlt] at hres
      cases hres
    · have hle : t ≤ now := not_lt.mp hlt
      rw [Login_expired_lock s db now email password ip ua rnd u t hget hact hlocked hunt hle]
        at hres ⊢
      by_cases hpw : s.crypto.ComparePassword u.PasswordHash password = true
      · simp only [hpw, Bool.not_true, Bool.false_eq_true, if_false] at hres ⊢
        obtain ⟨v2, h2, _, hl, hu, _, _, hf⟩ := loginVerified_fetch s _ now
          { u with IsLocked := false, LockedUntil := none, FailedLoginAttempts := 0 }
          ip ua email rnd _ hfetch
        refine ⟨v2, h2, ?_, ?_, ?_⟩
        · rw [hl]; simp [preload, withTwoFactorAuth]
        · rw [hu]; simp [preload, withTwoFactorAuth]
        · rw [hf]; simp [preload, withTwoFactorAuth]
      · have hpw2 : s.crypto.ComparePassword u.PasswordHash password = false := by
          simpa using hpw
        simp only [hpw2, Bool.not_false, if_true] at hres
        exact absurd hres (loginWrongPassword_not_ok _ _ _ _ _ _ _ _)

theorem C2_locked_until_gate_witness :
    (Sample.auth.Login Sample.lockedDb 99 "a@b.c" "pw" "ip" "ua" Sample.draw).1
      = .error .ErrAccountLocked ∧
    (∃ res, (Sample.auth.Login Sample.lockedDb 100 "a@b.c" "pw" "ip" "ua" Sample.draw).1
      = .ok res) ∧
    (∃ u2, GetByEmail (Sample.auth.Login Sample.lockedDb 100 "a@b.c" "pw" "ip" "ua"
        Sample.draw).2 "a@b.c" = .ok u2 ∧
      u2.IsLocked = false ∧ u2.LockedUntil = none ∧ u2.FailedLoginAttempts = 0) := by
  have h99 := C2_locked_until_gate Sample.auth Sample.lockedDb 99 "a@b.c" "pw" "ip" "ua"
    Sample.draw Sample.lockedAlice 100 (by decide) (by decide) (by decide) (by decide)
  have h100 := C2_locked_until_gate Sample.auth Sample.lockedDb 100 "a@b.c" "pw" "ip" "ua"
    Sample.draw Sample.lockedAlice 100 (by decide) (by decide) (by decide) (by decide)
  have hok := (h100.2.1 (by decide) (by decide)).mpr (le_refl _)
  obtain ⟨res, hres⟩ := hok
  exact ⟨(h99.1 (by decide)).1, ⟨res, hres⟩, h100.2.2 res hres⟩

/-- C3 (evaluation): with a 24-hour session timeout, a login at instant 0 of a
principal with enabled 2FA returns a temporary session whose returned
`ExpiresAt` is 5 minutes, while the row stored under the temp token expires
after 24 hours: `ValidateSession` still accepts the temp token one hour after
the login. -/
theorem C3_temp_session_outlives_five_minutes :
    (Sample.auth.Login Sample.db2fa 0 "c@b.c" "pw" "ip" "ua" Sample.draw).1
      = .ok { User := UserRepository.preload Sample.db2fa Sample.carol,
              Session := { ID := "s1", UserID := "u3", SessionToken := "T", IPAddress := "ip",
                           UserAgent := "ua", ExpiresAt := 5 * Minute, LastActivityAt := 0 },
              RequiresTwoFactor := true, TempToken := "T" } ∧
    (Sample.auth.sessionService.ValidateSession
        (Sample.auth.Login Sample.db2fa 0 "c@b.c" "pw" "ip" "ua" Sample.draw).2 Hour "T").1
      = .ok { ID := "s1", UserID := "u3", SessionToken := "T", IPAddress := "ip",
              UserAgent := "ua", ExpiresAt := 24 * Hour, LastActivityAt := 0 } ∧
    (0 : Time) + 5 * Minute < Hour := by
  decide

/-- C4 (counterexample): right after the login of a principal with enabled
2FA, before any TOTP code has been checked, `ValidateSession` accepts the temp
token and returns a session of that principal. -/
theorem C4_temp_token_accepted_as_session :
    (Sample.auth.Login Sample.db2fa 0 "c@b.c" "pw" "ip" "ua" Sample.draw).1
      = .ok { User := UserRepository.preload Sample.db2fa Sample.carol,
              Session := { ID := "s1", UserID := "u3", SessionToken := "T", IPAddress := "ip",
                           UserAgent := "ua", ExpiresAt := 5 * Minute, LastActivityAt := 0 },
              RequiresTwoFactor := true, TempToken := "T" } ∧
    (Sample.auth.sessionService.ValidateSession
        (Sample.auth.Login Sample.db2fa 0 "c@b.c" "pw" "ip" "ua" Sample.draw).2 1 "T")
      = (.ok { ID := "s1", UserID := "u3", SessionToken := "T", IPAddress := "ip",
               UserAgent := "ua", ExpiresAt := 24 * Hour, LastActivityAt := 0 },
         (Sample.auth.Login Sample.db2fa 0 "c@b.c" "pw" "ip" "ua" Sample.draw).2) := by
  decide

/-- A successful verified-password part has stored exactly one new session
row, with the full session timeout, and returns its token. -/
theorem loginVerified_ok (s : AuthService) (db : DB) (now : Time) (user : User)
    (ip ua : String) (rnd : SessionDraw) (res : LoginResult)
    (h : (loginVerified s db now user ip ua rnd).1 = .ok res) :
    ∃ tok row, rnd.token = .ok tok ∧ rnd.usable db = true ∧
      (loginVerified s db now user ip ua rnd).2.sessions = db.sessions ++ [row] ∧
      row.UserID = user.ID ∧ row.SessionToken = tok ∧
      row.ExpiresAt = now + s.sessionService.timeout ∧
      res.User = user ∧ res.Session.SessionToken = tok ∧
      (res.RequiresTwoFactor = true → res.TempToken = tok) := by
  have huse : rnd.usable db = true := (loginVerified_ok_iff s db now user ip ua rnd).mp ⟨res, h⟩
  have hs : (if user.FailedLoginAttempts > 0 then (ResetFailedAttempts db user.ID).2 else db).sessions
      = db.sessions := by
    split
    · exact Reset_sessions db user.ID
    · rfl
  have huse1 := huse
  rw [← usable_congr rnd db _ hs] at huse1
  revert h
  unfold loginVerified
  dsimp only
  rw [← hs]
  generalize (if user.FailedLoginAttempts > 0 then (ResetFailedAttempts db user.ID).2 else db)
    = db1 at huse1 ⊢
  obtain ⟨tok, htok, hcs⟩ := CreateSession_usable s.sessionService db1 now user.ID ip ua rnd huse1
  rw [hcs]
  split
  · intro h
    simp only [Except.ok.injEq] at h
    subst h
    exact ⟨tok, _, htok, huse, rfl, rfl, rfl, rfl, rfl, rfl, fun _ => rfl⟩
  · intro h
    simp only [Except.ok.injEq] at h
    subst h
    exact ⟨tok, _, htok, huse, rfl, rfl, rfl, rfl, rfl, rfl, fun hh => by simp at hh⟩

/-- A successful `Login` went through the verified-password part, on a
database with the sessions of the initial one. -/
theorem Login_ok (s : AuthService) (db : DB) (now : Time)
    (email password ip ua : String) (rnd : SessionDraw) (res : LoginResult)
    (h : (s.Login db now email password ip ua rnd).1 = .ok res) :
    ∃ db1 user, s.Login db now email password ip ua rnd
        = loginVerified s db1 now user ip ua rnd ∧ db1.sessions = db.sessions := by
  unfold Login at h ⊢
  cases hget : GetByEmail db email with
  | error e => simp [hget] at h
  | ok u =>
    simp only [hget] at h ⊢
    split at h
    · cases h
    · next hg =>
      rw [if_neg hg]
      generalize hX : (if u.IsLocked = true then _ else _ : User × DB) = X at h ⊢
      have hXs : X.2.sessions = db.sessions := by
        subst hX
        split
        · exact Update_sessions db _
        · rfl
      by_cases hact : (!X.1.IsActive) = true
      · rw [if_pos hact] at h; cases h
      · rw [if_neg hact] at h ⊢
        by_cases hpw : (!s.crypto.ComparePassword X.1.PasswordHash password) = true
        · rw [if_pos hpw] at h
          exact absurd h (loginWrongPassword_not_ok _ _ _ _ _ _ _ _)
        · rw [if_neg hpw]
          exact ⟨X.2, X.1, rfl, hXs⟩

theorem GetByToken_append_new (db : DB) (row : Session) (rows : List Session)
    (hrows : db.sessions = rows ++ [row])
    (hfresh : rows.any (fun r => r.SessionToken == row.SessionToken) = false) :
    DatabaseSessionStore.GetByToken db row.SessionToken = .ok row := by
  unfold DatabaseSessionStore.GetByToken
  have hnone : rows.find? (fun r => r.SessionToken == row.SessionToken) = none := by
    rw [List.find?_eq_none]
    intro x hx hxt
    have : rows.any (fun r => r.SessionToken == row.SessionToken) = true := by
      rw [List.any_eq_true]; exact ⟨x, hx, hxt⟩
    rw [hfresh] at this; cases this
  rw [hrows, List.find?_append, hnone]
  simp

theorem usable_token_fresh (rnd : SessionDraw) (db : DB) (tok : String)
    (htok : rnd.token = .ok tok) (h : rnd.usable db = true) :
    db.sessions.any (fun r => r.SessionToken == tok) = false := by
  unfold SessionDraw.usable at h
  rw [htok] at h
  simp only [Bool.not_eq_true', List.any_eq_false] at h
  rw [List.any_eq_false]
  intro x hx hxt
  exact h x hx (by simp [hxt])

/-- C4 (as amended): the temporary session of a 2FA login is an ordinary row of
the sessions table, holding the principal's id and the temp token, and
`ValidateSession` accepts the temp token as a session of that principal at
every instant within 5 minutes of the login that is not after the session
timeout, without any TOTP verification in between. -/
theorem C4_temp_session_is_regular_session (s : AuthService) (db : DB) (now t : Time)
    (email password ip ua : String) (rnd : SessionDraw) (res : LoginResult)
    (hres : (s.Login db now email password ip ua rnd).1 = .ok res)
    (h2fa : res.RequiresTwoFactor = true)
    (hwin : t ≤ now + 5 * Minute) (hto : t ≤ now + s.sessionService.timeout) :
    ∃ sess, sess ∈ (s.Login db now email password ip ua rnd).2.sessions ∧
      sess.UserID = res.User.ID ∧ sess.SessionToken = res.TempToken ∧
      s.sessionService.ValidateSession (s.Login db now email password ip ua rnd).2 t res.TempToken
        = (.ok sess, (s.Login db now email password ip ua rnd).2) := by
  have _ := hwin
  obtain ⟨db1, user, hlogin, hsess⟩ := Login_ok s db now email password ip ua rnd res hres
  rw [hlogin] at hres ⊢
  obtain ⟨tok, row, htok, huse, hrows, hrow1, hrow2, hrow3, huser, _, htemp⟩ :=
    loginVerified_ok s db1 now user ip ua rnd res hres
  have htt := htemp h2fa
  have hfresh := usable_token_fresh rnd db1 tok htok huse
  rw [← hrow2] at hfresh
  have hget := GetByToken_append_new _ row _ hrows hfresh
  refine ⟨row, ?_, ?_, ?_, ?_⟩
  · rw [hrows]; simp
  · rw [hrow1, huser]
  · rw [hrow2, htt]
  · unfold SessionService.ValidateSession
    rw [htt, ← hrow2, hget]
    dsimp only
    rw [if_neg (by rw [hrow3]; exact not_lt.mpr hto)]

theorem C4_temp_session_is_regular_session_witness :
    ∃ sess, sess ∈ (Sample.auth.Login Sample.db2fa 0 "c@b.c" "pw" "ip" "ua" Sample.draw).2.sessions ∧
      sess.UserID = "u3" ∧ sess.SessionToken = "T" ∧
      Sample.auth.sessionService.ValidateSession
          (Sample.auth.Login Sample.db2fa 0 "c@b.c" "pw" "ip" "ua" Sample.draw).2 (4 * Minute) "T"
        = (.ok sess, (Sample.auth.Login Sample.db2fa 0 "c@b.c" "pw" "ip" "ua" Sample.draw).2) :=
  C4_temp_session_is_regular_session Sample.auth Sample.db2fa 0 (4 * Minute) "c@b.c" "pw" "ip" "ua"
    Sample.draw
    { User := UserRepository.preload Sample.db2fa Sample.carol,
      Session := { ID := "s1", UserID := "u3", SessionToken := "T", IPAddress := "ip",
                   UserAgent := "ua", ExpiresAt := 5 * Minute, LastActivityAt := 0 },
      RequiresTwoFactor := true, TempToken := "T" }
    (by decide) (by decide) (by decide) (by decide)

/-! ### Frames of the token operations -/

theorem GenerateAccessToken_frame (s : OAuth2TokenService) (db : DB) (now : Time)
    (clientID : String) (userID : Option String) (scopes : List String) (id : String) :
    (s.GenerateAccessToken db now clientID userID scopes id).2.oauth2_authorization_codes
      = db.oauth2_authorization_codes ∧
    (s.GenerateAccessToken db now clientID userID scopes id).2.oauth2_clients
      = db.oauth2_clients ∧
    (s.GenerateAccessToken db now clientID userID scopes id).2.oauth2_refresh_tokens
      = db.oauth2_refresh_tokens := by
  unfold OAuth2TokenService.GenerateAccessToken OAuth2TokenRepository.CreateAccessToken
  cases s.sign (s.accessClaims now clientID userID scopes) with
  | error e => exact ⟨rfl, rfl, rfl⟩
  | ok token =>
    dsimp only
    split_ifs <;> exact ⟨rfl, rfl, rfl⟩

theorem GenerateRefreshToken_frame (s : OAuth2TokenService) (db : DB) (now : Time)
    (clientID userID : String) (scopes : List String) (accessTokenID token id : String) :
    (s.GenerateRefreshToken db now clientID userID scopes accessTokenID token id).2.oauth2_authorization_codes
      = db.oauth2_authorization_codes ∧
    (s.GenerateRefreshToken db now clientID userID scopes accessTokenID token id).2.oauth2_clients
      = db.oauth2_clients := by
  unfold OAuth2TokenService.GenerateRefreshToken OAuth2TokenRepository.CreateRefreshToken
  dsimp only
  split_ifs <;> exact ⟨rfl, rfl⟩

theorem mintTokens_frame (s : OAuth2AuthorizationService) (db : DB) (now : Time)
    (clientID : String) (authCode : OAuth2AuthorizationCode) (rnd : TokenDraw) :
    (s.mintTokens db now clientID authCode rnd).2.oauth2_authorization_codes
      = db.oauth2_authorization_codes ∧
    (s.mintTokens db now clientID authCode rnd).2.oauth2_clients = db.oauth2_clients := by
  unfold OAuth2AuthorizationService.mintTokens
  have h1 := GenerateAccessToken_frame s.tokenService db now clientID (some authCode.UserID)
    authCode.Scopes rnd.accessID
  generalize s.tokenService.GenerateAccessToken db now clientID (some authCode.UserID)
    authCode.Scopes rnd.accessID = r1 at h1 ⊢
  obtain ⟨res1, db1⟩ := r1
  cases res1 with
  | error e => exact ⟨h1.1, h1.2.1⟩
  | ok p =>
    obtain ⟨accessToken, tokenModel⟩ := p
    dsimp only at h1 ⊢
    have h2 := GenerateRefreshToken_frame s.tokenService db1 now clientID authCode.UserID
      authCode.Scopes tokenModel.ID rnd.refreshToken rnd.refreshID
    generalize s.tokenService.GenerateRefreshToken db1 now clientID authCode.UserID
      authCode.Scopes tokenModel.ID rnd.refreshToken rnd.refreshID = r2 at h2 ⊢
    obtain ⟨res2, db2⟩ := r2
    cases res2 with
    | error e => exact ⟨h2.1.trans h1.1, h2.2.trans h1.2.1⟩
    | ok t => exact ⟨h2.1.trans h1.1, h2.2.trans h1.2.1⟩

theorem RefreshAccessToken_frame (s : OAuth2TokenService) (db : DB) (now : Time)
    (refreshToken clientID : String) (rnd : TokenDraw) :
    (s.RefreshAccessToken db now refreshToken clientID rnd).2.oauth2_authorization_codes
      = db.oauth2_authorization_codes ∧
    (s.RefreshAccessToken db now refreshToken clientID rnd).2.oauth2_clients
      = db.oauth2_clients := by
  unfold OAuth2TokenService.RefreshAccessToken
  cases OAuth2TokenRepository.GetRefreshToken db now refreshToken with
  | error e => exact ⟨rfl, rfl⟩
  | ok rt =>
    dsimp only
    split
    · exact ⟨rfl, rfl⟩
    · have h1 := GenerateAccessToken_frame s db now rt.ClientID (some rt.UserID) rt.Scopes
        rnd.accessID
      generalize s.GenerateAccessToken db now rt.ClientID (some rt.UserID) rt.Scopes
        rnd.accessID = r1 at h1 ⊢
      obtain ⟨res1, db1⟩ := r1
      cases res1 with
      | error e => exact ⟨h1.1, h1.2.1⟩
      | ok p =>
        obtain ⟨accessTokenString, accessToken⟩ := p
        dsimp only at h1 ⊢
        have h2 := GenerateRefreshToken_frame s db1 now rt.ClientID rt.UserID rt.Scopes
          accessToken.ID rnd.refreshToken rnd.refreshID
        generalize s.GenerateRefreshToken db1 now rt.ClientID rt.UserID rt.Scopes
          accessToken.ID rnd.refreshToken rnd.refreshID = r2 at h2 ⊢
        obtain ⟨res2, db2⟩ := r2
        cases res2 with
        | error e => exact ⟨h2.1.trans h1.1, h2.2.trans h1.2.1⟩
        | ok t => exact ⟨h2.1.trans h1.1, h2.2.trans h1.2.1⟩

/-! ### The code table -/

theorem find_map_key {α : Type} (k : α → String) (f : α → α) (key : String) (l : List α)
    (hf : ∀ r, k (f r) = k r) :
    (l.map f).find? (fun r => k r == key) = (l.find? (fun r => k r == key)).map f := by
  induction l with
  | nil => simp
  | cons x xs ih =>
    rw [List.map_cons]
    by_cases hx : k x = key
    · rw [List.find?_cons_of_pos _ (by simp [hf, hx]), List.find?_cons_of_pos _ (by simp [hx])]
      rfl
    · rw [List.find?_cons_of_neg _ (by simp [hf, hx]), List.find?_cons_of_neg _ (by simp [hx])]
      exact ih

theorem find_code_map (f : OAuth2AuthorizationCode → OAuth2AuthorizationCode) (code : String)
    (l : List OAuth2AuthorizationCode) (hf : ∀ r, (f r).Code = r.Code) :
    (l.map f).find? (fun r => r.Code == code) = (l.find? (fun r => r.Code == code)).map f :=
  find_map_key (fun r => r.Code) f code l hf

theorem GetByCode_congr (db db2 : DB) (code : String)
    (h : db2.oauth2_authorization_codes = db.oauth2_authorization_codes) :
    OAuth2CodeRepository.GetByCode db2 code = OAuth2CodeRepository.GetByCode db code := by
  simp [OAuth2CodeRepository.GetByCode, h]

theorem codeIsUsed_congr (db db2 : DB) (code : String)
    (h : db2.oauth2_authorization_codes = db.oauth2_authorization_codes) :
    codeIsUsed db2 code = codeIsUsed db code := by
  simp [codeIsUsed, GetByCode_congr db db2 code h]

theorem codeIsUsed_iff (db : DB) (code : String) :
    codeIsUsed db code = true ↔
      ∃ r, db.oauth2_authorization_codes.find? (fun r => r.Code == code) = some r ∧
        r.Used = true := by
  unfold codeIsUsed OAuth2CodeRepository.GetByCode
  cases db.oauth2_authorization_codes.find? (fun r => r.Code == code) with
  | none => simp
  | some r => simp

theorem codeIsUsed_MarkAsUsed (db : DB) (code c : String) (h : codeIsUsed db code = true) :
    codeIsUsed (OAuth2CodeRepository.MarkAsUsed db c).2 code = true := by
  rw [codeIsUsed_iff] at h ⊢
  obtain ⟨r, hr, hu⟩ := h
  unfold OAuth2CodeRepository.MarkAsUsed
  dsimp only
  rw [find_code_map _ code _ (by intro r; by_cases hc : r.Code = c <;> simp [hc]), hr]
  refine ⟨_, rfl, ?_⟩
  by_cases hc : r.Code = c <;> simp [hc, hu]

theorem codeIsUsed_Create (db : DB) (code : String) (x : OAuth2AuthorizationCode)
    (h : codeIsUsed db code = true) :
    codeIsUsed (OAuth2CodeRepository.Create db x).2 code = true := by
  unfold OAuth2CodeRepository.Create
  split
  · exact h
  · rw [codeIsUsed_iff] at h ⊢
    obtain ⟨r, hr, hu⟩ := h
    refine ⟨r, ?_, hu⟩
    dsimp only
    rw [List.find?_append, hr]
    rfl

theorem ValidateCode_ok (db : DB) (now : Time) (code clientID redirectURI : String)
    (a : OAuth2AuthorizationCode)
    (h : OAuth2CodeRepository.ValidateCode db now code clientID redirectURI = .ok a) :
    OAuth2CodeRepository.GetByCode db code = .ok a ∧ a.Used = false ∧ ¬ now > a.ExpiresAt ∧
      a.ClientID = clientID ∧ a.RedirectURI = redirectURI := by
  unfold OAuth2CodeRepository.ValidateCode at h
  cases hg : OAuth2CodeRepository.GetByCode db code with
  | error e => simp [hg] at h
  | ok r =>
    simp only [hg] at h
    split_ifs at h with h1 h2 h3 h4
    injection h with h
    subst h
    exact ⟨rfl, by simpa using h1, h2, by simpa using h3, by simpa using h4⟩

theorem ValidateCode_used (db : DB) (now : Time) (code clientID redirectURI : String)
    (h : codeIsUsed db code = true) :
    OAuth2CodeRepository.ValidateCode db now code clientID redirectURI = .error .ErrCodeUsed := by
  unfold codeIsUsed at h
  unfold OAuth2CodeRepository.ValidateCode
  cases hg : OAuth2CodeRepository.GetByCode db code with
  | error e => simp [hg] at h
  | ok r =>
    simp only [hg] at h ⊢
    rw [if_pos h]

/-- An exchange of a used code fails with `ErrCodeUsed` and writes nothing. -/
theorem Exchange_used (s : OAuth2AuthorizationService) (db : DB) (now : Time)
    (code clientID redirectURI : String) (codeVerifier : Option String) (rnd : TokenDraw)
    (h : codeIsUsed db code = true) :
    s.ExchangeCodeForTokens db now code clientID redirectURI codeVerifier rnd
      = (.error .ErrCodeUsed, db) := by
  unfold OAuth2AuthorizationService.ExchangeCodeForTokens
  rw [ValidateCode_used db now code clientID redirectURI h]

/-- Whatever an exchange returns, a code that was used stays used. -/
theorem codeIsUsed_Exchange (s : OAuth2AuthorizationService) (db : DB) (now : Time)
    (code c clientID redirectURI : String) (codeVerifier : Option String) (rnd : TokenDraw)
    (h : codeIsUsed db code = true) :
    codeIsUsed (s.ExchangeCodeForTokens db now c clientID redirectURI codeVerifier rnd).2 code
      = true := by
  unfold OAuth2AuthorizationService.ExchangeCodeForTokens
  cases OAuth2CodeRepository.ValidateCode db now c clientID redirectURI with
  | error e => exact h
  | ok a =>
    dsimp only
    cases s.checkPKCE a codeVerifier with
    | error e => exact h
    | ok u =>
      dsimp only
      have hm := codeIsUsed_MarkAsUsed db code c h
      unfold OAuth2CodeRepository.MarkAsUsed at hm ⊢
      dsimp only at hm ⊢
      rw [codeIsUsed_congr _ _ code (mintTokens_frame s _ now clientID a rnd).1]
      exact hm

/-- A successful exchange leaves its code used. -/
theorem Exchange_ok_marks (s : OAuth2AuthorizationService) (db : DB) (now : Time)
    (code clientID redirectURI : String) (codeVerifier : Option String) (rnd : TokenDraw)
    (resp : TokenResponse)
    (h : (s.ExchangeCodeForTokens db now code clientID redirectURI codeVerifier rnd).1 = .ok resp) :
    codeIsUsed (s.ExchangeCodeForTokens db now code clientID redirectURI codeVerifier rnd).2 code
      = true := by
  unfold OAuth2AuthorizationService.ExchangeCodeForTokens at h ⊢
  cases hv : OAuth2CodeRepository.ValidateCode db now code clientID redirectURI with
  | error e => simp [hv] at h
  | ok a =>
    simp only [hv] at h ⊢
    cases hp : s.checkPKCE a codeVerifier with
    | error e => simp [hp] at h
    | ok u =>
      simp only [hp] at h ⊢
      unfold OAuth2CodeRepository.MarkAsUsed
      dsimp only
      rw [codeIsUsed_congr _ _ code (mintTokens_frame s _ now clientID a rnd).1]
      obtain ⟨hg, _, _, _, _⟩ := ValidateCode_ok db now code clientID redirectURI a hv
      rw [codeIsUsed_iff]
      unfold OAuth2CodeRepository.GetByCode at hg
      cases hf : db.oauth2_authorization_codes.find? (fun r => r.Code == code) with
      | none => simp [hf] at hg
      | some r =>
        dsimp only
        rw [find_code_map _ code _ (by intro r; by_cases hc : r.Code = code <;> simp [hc]), hf]
        have hrc : r.Code = code := by simpa using List.find?_some hf
        exact ⟨_, rfl, by simp [hrc]⟩

/-- `CreateAuthorizationCode` leaves the database as it was or after the
insert of its record. -/
theorem CreateAuthorizationCode_db (s : OAuth2AuthorizationService) (db : DB)
    (now : Time) (clientID userID redirectURI : String) (scopes : List String)
    (cc ccm : Option String) (c id : String) :
    (s.CreateAuthorizationCode db now clientID userID redirectURI scopes cc ccm c id).2 = db ∨
    (s.CreateAuthorizationCode db now clientID userID redirectURI scopes cc ccm c id).2 =
      (OAuth2CodeRepository.Create db
        { ID := id, Code := c, ClientID := clientID, UserID := userID,
          RedirectURI := redirectURI, Scopes := scopes, CodeChallenge := cc,
          CodeChallengeMethod := ccm, ExpiresAt := now + s.codeExpiry, Used := false }).2 := by
  unfold OAuth2AuthorizationService.CreateAuthorizationCode
  cases OAuth2ClientRepository.GetByClientID db clientID with
  | error e => exact Or.inl rfl
  | ok client =>
    dsimp only
    split
    · exact Or.inl rfl
    · cases OAuth2ClientRepository.ValidateRedirectURI db clientID redirectURI with
      | error e => exact Or.inl rfl
      | ok valid =>
        dsimp only
        split
        · exact Or.inl rfl
        · cases OAuth2AuthorizationService.scopeCheck db clientID scopes with
          | error e => exact Or.inl rfl
          | ok u =>
            dsimp only
            cases s.pkceCheck client cc with
            | error e => exact Or.inl rfl
            | ok u2 =>
              dsimp only
              split
              · next e db2 heq => right; rw [heq]
              · next u3 db2 heq => right; rw [heq]

theorem codeIsUsed_CreateAuthorizationCode (s : OAuth2AuthorizationService) (db : DB)
    (now : Time) (clientID userID redirectURI : String) (scopes : List String)
    (cc ccm : Option String) (c id code : String) (h : codeIsUsed db code = true) :
    codeIsUsed (s.CreateAuthorizationCode db now clientID userID redirectURI scopes cc ccm c id).2
      code = true := by
  rcases CreateAuthorizationCode_db s db now clientID userID redirectURI scopes cc ccm c id
    with h1 | h1
  · rw [h1]; exact h
  · rw [h1]; exact codeIsUsed_Create db code _ h

theorem codeIsUsed_run (s : OAuth2AuthorizationService) (db : DB) (code : String)
    (op : OAuth2Op) (h : codeIsUsed db code = true) : codeIsUsed (op.run s db) code = true := by
  cases op with
  | createCode now clientID userID redirectURI scopes cc ccm c id =>
    exact codeIsUsed_CreateAuthorizationCode s db now clientID userID redirectURI scopes cc ccm
      c id code h
  | exchange now c clientID redirectURI codeVerifier rnd =>
    exact codeIsUsed_Exchange s db now code c clientID redirectURI codeVerifier rnd h
  | refresh now refreshToken clientID rnd =>
    show codeIsUsed (s.tokenService.RefreshAccessToken db now refreshToken clientID rnd).2 code
      = true
    rw [codeIsUsed_congr _ _ code
      (RefreshAccessToken_frame s.tokenService db now refreshToken clientID rnd).1]
    exact h

theorem codeIsUsed_runOps (s : OAuth2AuthorizationService) (code : String)
    (ops : List OAuth2Op) :
    ∀ db, codeIsUsed db code = true → codeIsUsed (runOps s db ops) code = true := by
  induction ops with
  | nil => intro db h; exact h
  | cons op rest ih =>
    intro db h
    exact ih _ (codeIsUsed_run s db code op h)

/-- C5: an authorization code is redeemed at most once.  After one successful
`ExchangeCodeForTokens` of a code, and after any further code creations,
exchanges and refreshes, every `ExchangeCodeForTokens` with the same code,
whatever its other arguments, fails with `ErrCodeUsed` and leaves the database
unchanged (no access or refresh token is stored), and the token endpoint
answers `400 invalid_grant`. -/
theorem C5_code_redeemed_once (s : OAuth2AuthorizationService) (db : DB) (now : Time)
    (code clientID redirectURI : String) (codeVerifier : Option String) (rnd : TokenDraw)
    (resp : TokenResponse)
    (hfirst : (s.ExchangeCodeForTokens db now code clientID redirectURI codeVerifier rnd).1
      = .ok resp)
    (ops : List OAuth2Op) (now2 : Time) (clientID2 redirectURI2 : String)
    (codeVerifier2 : Option String) (verifierForm : String) (rnd2 : TokenDraw) :
    s.ExchangeCodeForTokens
        (runOps s (s.ExchangeCodeForTokens db now code clientID redirectURI codeVerifier rnd).2 ops)
        now2 code clientID2 redirectURI2 codeVerifier2 rnd2
      = (.error .ErrCodeUsed,
         runOps s (s.ExchangeCodeForTokens db now code clientID redirectURI codeVerifier rnd).2 ops) ∧
    (code ≠ "" → redirectURI2 ≠ "" →
      OAuth2Handler.handleAuthorizationCodeGrant s
          (runOps s (s.ExchangeCodeForTokens db now code clientID redirectURI codeVerifier rnd).2 ops)
          now2 clientID2 code redirectURI2 verifierForm rnd2
        = (.json 400 "invalid_grant" "authorization code has already been used",
           runOps s (s.ExchangeCodeForTokens db now code clientID redirectURI codeVerifier rnd).2
             ops)) := by
  have hused := codeIsUsed_runOps s code ops _
    (Exchange_ok_marks s db now code clientID redirectURI codeVerifier rnd resp hfirst)
  refine ⟨Exchange_used s _ now2 code clientID2 redirectURI2 codeVerifier2 rnd2 hused, ?_⟩
  intro hc hr
  unfold OAuth2Handler.handleAuthorizationCodeGrant
  have hcond : (code == "" || redirectURI2 == "") = false := by simp [hc, hr]
  rw [hcond]
  simp only [Bool.false_eq_true, if_false]
  rw [Exchange_used s _ now2 code clientID2 redirectURI2 _ rnd2 hused]
  rfl

theorem C5_code_redeemed_once_witness :
    Sample.oauth.ExchangeCodeForTokens
        (runOps Sample.oauth
          (Sample.oauth.ExchangeCodeForTokens Sample.codeDb 5 "K" "C2" "http://srv/cb" none
            Sample.mint1).2 [])
        6 "K" "C2" "http://srv/cb" none Sample.mint2
      = (.error .ErrCodeUsed,
         runOps Sample.oauth
          (Sample.oauth.ExchangeCodeForTokens Sample.codeDb 5 "K" "C2" "http://srv/cb" none
            Sample.mint1).2 []) ∧
    (Sample.oauth.ExchangeCodeForTokens Sample.codeDb 5 "K" "C2" "http://srv/cb" none
        Sample.mint1).2.oauth2_refresh_tokens.map (fun r => r.Token) = ["R1"] :=
  ⟨(C5_code_redeemed_once Sample.oauth Sample.codeDb 5 "K" "C2" "http://srv/cb" none Sample.mint1
      { AccessToken := "jwt|client_id=C2|scope=openid|iat=0|exp=3600|sub=u1"
        TokenType := "Bearer"
        ExpiresIn := 3600
        RefreshToken := "R1"
        Scope := "openid" }
      (by decide) [] 6 "C2" "http://srv/cb" none "" Sample.mint2).1, by decide⟩

/-- The two store steps of a call, taken one after the other, are
`ExchangeCodeForTokens`. -/
theorem step_step_eq_Exchange (s : OAuth2AuthorizationService) (code : String)
    (call : ExchangeCall) (db : DB) :
    CallState.step s code call (CallState.step s code call db .ready).2
        (CallState.step s code call db .ready).1
      = (.returned (s.ExchangeCodeForTokens db call.now code call.clientID call.redirectURI
            call.codeVerifier call.rnd).1,
         (s.ExchangeCodeForTokens db call.now code call.clientID call.redirectURI
            call.codeVerifier call.rnd).2) := by
  unfold OAuth2AuthorizationService.ExchangeCodeForTokens
  simp only [CallState.step]
  cases OAuth2CodeRepository.ValidateCode db call.now code call.clientID call.redirectURI with
  | error e => rfl
  | ok a =>
    dsimp only
    cases s.checkPKCE a call.codeVerifier with
    | error e => rfl
    | ok u => rfl

/-- Two exchanges of one code run one after the other: the second returns
tokens only if the first did not. -/
theorem serial_exchanges_exclusive (s : OAuth2AuthorizationService) (code : String)
    (a b : ExchangeCall) (db : DB) :
    (∃ resp, (s.ExchangeCodeForTokens db a.now code a.clientID a.redirectURI a.codeVerifier
        a.rnd).1 = .ok resp) →
    (s.ExchangeCodeForTokens
        (s.ExchangeCodeForTokens db a.now code a.clientID a.redirectURI a.codeVerifier a.rnd).2
        b.now code b.clientID b.redirectURI b.codeVerifier b.rnd).1 = .error .ErrCodeUsed := by
  rintro ⟨resp, h⟩
  rw [Exchange_used s _ b.now code b.clientID b.redirectURI b.codeVerifier b.rnd
    (Exchange_ok_marks s db a.now code a.clientID a.redirectURI a.codeVerifier a.rnd resp h)]

theorem gotTokens_returned (r : Except Err TokenResponse) :
    (CallState.returned r).gotTokens = true ↔ ∃ resp, r = .ok resp := by
  cases r with
  | error e => simp [CallState.gotTokens]
  | ok x => simp [CallState.gotTokens]

/-- C6 (counterexample): with both `ValidateCode` steps before both
`MarkAsUsed` steps, the two exchanges of the code `K` both return tokens. -/
theorem C6_interleaved_exchanges_both_succeed :
    (runSchedule Sample.oauth "K" Sample.callA Sample.callB [true, false, true, false]
        { a := .ready, b := .ready, db := Sample.codeDb }).a.gotTokens = true ∧
    (runSchedule Sample.oauth "K" Sample.callA Sample.callB [true, false, true, false]
        { a := .ready, b := .ready, db := Sample.codeDb }).b.gotTokens = true := by
  decide

/-- C6 (as amended): `MarkAsUsed` is unconditional (it reports success on
every database, whatever the row's state), and redemption is exclusive only
between exchanges that do not overlap: in the two schedules where one call
takes both its store steps before the other call's `ValidateCode`, at most one
of the two exchanges of the same code returns tokens. -/
theorem C6_serial_exchanges_at_most_one (s : OAuth2AuthorizationService) (code : String)
    (a b : ExchangeCall) (db : DB) :
    (OAuth2CodeRepository.MarkAsUsed db code).1 = .ok () ∧
    ((runSchedule s code a b [true, true, false, false]
          { a := .ready, b := .ready, db := db }).a.gotTokens &&
      (runSchedule s code a b [true, true, false, false]
          { a := .ready, b := .ready, db := db }).b.gotTokens) = false ∧
    ((runSchedule s code a b [false, false, true, true]
          { a := .ready, b := .ready, db := db }).a.gotTokens &&
      (runSchedule s code a b [false, false, true, true]
          { a := .ready, b := .ready, db := db }).b.gotTokens) = false := by
  refine ⟨rfl, ?_, ?_⟩
  · simp only [runSchedule]
    rw [step_step_eq_Exchange s code a db]
    dsimp only
    rw [step_step_eq_Exchange s code b _]
    dsimp only
    rw [Bool.and_eq_false_iff]
    by_cases h : (CallState.returned (s.ExchangeCodeForTokens db a.now code a.clientID
        a.redirectURI a.codeVerifier a.rnd).1).gotTokens = true
    · right
      have hb := serial_exchanges_exclusive s code a b db ((gotTokens_returned _).mp h)
      rw [hb]; rfl
    · left; simpa using h
  · simp only [runSchedule]
    rw [step_step_eq_Exchange s code b db]
    dsimp only
    rw [step_step_eq_Exchange s code a _]
    dsimp only
    rw [Bool.and_eq_false_iff]
    by_cases h : (CallState.returned (s.ExchangeCodeForTokens db b.now code b.clientID
        b.redirectURI b.codeVerifier b.rnd).1).gotTokens = true
    · left
      have hb := serial_exchanges_exclusive s code b a db ((gotTokens_returned _).mp h)
      rw [hb]; rfl
    · right; simpa using h

/-- The PKCE step refuses a missing or non-matching verifier for a code that
carries a challenge. -/
theorem checkPKCE_reject (s : OAuth2AuthorizationService) (r : OAuth2AuthorizationCode)
    (challenge : String) (codeVerifier : Option String)
    (hch : r.CodeChallenge = some challenge)
    (hbad : codeVerifier = none ∨
      ∃ v, codeVerifier = some v ∧
        VerifyCodeChallenge s.crypto v challenge (r.CodeChallengeMethod.getD "S256") ≠ .ok true) :
    s.checkPKCE r codeVerifier = .error (.msg "code verifier required") ∨
    s.checkPKCE r codeVerifier = .error .ErrInvalidPKCE := by
  unfold OAuth2AuthorizationService.checkPKCE
  rw [hch]
  dsimp only
  rcases hbad with hnone | ⟨v, hv, hne⟩
  · left; rw [hnone]
  · right
    rw [hv]
    dsimp only
    cases hcm : r.CodeChallengeMethod with
    | none =>
      rw [hcm] at hne
      dsimp only
      cases hc : VerifyCodeChallenge s.crypto v challenge "S256" with
      | error e => rfl
      | ok valid =>
        cases valid with
        | true => exact absurd hc hne
        | false => rfl
    | some m =>
      rw [hcm] at hne
      dsimp only
      cases hc : VerifyCodeChallenge s.crypto v challenge m with
      | error e => rfl
      | ok valid =>
        cases valid with
        | true => exact absurd hc hne
        | false => rfl

/-- C7: for a stored code that carries a `code_challenge`, an exchange with no
verifier, or with a verifier that does not verify against the challenge under
the recorded method (`S256` when none is recorded), returns an error and
leaves the database unchanged: the code stays unused and no token is stored;
the token endpoint answers `400 invalid_grant`. -/
theorem C7_pkce_bound_code_needs_verifier (s : OAuth2AuthorizationService) (db : DB)
    (now : Time) (code clientID redirectURI : String) (codeVerifier : Option String)
    (rnd : TokenDraw) (r : OAuth2AuthorizationCode) (challenge : String)
    (hrow : OAuth2CodeRepository.GetByCode db code = .ok r)
    (hch : r.CodeChallenge = some challenge)
    (hbad : codeVerifier = none ∨
      ∃ v, codeVerifier = some v ∧
        VerifyCodeChallenge s.crypto v challenge (r.CodeChallengeMethod.getD "S256") ≠ .ok true) :
    (∃ e, s.ExchangeCodeForTokens db now code clientID redirectURI codeVerifier rnd
        = (.error e, db)) ∧
    (∀ verifierForm : String,
      code ≠ "" → redirectURI ≠ "" →
      codeVerifier = (if verifierForm != "" then some verifierForm else none) →
      ∃ description,
        OAuth2Handler.handleAuthorizationCodeGrant s db now clientID code redirectURI
          verifierForm rnd = (.json 400 "invalid_grant" description, db)) := by
  have hex : ∃ e, s.ExchangeCodeForTokens db now code clientID redirectURI codeVerifier rnd
      = (.error e, db) := by
    unfold OAuth2AuthorizationService.ExchangeCodeForTokens
    cases hv : OAuth2CodeRepository.ValidateCode db now code clientID redirectURI with
    | error e => exact ⟨e, rfl⟩
    | ok a =>
      have ha := (ValidateCode_ok db now code clientID redirectURI a hv).1
      rw [hrow] at ha
      injection ha with ha
      subst ha
      dsimp only
      rcases checkPKCE_reject s r challenge codeVerifier hch hbad with h | h
      · rw [h]; exact ⟨_, rfl⟩
      · rw [h]; exact ⟨_, rfl⟩
  refine ⟨hex, ?_⟩
  intro verifierForm hc hr hform
  obtain ⟨e, he⟩ := hex
  unfold OAuth2Handler.handleAuthorizationCodeGrant
  have hcond : (code == "" || redirectURI == "") = false := by simp [hc, hr]
  rw [hcond]
  simp only [Bool.false_eq_true, if_false]
  rw [← hform, he]
  exact ⟨_, rfl⟩

theorem C7_pkce_bound_code_needs_verifier_witness :
    (∃ e, Sample.oauth.ExchangeCodeForTokens Sample.pkceDb 5 "P" "C1" "http://app/cb"
        (some "W") Sample.mint1 = (.error e, Sample.pkceDb)) ∧
    (∃ e, Sample.oauth.ExchangeCodeForTokens Sample.pkceDb 5 "P" "C1" "http://app/cb"
        none Sample.mint1 = (.error e, Sample.pkceDb)) ∧
    (∃ resp, (Sample.oauth.ExchangeCodeForTokens Sample.pkceDb 5 "P" "C1" "http://app/cb"
        (some "V") Sample.mint1).1 = .ok resp) :=
  ⟨(C7_pkce_bound_code_needs_verifier Sample.oauth Sample.pkceDb 5 "P" "C1" "http://app/cb"
      (some "W") Sample.mint1 Sample.pkceCode "s256:V" (by decide) (by decide)
      (Or.inr ⟨"W", rfl, by decide⟩)).1,
   (C7_pkce_bound_code_needs_verifier Sample.oauth Sample.pkceDb 5 "P" "C1" "http://app/cb"
      none Sample.mint1 Sample.pkceCode "s256:V" (by decide) (by decide) (Or.inl rfl)).1,
   ⟨{ AccessToken := "jwt|client_id=C1|scope=openid profile|iat=0|exp=3600|sub=u1"
      TokenType := "Bearer"
      ExpiresIn := 3600
      RefreshToken := "R1"
      Scope := "openid profile" }, by decide⟩⟩

theorem GetByClientID_congr (db db2 : DB) (clientID : String)
    (h : db2.oauth2_clients = db.oauth2_clients) :
    OAuth2ClientRepository.GetByClientID db2 clientID
      = OAuth2ClientRepository.GetByClientID db clientID := by
  simp [OAuth2ClientRepository.GetByClientID, h]

theorem pkceBound_iff (db : DB) :
    pkceBound db = true ↔
      ∀ r ∈ db.oauth2_authorization_codes, ∀ client,
        OAuth2ClientRepository.GetByClientID db r.ClientID = .ok client →
        client.IsPublic = true → r.CodeChallenge.isSome = true := by
  unfold pkceBound
  rw [List.all_eq_true]
  constructor
  · intro h r hr client hc hp
    have := h r hr
    rw [hc] at this
    simpa [hp] using this
  · intro h r hr
    cases hc : OAuth2ClientRepository.GetByClientID db r.ClientID with
    | error e => rfl
    | ok client =>
      dsimp only
      cases hp : client.IsPublic with
      | false => rfl
      | true => simpa using h r hr client hc hp

/-- A successful code creation passed the PKCE enforcement for the client it
looked up. -/
theorem CreateAuthorizationCode_db_pkce (s : OAuth2AuthorizationService) (db : DB)
    (now : Time) (clientID userID redirectURI : String) (scopes : List String)
    (cc ccm : Option String) (c id : String) :
    (s.CreateAuthorizationCode db now clientID userID redirectURI scopes cc ccm c id).2 = db ∨
    (∃ client, OAuth2ClientRepository.GetByClientID db clientID = .ok client ∧
      s.pkceCheck client cc = .ok () ∧
      (s.CreateAuthorizationCode db now clientID userID redirectURI scopes cc ccm c id).2 =
        { db with oauth2_authorization_codes := db.oauth2_authorization_codes ++
          [{ ID := id, Code := c, ClientID := clientID, UserID := userID,
             RedirectURI := redirectURI, Scopes := scopes, CodeChallenge := cc,
             CodeChallengeMethod := ccm, ExpiresAt := now + s.codeExpiry, Used := false }] }) := by
  unfold OAuth2AuthorizationService.CreateAuthorizationCode
  cases hcl : OAuth2ClientRepository.GetByClientID db clientID with
  | error e => exact Or.inl rfl
  | ok client =>
    dsimp only
    split
    · exact Or.inl rfl
    · cases OAuth2ClientRepository.ValidateRedirectURI db clientID redirectURI with
      | error e => exact Or.inl rfl
      | ok valid =>
        dsimp only
        split
        · exact Or.inl rfl
        · cases OAuth2AuthorizationService.scopeCheck db clientID scopes with
          | error e => exact Or.inl rfl
          | ok u =>
            dsimp only
            cases hp : s.pkceCheck client cc with
            | error e => exact Or.inl rfl
            | ok u2 =>
              dsimp only
              unfold OAuth2CodeRepository.Create
              split_ifs
              · exact Or.inl rfl
              · exact Or.inr ⟨client, rfl, hp, rfl⟩

theorem pkceCheck_ok_public (s : OAuth2AuthorizationService) (client : OAuth2Client)
    (cc : Option String) (henf : s.enforcePKCE = true) (hp : client.IsPublic = true)
    (h : s.pkceCheck client cc = .ok ()) : cc.isSome = true := by
  unfold OAuth2AuthorizationService.pkceCheck at h
  cases cc with
  | some x => rfl
  | none => simp [hp, henf] at h

theorem pkceBound_CreateAuthorizationCode (s : OAuth2AuthorizationService) (db : DB)
    (now : Time) (clientID userID redirectURI : String) (scopes : List String)
    (cc ccm : Option String) (c id : String) (henf : s.enforcePKCE = true)
    (h : pkceBound db = true) :
    pkceBound (s.CreateAuthorizationCode db now clientID userID redirectURI scopes cc ccm c id).2
      = true := by
  rcases CreateAuthorizationCode_db_pkce s db now clientID userID redirectURI scopes cc ccm c id
    with h1 | ⟨client, hcl, hpk, h1⟩
  · rw [h1]; exact h
  · rw [h1, pkceBound_iff]
    rw [pkceBound_iff] at h
    intro r hr cl hc hp
    have hc2 : OAuth2ClientRepository.GetByClientID db r.ClientID = .ok cl := by
      rw [← hc]; exact (GetByClientID_congr _ _ _ rfl).symm
    simp only [List.mem_append, List.mem_singleton] at hr
    rcases hr with hr | hr
    · exact h r hr cl hc2 hp
    · subst hr
      dsimp only at hc2 ⊢
      rw [hcl] at hc2
      injection hc2 with hc2
      subst hc2
      exact pkceCheck_ok_public s client cc henf hp hpk

/-- An exchange leaves the client table alone and the code table either alone
or with some `used` flags set. -/
theorem Exchange_codes (s : OAuth2AuthorizationService) (db : DB) (now : Time)
    (c clientID redirectURI : String) (codeVerifier : Option String) (rnd : TokenDraw) :
    (s.ExchangeCodeForTokens db now c clientID redirectURI codeVerifier rnd).2.oauth2_clients
      = db.oauth2_clients ∧
    ((s.ExchangeCodeForTokens db now c clientID redirectURI codeVerifier rnd).2.oauth2_authorization_codes
        = db.oauth2_authorization_codes ∨
     (s.ExchangeCodeForTokens db now c clientID redirectURI codeVerifier rnd).2.oauth2_authorization_codes
        = db.oauth2_authorization_codes.map (fun r =>
            if r.Code == c then { r with Used := true } else r)) := by
  unfold OAuth2AuthorizationService.ExchangeCodeForTokens
  cases OAuth2CodeRepository.ValidateCode db now c clientID redirectURI with
  | error e => exact ⟨rfl, Or.inl rfl⟩
  | ok a =>
    dsimp only
    cases s.checkPKCE a codeVerifier with
    | error e => exact ⟨rfl, Or.inl rfl⟩
    | ok u =>
      dsimp only
      unfold OAuth2CodeRepository.MarkAsUsed
      dsimp only
      have hf := mintTokens_frame s
        { db with oauth2_authorization_codes :=
            db.oauth2_authorization_codes.map (fun r =>
              if r.Code == c then { r with Used := true } else r) } now clientID a rnd
      exact ⟨hf.2, Or.inr hf.1⟩

theorem pkceBound_congr (db db2 : DB)
    (hc : db2.oauth2_clients = db.oauth2_clients)
    (hk : db2.oauth2_authorization_codes = db.oauth2_authorization_codes) :
    pkceBound db2 = pkceBound db := by
  unfold pkceBound
  rw [hk]
  congr 1
  funext r
  rw [GetByClientID_congr db db2 r.ClientID hc]

theorem pkceBound_Exchange (s : OAuth2AuthorizationService) (db : DB) (now : Time)
    (c clientID redirectURI : String) (codeVerifier : Option String) (rnd : TokenDraw)
    (h : pkceBound db = true) :
    pkceBound (s.ExchangeCodeForTokens db now c clientID redirectURI codeVerifier rnd).2
      = true := by
  obtain ⟨hcl, hk | hk⟩ := Exchange_codes s db now c clientID redirectURI codeVerifier rnd
  · rw [pkceBound_congr _ _ hcl hk]; exact h
  · rw [pkceBound_iff] at h ⊢
    intro r hr cl hc hp
    rw [hk] at hr
    rw [GetByClientID_congr _ _ _ hcl] at hc
    obtain ⟨r0, hr0, rfl⟩ := List.mem_map.mp hr
    by_cases hcode : r0.Code = c
    · simp only [hcode, beq_self_eq_true, if_true] at hc ⊢
      exact h r0 hr0 cl hc hp
    · have hb : (r0.Code == c) = false := by simpa using hcode
      simp only [hb, Bool.false_eq_true, if_false] at hc ⊢
      exact h r0 hr0 cl hc hp

theorem pkceBound_run (s : OAuth2AuthorizationService) (db : DB) (op : OAuth2Op)
    (henf : s.enforcePKCE = true) (h : pkceBound db = true) : pkceBound (op.run s db) = true := by
  cases op with
  | createCode now clientID userID redirectURI scopes cc ccm c id =>
    exact pkceBound_CreateAuthorizationCode s db now clientID userID redirectURI scopes cc ccm
      c id henf h
  | exchange now c clientID redirectURI codeVerifier rnd =>
    exact pkceBound_Exchange s db now c clientID redirectURI codeVerifier rnd h
  | refresh now refreshToken clientID rnd =>
    show pkceBound (s.tokenService.RefreshAccessToken db now refreshToken clientID rnd).2 = true
    rw [pkceBound_congr _ _
      (RefreshAccessToken_frame s.tokenService db now refreshToken clientID rnd).2
      (RefreshAccessToken_frame s.tokenService db now refreshToken clientID rnd).1]
    exact h

theorem clients_run (s : OAuth2AuthorizationService) (db : DB) (op : OAuth2Op) :
    (op.run s db).oauth2_clients = db.oauth2_clients := by
  cases op with
  | createCode now clientID userID redirectURI scopes cc ccm c id =>
    show (s.CreateAuthorizationCode db now clientID userID redirectURI scopes cc ccm c id).2.oauth2_clients = _
    rcases CreateAuthorizationCode_db_pkce s db now clientID userID redirectURI scopes cc ccm c id
      with h1 | ⟨client, _, _, h1⟩
    · rw [h1]
    · rw [h1]
  | exchange now c clientID redirectURI codeVerifier rnd =>
    exact (Exchange_codes s db now c clientID redirectURI codeVerifier rnd).1
  | refresh now refreshToken clientID rnd =>
    exact (RefreshAccessToken_frame s.tokenService db now refreshToken clientID rnd).2

theorem runOps_pkceBound (s : OAuth2AuthorizationService) (ops : List OAuth2Op)
    (henf : s.enforcePKCE = true) :
    ∀ db, pkceBound db = true →
      pkceBound (runOps s db ops) = true ∧
      (runOps s db ops).oauth2_clients = db.oauth2_clients := by
  induction ops with
  | nil => intro db h; exact ⟨h, rfl⟩
  | cons op rest ih =>
    intro db h
    have := ih (op.run s db) (pkceBound_run s db op henf h)
    exact ⟨this.1, this.2.trans (clients_run s db op)⟩

/-- C8 (counterexample): with `enforcePKCE = false` the public client `C1` is
issued a code without a challenge and exchanges it for tokens while passing no
verifier. -/
theorem C8_public_client_tokens_without_verifier :
    OAuth2ClientRepository.GetByClientID Sample.oauthDb "C1" = .ok Sample.publicClient ∧
    Sample.publicClient.IsPublic = true ∧
    Sample.oauthLax.enforcePKCE = false ∧
    (Sample.oauthLax.CreateAuthorizationCode Sample.oauthDb 0 "C1" "u1" "http://app/cb"
        ["openid"] none none "N" "n1").1 = .ok "N" ∧
    (Sample.oauthLax.ExchangeCodeForTokens
        (Sample.oauthLax.CreateAuthorizationCode Sample.oauthDb 0 "C1" "u1" "http://app/cb"
          ["openid"] none none "N" "n1").2
        5 "N" "C1" "http://app/cb" none Sample.mint1).1
      = .ok { AccessToken := "jwt|client_id=C1|scope=openid|iat=0|exp=3600|sub=u1"
              TokenType := "Bearer"
              ExpiresIn := 3600
              RefreshToken := "R1"
              Scope := "openid" } := by
  decide

/-- C8 (as amended): when `enforcePKCE` is set, starting from a database in
which every stored code of a public client carries a challenge (for instance
one without codes), after any sequence of code creations, exchanges and
refreshes, an exchange for a public client that passes no verifier returns an
error and leaves the database unchanged. -/
theorem C8_enforced_pkce_requires_verifier (s : OAuth2AuthorizationService) (db0 : DB)
    (ops : List OAuth2Op) (now : Time) (code clientID redirectURI : String) (rnd : TokenDraw)
    (client : OAuth2Client)
    (henf : s.enforcePKCE = true) (hinit : pkceBound db0 = true)
    (hcl : OAuth2ClientRepository.GetByClientID db0 clientID = .ok client)
    (hpub : client.IsPublic = true) :
    ∃ e, s.ExchangeCodeForTokens (runOps s db0 ops) now code clientID redirectURI none rnd
      = (.error e, runOps s db0 ops) := by
  obtain ⟨hb, hclients⟩ := runOps_pkceBound s ops henf db0 hinit
  have hcl2 : OAuth2ClientRepository.GetByClientID (runOps s db0 ops) clientID = .ok client := by
    rw [GetByClientID_congr _ _ _ hclients]; exact hcl
  generalize runOps s db0 ops = db at hb hcl2
  unfold OAuth2AuthorizationService.ExchangeCodeForTokens
  cases hv : OAuth2CodeRepository.ValidateCode db now code clientID redirectURI with
  | error e => exact ⟨e, rfl⟩
  | ok a =>
    obtain ⟨hg, _, _, hac, _⟩ := ValidateCode_ok db now code clientID redirectURI a hv
    have hmem : a ∈ db.oauth2_authorization_codes := by
      unfold OAuth2CodeRepository.GetByCode at hg
      cases hf : db.oauth2_authorization_codes.find? (fun r => r.Code == code) with
      | none => simp [hf] at hg
      | some r =>
        simp only [hf] at hg
        injection hg with hg
        subst hg
        exact List.mem_of_find?_eq_some hf
    have hsome := (pkceBound_iff db).mp hb a hmem client (by rw [hac]; exact hcl2) hpub
    dsimp only
    have hpk : s.checkPKCE a none = .error (.msg "code verifier required") := by
      unfold OAuth2AuthorizationService.checkPKCE
      cases hcc : a.CodeChallenge with
      | none => simp [hcc] at hsome
      | some ch => rfl
    rw [hpk]
    exact ⟨_, rfl⟩

theorem C8_enforced_pkce_requires_verifier_witness :
    ∃ e, Sample.oauth.ExchangeCodeForTokens
        (runOps Sample.oauth Sample.oauthDb
          [.createCode 0 "C1" "u1" "http://app/cb" ["openid"] (some "s256:V") (some "S256")
            "P" "p1"])
        5 "P" "C1" "http://app/cb" none Sample.mint1
      = (.error e,
         runOps Sample.oauth Sample.oauthDb
          [.createCode 0 "C1" "u1" "http://app/cb" ["openid"] (some "s256:V") (some "S256")
            "P" "p1"]) :=
  C8_enforced_pkce_requires_verifier Sample.oauth Sample.oauthDb
    [.createCode 0 "C1" "u1" "http://app/cb" ["openid"] (some "s256:V") (some "S256") "P" "p1"]
    5 "P" "C1" "http://app/cb" Sample.mint1 Sample.publicClient
    (by decide) (by decide) (by decide) (by decide)

theorem find_token_map (f : OAuth2RefreshToken → OAuth2RefreshToken) (token : String)
    (l : List OAuth2RefreshToken) (hf : ∀ r, (f r).Token = r.Token) :
    (l.map f).find? (fun r => r.Token == token) = (l.find? (fun r => r.Token == token)).map f :=
  find_map_key (fun r => r.Token) f token l hf

/-- What a successful refresh read and wrote in the refresh-token table. -/
theorem RefreshAccessToken_ok (s : OAuth2TokenService) (db : DB) (now : Time)
    (R C : String) (rnd : TokenDraw) (resp : TokenResponse)
    (h : (s.RefreshAccessToken db now R C rnd).1 = .ok resp) :
    ∃ row, OAuth2TokenRepository.GetRefreshToken db now R = .ok row ∧ row.ClientID = C ∧
      db.oauth2_refresh_tokens.any (fun r => r.ID == rnd.refreshID || r.Token == rnd.refreshToken)
        = false ∧
      resp.RefreshToken = rnd.refreshToken ∧
      (s.RefreshAccessToken db now R C rnd).2.oauth2_refresh_tokens =
        (db.oauth2_refresh_tokens ++
          [({ ID := rnd.refreshID, Token := rnd.refreshToken,
              AccessTokenID := some rnd.accessID, ClientID := row.ClientID,
              UserID := row.UserID, Scopes := row.Scopes,
              ExpiresAt := now + s.refreshTokenExpiry, Revoked := false } :
             OAuth2RefreshToken)]).map
          (fun r : OAuth2RefreshToken =>
            if r.Token == R then { r with Revoked := true } else r) := by
  unfold OAuth2TokenService.RefreshAccessToken at h ⊢
  cases hg : OAuth2TokenRepository.GetRefreshToken db now R with
  | error e => simp [hg] at h
  | ok row =>
    simp only [hg] at h ⊢
    split at h
    · cases h
    · next hcl =>
      rw [if_neg hcl]
      have hC : row.ClientID = C := by simpa using hcl
      have hfr := (GenerateAccessToken_frame s db now row.ClientID (some row.UserID) row.Scopes
        rnd.accessID).2.2
      have hid : ∀ tok at_, (s.GenerateAccessToken db now row.ClientID (some row.UserID)
          row.Scopes rnd.accessID).1 = .ok (tok, at_) → at_.ID = rnd.accessID := by
        intro tok at_
        unfold OAuth2TokenService.GenerateAccessToken OAuth2TokenRepository.CreateAccessToken
        cases s.sign (s.accessClaims now row.ClientID (some row.UserID) row.Scopes) with
        | error e => intro hh; cases hh
        | ok token =>
          dsimp only
          split_ifs
          · intro hh; cases hh
          · intro hh; cases hh
          · intro hh
            simp only [Except.ok.injEq, Prod.mk.injEq] at hh
            rw [← hh.2]
      generalize s.GenerateAccessToken db now row.ClientID (some row.UserID) row.Scopes
        rnd.accessID = r1 at h hfr hid ⊢
      obtain ⟨res1, db1⟩ := r1
      cases res1 with
      | error e => cases h
      | ok p =>
        obtain ⟨tok, at_⟩ := p
        have hat := hid tok at_ rfl
        dsimp only at h hfr ⊢
        unfold OAuth2TokenService.GenerateRefreshToken OAuth2TokenRepository.CreateRefreshToken
          at h ⊢
        dsimp only at h ⊢
        rw [hfr] at h ⊢
        by_cases hany : (db.oauth2_refresh_tokens.any
            (fun r => r.ID == rnd.refreshID || r.Token == rnd.refreshToken)) = true
        · rw [if_pos hany] at h
          cases h
        · rw [if_neg hany] at h ⊢
          dsimp only at h ⊢
          simp only [Except.ok.injEq] at h
          subst h
          refine ⟨row, rfl, hC, by simpa using hany, rfl, ?_⟩
          simp only [OAuth2TokenRepository.RevokeRefreshToken, hat]

theorem GetRefreshToken_ok (db : DB) (now : Time) (R : String) (row : OAuth2RefreshToken)
    (h : OAuth2TokenRepository.GetRefreshToken db now R = .ok row) :
    db.oauth2_refresh_tokens.find? (fun r => r.Token == R) = some row ∧ row.Token = R ∧
      row.Revoked = false ∧ ¬ now > row.ExpiresAt := by
  unfold OAuth2TokenRepository.GetRefreshToken at h
  cases hf : db.oauth2_refresh_tokens.find? (fun r => r.Token == R) with
  | none => simp [hf] at h
  | some r =>
    simp only [hf] at h
    split_ifs at h with h1 h2
    injection h with h
    subst h
    exact ⟨rfl, by simpa using List.find?_some hf, by simpa using h1, h2⟩

/-- A refresh of a valid token of the client succeeds when the mint can be
stored. -/
theorem RefreshAccessToken_succeeds (s : OAuth2TokenService) (db : DB) (now : Time)
    (R C : String) (rnd : TokenDraw) (row : OAuth2RefreshToken)
    (hg : OAuth2TokenRepository.GetRefreshToken db now R = .ok row) (hC : row.ClientID = C)
    (hm : s.mintable db now row.ClientID (some row.UserID) row.Scopes rnd = true) :
    ∃ resp, (s.RefreshAccessToken db now R C rnd).1 = .ok resp := by
  unfold OAuth2TokenService.mintable at hm
  unfold OAuth2TokenService.RefreshAccessToken
  simp only [hg]
  have hne : ¬ (row.ClientID != C) = true := by simp [hC]
  rw [if_neg hne]
  unfold OAuth2TokenService.GenerateAccessToken OAuth2TokenRepository.CreateAccessToken
  cases hs : s.sign (s.accessClaims now row.ClientID (some row.UserID) row.Scopes) with
  | error e => simp [hs] at hm
  | ok token =>
    simp only [hs, Bool.and_eq_true, Bool.not_eq_true'] at hm ⊢
    obtain ⟨⟨h1, h2⟩, h3⟩ := hm
    simp only [h1, h2, Bool.false_eq_true, if_false]
    unfold OAuth2TokenService.GenerateRefreshToken OAuth2TokenRepository.CreateRefreshToken
    simp only [h3, Bool.false_eq_true, if_false]
    exact ⟨_, rfl⟩

theorem RefreshAccessToken_get_error (s : OAuth2TokenService) (db : DB) (now : Time)
    (R C : String) (rnd : TokenDraw) (e : Err)
    (h : OAuth2TokenRepository.GetRefreshToken db now R = .error e) :
    s.RefreshAccessToken db now R C rnd = (.error e, db) := by
  unfold OAuth2TokenService.RefreshAccessToken
  rw [h]

/-- What a successful refresh signed and wrote in the access-token table. -/
theorem RefreshAccessToken_minted (s : OAuth2TokenService) (db : DB) (now : Time)
    (R C : String) (rnd : TokenDraw) (row : OAuth2RefreshToken) (resp : TokenResponse)
    (hg : OAuth2TokenRepository.GetRefreshToken db now R = .ok row)
    (h : (s.RefreshAccessToken db now R C rnd).1 = .ok resp) :
    ∃ token, s.sign (s.accessClaims now row.ClientID (some row.UserID) row.Scopes) = .ok token ∧
      (s.hashToken token == "") = false ∧
      db.oauth2_access_tokens.any
        (fun r => r.ID == rnd.accessID || r.TokenHash == s.hashToken token) = false ∧
      db.oauth2_refresh_tokens.any
        (fun r => r.ID == rnd.refreshID || r.Token == rnd.refreshToken) = false ∧
      (s.RefreshAccessToken db now R C rnd).2.oauth2_access_tokens = db.oauth2_access_tokens ++
        [({ ID := rnd.accessID, TokenHash := s.hashToken token, ClientID := row.ClientID,
            UserID := some row.UserID, Scopes := row.Scopes,
            ExpiresAt := now + s.accessTokenExpiry } : OAuth2AccessToken)] := by
  unfold OAuth2TokenService.RefreshAccessToken at h ⊢
  simp only [hg] at h ⊢
  split at h
  · cases h
  · next hcl =>
    rw [if_neg hcl]
    unfold OAuth2TokenService.GenerateAccessToken OAuth2TokenRepository.CreateAccessToken at h ⊢
    cases hs : s.sign (s.accessClaims now row.ClientID (some row.UserID) row.Scopes) with
    | error e => simp [hs] at h
    | ok token =>
      simp only [hs] at h ⊢
      by_cases h1 : (s.hashToken token == "") = true
      · rw [if_pos h1] at h; cases h
      · rw [if_neg h1] at h ⊢
        by_cases h2 : (db.oauth2_access_tokens.any
            (fun r => r.ID == rnd.accessID || r.TokenHash == s.hashToken token)) = true
        · rw [if_pos h2] at h; cases h
        · rw [if_neg h2] at h ⊢
          unfold OAuth2TokenService.GenerateRefreshToken
            OAuth2TokenRepository.CreateRefreshToken at h ⊢
          dsimp only at h ⊢
          by_cases h3 : (db.oauth2_refresh_tokens.any
              (fun r => r.ID == rnd.refreshID || r.Token == rnd.refreshToken)) = true
          · rw [if_pos h3] at h; cases h
          · rw [if_neg h3]
            exact ⟨token, rfl, by simpa using h1, by simpa using h2, by simpa using h3, rfl⟩

/-- A refresh succeeds only if the mint could be stored. -/
theorem RefreshAccessToken_ok_mintable (s : OAuth2TokenService) (db : DB) (now : Time)
    (R C : String) (rnd : TokenDraw) (row : OAuth2RefreshToken) (resp : TokenResponse)
    (hg : OAuth2TokenRepository.GetRefreshToken db now R = .ok row)
    (h : (s.RefreshAccessToken db now R C rnd).1 = .ok resp) :
    s.mintable db now row.ClientID (some row.UserID) row.Scopes rnd = true := by
  obtain ⟨token, hs, h1, h2, h3, _⟩ := RefreshAccessToken_minted s db now R C rnd row resp hg h
  unfold OAuth2TokenService.mintable
  simp only [hs, h1, h2, h3, Bool.not_false, Bool.and_self]

/-- A refresh fails with the error of the insert when an access token of the
same hash is already stored. -/
theorem RefreshAccessToken_duplicate_hash (s : OAuth2TokenService) (db : DB) (now : Time)
    (R C : String) (rnd : TokenDraw) (row : OAuth2RefreshToken) (token : String)
    (hg : OAuth2TokenRepository.GetRefreshToken db now R = .ok row) (hC : row.ClientID = C)
    (hs : s.sign (s.accessClaims now row.ClientID (some row.UserID) row.Scopes) = .ok token)
    (hne : (s.hashToken token == "") = false)
    (hdup : db.oauth2_access_tokens.any (fun r => r.TokenHash == s.hashToken token) = true) :
    s.RefreshAccessToken db now R C rnd = (.error (.gorm "UNIQUE constraint failed"), db) := by
  unfold OAuth2TokenService.RefreshAccessToken
  simp only [hg]
  have hcl : ¬ (row.ClientID != C) = true := by simp [hC]
  rw [if_neg hcl]
  unfold OAuth2TokenService.GenerateAccessToken OAuth2TokenRepository.CreateAccessToken
  simp only [hs]
  have hany : db.oauth2_access_tokens.any
      (fun r => r.ID == rnd.accessID || r.TokenHash == s.hashToken token) = true := by
    rw [List.any_eq_true] at hdup ⊢
    obtain ⟨x, hx, hxt⟩ := hdup
    exact ⟨x, hx, by simp [hxt]⟩
  rw [if_neg (by simp [hne]), if_pos hany]

/-- The access token of a refresh is a function of the client, the principal,
the scopes and the whole seconds of issue and expiry: a refresh of the
returned token at an instant with the same whole seconds as the refresh that
minted it signs the same token, and the insert of its hash fails, whatever is
drawn. -/
theorem RefreshAccessToken_same_second (s : OAuth2TokenService) (db : DB) (now : Time)
    (R C : String) (rnd : TokenDraw) (row : OAuth2RefreshToken) (resp : TokenResponse)
    (hrow : OAuth2TokenRepository.GetRefreshToken db now R = .ok row)
    (hclient : row.ClientID = C)
    (hfirst : (s.RefreshAccessToken db now R C rnd).1 = .ok resp)
    (now3 : Time) (hnow3 : now3 ≤ now + s.refreshTokenExpiry)
    (hiat : unix now3 = unix now)
    (hexp : unix (now3 + s.accessTokenExpiry) = unix (now + s.accessTokenExpiry))
    (rnd3 : TokenDraw) :
    s.RefreshAccessToken (s.RefreshAccessToken db now R C rnd).2 now3 resp.RefreshToken C rnd3
      = (.error (.gorm "UNIQUE constraint failed"), (s.RefreshAccessToken db now R C rnd).2) := by
  obtain ⟨token, hs, h1, _, _, hacc⟩ :=
    RefreshAccessToken_minted s db now R C rnd row resp hrow hfirst
  obtain ⟨row1, hg1, _, hfresh, hresp, htable⟩ := RefreshAccessToken_ok s db now R C rnd resp hfirst
  rw [hrow] at hg1
  injection hg1 with hg1
  subst hg1
  obtain ⟨hfind, htok, _, _⟩ := GetRefreshToken_ok db now R row hrow
  have hmem : row ∈ db.oauth2_refresh_tokens := List.mem_of_find?_eq_some hfind
  have hne : rnd.refreshToken ≠ R := by
    intro heq
    rw [List.any_eq_false] at hfresh
    exact hfresh row hmem (by simp [htok, heq])
  have hnone : db.oauth2_refresh_tokens.find? (fun r => r.Token == rnd.refreshToken) = none := by
    rw [List.find?_eq_none]
    intro x hx hxt
    rw [List.any_eq_false] at hfresh
    exact hfresh x hx (by simp at hxt; simp [hxt])
  have hkeep : ∀ r : OAuth2RefreshToken,
      (if r.Token == R then { r with Revoked := true } else r).Token = r.Token := by
    intro r; by_cases hc : r.Token = R <;> simp [hc]
  have hget : OAuth2TokenRepository.GetRefreshToken (s.RefreshAccessToken db now R C rnd).2
      now3 resp.RefreshToken
      = .ok { ID := rnd.refreshID, Token := rnd.refreshToken,
              AccessTokenID := some rnd.accessID, ClientID := row.ClientID,
              UserID := row.UserID, Scopes := row.Scopes,
              ExpiresAt := now + s.refreshTokenExpiry, Revoked := false } := by
    unfold OAuth2TokenRepository.GetRefreshToken
    rw [htable, hresp, find_token_map _ rnd.refreshToken _ hkeep, List.find?_append, hnone]
    have hb : (rnd.refreshToken == R) = false := by simpa using hne
    simp only [List.find?_cons_of_pos, beq_self_eq_true, Option.none_or, Option.map_some',
      hb, Bool.false_eq_true, if_false]
    rw [if_neg (not_lt.mpr hnow3)]
  refine RefreshAccessToken_duplicate_hash s _ now3 resp.RefreshToken C rnd3 _ token hget hclient
    ?_ h1 ?_
  · have hcl : s.accessClaims now3 row.ClientID (some row.UserID) row.Scopes
        = s.accessClaims now row.ClientID (some row.UserID) row.Scopes := by
      unfold OAuth2TokenService.accessClaims
      rw [hiat, hexp]
    exact hcl ▸ hs
  · rw [hacc]
    simp

/-- C9 (counterexample): the refresh token `R1` of the client `C2` is valid and
is refreshed at 2 000 000 000 ns, which returns the refresh token `R2`; one
nanosecond later `R2` is found valid, unrevoked, for `C2`, and
`RefreshAccessToken` with `R2` and fresh draws fails with the error of the
insert, because the access token it signs is the one signed a nanosecond
before; the database is left as it was. -/
theorem C9_refresh_in_the_second_of_the_mint_fails :
    OAuth2TokenRepository.GetRefreshToken Sample.tokenDb 2000000000 "R1"
      = .ok Sample.refreshRow ∧
    (Sample.tokens.RefreshAccessToken Sample.tokenDb 2000000000 "R1" "C2" Sample.mint2).1
      = .ok Sample.refreshResponse ∧
    Sample.refreshResponse.RefreshToken = "R2" ∧
    OAuth2TokenRepository.GetRefreshToken
        (Sample.tokens.RefreshAccessToken Sample.tokenDb 2000000000 "R1" "C2" Sample.mint2).2
        2000000001 "R2"
      = .ok { ID := "r2", Token := "R2", AccessTokenID := some "a2", ClientID := "C2",
              UserID := "u1", Scopes := ["openid"], ExpiresAt := 2000000000 + 720 * Hour,
              Revoked := false } ∧
    Sample.tokens.RefreshAccessToken
        (Sample.tokens.RefreshAccessToken Sample.tokenDb 2000000000 "R1" "C2" Sample.mint2).2
        2000000001 "R2" "C2" Sample.mint3
      = (.error (.gorm "UNIQUE constraint failed"),
         (Sample.tokens.RefreshAccessToken Sample.tokenDb 2000000000 "R1" "C2" Sample.mint2).2) := by
  decide

/-- C9 (as amended): refresh-token rotation.  For an unrevoked, unexpired
refresh token `R` of client `C`, a successful `RefreshAccessToken(R, C)`
returns a refresh token different from `R`; afterwards every
`RefreshAccessToken` with `R` fails with `ErrTokenRevoked` and changes nothing;
and the returned token is stored unrevoked for `C` and is found valid at every
instant up to its expiry, where `RefreshAccessToken` with it succeeds exactly
when the new pair can be stored: the new access token is signed, its hash is
not empty and not yet stored, and the drawn ids and the drawn refresh token are
not yet stored. -/
theorem C9_refresh_rotation (s : OAuth2TokenService) (db : DB) (now : Time)
    (R C : String) (rnd : TokenDraw) (row : OAuth2RefreshToken) (resp : TokenResponse)
    (hrow : OAuth2TokenRepository.GetRefreshToken db now R = .ok row)
    (hclient : row.ClientID = C)
    (hfirst : (s.RefreshAccessToken db now R C rnd).1 = .ok resp) :
    resp.RefreshToken ≠ R ∧
    (∀ (now2 : Time) (C2 : String) (rnd2 : TokenDraw),
      s.RefreshAccessToken (s.RefreshAccessToken db now R C rnd).2 now2 R C2 rnd2
        = (.error .ErrTokenRevoked, (s.RefreshAccessToken db now R C rnd).2)) ∧
    (∀ (now3 : Time), now3 ≤ now + s.refreshTokenExpiry →
      (∃ row2, OAuth2TokenRepository.GetRefreshToken (s.RefreshAccessToken db now R C rnd).2 now3
          resp.RefreshToken = .ok row2 ∧ row2.Revoked = false ∧ row2.ClientID = C) ∧
      ∀ rnd3 : TokenDraw,
        (∃ resp3, (s.RefreshAccessToken (s.RefreshAccessToken db now R C rnd).2 now3
          resp.RefreshToken C rnd3).1 = .ok resp3) ↔
        s.mintable (s.RefreshAccessToken db now R C rnd).2 now3 C (some row.UserID) row.Scopes rnd3
          = true) := by
  obtain ⟨row1, hg1, _, hfresh, hresp, htable⟩ := RefreshAccessToken_ok s db now R C rnd resp hfirst
  rw [hrow] at hg1
  injection hg1 with hg1
  subst hg1
  obtain ⟨hfind, htok, _, _⟩ := GetRefreshToken_ok db now R row hrow
  have hmem : row ∈ db.oauth2_refresh_tokens := List.mem_of_find?_eq_some hfind
  -- the drawn token is not in the table, the presented one is
  have hne : rnd.refreshToken ≠ R := by
    intro heq
    rw [List.any_eq_false] at hfresh
    exact hfresh row hmem (by simp [htok, heq])
  have hnone : db.oauth2_refresh_tokens.find? (fun r => r.Token == rnd.refreshToken) = none := by
    rw [List.find?_eq_none]
    intro x hx hxt
    rw [List.any_eq_false] at hfresh
    exact hfresh x hx (by simp at hxt; simp [hxt])
  have hkeep : ∀ r : OAuth2RefreshToken,
      (if r.Token == R then { r with Revoked := true } else r).Token = r.Token := by
    intro r; by_cases hc : r.Token = R <;> simp [hc]
  refine ⟨by rw [hresp]; exact hne, ?_, ?_⟩
  · intro now2 C2 rnd2
    have hget : OAuth2TokenRepository.GetRefreshToken (s.RefreshAccessToken db now R C rnd).2
        now2 R = .error .ErrTokenRevoked := by
      unfold OAuth2TokenRepository.GetRefreshToken
      rw [htable, find_token_map _ R _ hkeep, List.find?_append, hfind]
      simp [htok]
    exact RefreshAccessToken_get_error s _ now2 R C2 rnd2 _ hget
  · intro now3 hnow3
    have hget : OAuth2TokenRepository.GetRefreshToken (s.RefreshAccessToken db now R C rnd).2
        now3 resp.RefreshToken
        = .ok { ID := rnd.refreshID, Token := rnd.refreshToken,
                AccessTokenID := some rnd.accessID, ClientID := row.ClientID,
                UserID := row.UserID, Scopes := row.Scopes,
                ExpiresAt := now + s.refreshTokenExpiry, Revoked := false } := by
      unfold OAuth2TokenRepository.GetRefreshToken
      rw [htable, hresp, find_token_map _ rnd.refreshToken _ hkeep, List.find?_append, hnone]
      have hb : (rnd.refreshToken == R) = false := by simpa using hne
      simp only [List.find?_cons_of_pos, beq_self_eq_true, Option.none_or, Option.map_some',
        hb, Bool.false_eq_true, if_false]
      rw [if_neg (not_lt.mpr hnow3)]
    refine ⟨⟨_, hget, rfl, hclient⟩, ?_⟩
    intro rnd3
    constructor
    · rintro ⟨resp3, h3⟩
      have hm := RefreshAccessToken_ok_mintable s _ now3 resp.RefreshToken C rnd3 _ resp3 hget h3
      subst hclient
      exact hm
    · intro hm
      exact RefreshAccessToken_succeeds s _ now3 resp.RefreshToken C rnd3 _ hget hclient
        (by rw [hclient]; exact hm)

theorem C9_refresh_rotation_witness :
    Sample.refreshResponse.RefreshToken ≠ "R1" ∧
    Sample.tokens.RefreshAccessToken
        (Sample.tokens.RefreshAccessToken Sample.tokenDb 2000000000 "R1" "C2" Sample.mint2).2
        3000000000 "R1" "C2" Sample.mint3
      = (.error .ErrTokenRevoked,
         (Sample.tokens.RefreshAccessToken Sample.tokenDb 2000000000 "R1" "C2" Sample.mint2).2) ∧
    (∃ resp3, (Sample.tokens.RefreshAccessToken
        (Sample.tokens.RefreshAccessToken Sample.tokenDb 2000000000 "R1" "C2" Sample.mint2).2
        4000000000 Sample.refreshResponse.RefreshToken "C2" Sample.mint3).1 = .ok resp3) ∧
    ¬ (∃ resp3, (Sample.tokens.RefreshAccessToken
        (Sample.tokens.RefreshAccessToken Sample.tokenDb 2000000000 "R1" "C2" Sample.mint2).2
        2000000001 Sample.refreshResponse.RefreshToken "C2" Sample.mint3).1 = .ok resp3) :=
  have h := C9_refresh_rotation Sample.tokens Sample.tokenDb 2000000000 "R1" "C2" Sample.mint2
    Sample.refreshRow Sample.refreshResponse (by decide) (by decide) (by decide)
  ⟨h.1, h.2.1 3000000000 "C2" Sample.mint3,
    ((h.2.2 4000000000 (by decide)).2 Sample.mint3).mpr (by decide),
    fun h3 => absurd (((h.2.2 2000000001 (by decide)).2 Sample.mint3).mp h3) (by decide)⟩

/-- C10 (evaluation): a denied consent whose form names a redirect URI that is
not registered for the client is answered with a redirect to that URI. -/
theorem C10_deny_redirects_to_unregistered_uri :
    OAuth2ClientRepository.ValidateRedirectURI Sample.oauthDb "C1" "https://evil.example/cb"
      = .ok false ∧
    OAuth2Handler.AuthorizeConsent Sample.oauth Sample.oauthDb 0 (some "u1")
        (some Sample.denyForm) "N" "n1"
      = (.redirect "https://evil.example/cb?error=access_denied&state=xyz", Sample.oauthDb) := by
  decide

/-- Every redirect that `Authorize` answers, to the login page or back to the
client, comes after the redirect URI was validated for the client. -/
theorem Authorize_redirect_validated (s : OAuth2AuthorizationService) (db : DB) (now : Time)
    (q : AuthorizeQuery) (userID : Option String) (originalURL code id url : String)
    (h : (OAuth2Handler.Authorize s db now q userID originalURL code id).1 = .redirect url) :
    OAuth2ClientRepository.ValidateRedirectURI db q.clientID q.redirectURI = .ok true := by
  unfold OAuth2Handler.Authorize at h
  by_cases h1 : (q.responseType != "code") = true
  · rw [if_pos h1] at h; cases h
  · rw [if_neg h1] at h
    by_cases h2 : (q.clientID == "" || q.redirectURI == "") = true
    · rw [if_pos h2] at h; cases h
    · rw [if_neg h2] at h
      cases hv : OAuth2ClientRepository.ValidateRedirectURI db q.clientID q.redirectURI with
      | error e => simp [hv] at h
      | ok valid =>
        cases valid with
        | false => simp [hv] at h
        | true => rfl

theorem GrantConsent_clients (db : DB) (userID clientID : String) (scopes : List String) :
    (OAuth2ConsentService.GrantConsent db userID clientID scopes).2.oauth2_clients
      = db.oauth2_clients := by
  have hup : ∀ c, (OAuth2ConsentRepository.Upsert db c).2.oauth2_clients = db.oauth2_clients := by
    intro c
    unfold OAuth2ConsentRepository.Upsert OAuth2ConsentRepository.Update
      OAuth2ConsentRepository.Create
    split
    · rfl
    · split <;> rfl
  unfold OAuth2ConsentService.GrantConsent
  cases OAuth2ClientRepository.GetByClientID db clientID with
  | error e => rfl
  | ok c =>
    dsimp only
    split
    · cases OAuth2ScopeRepository.ValidateScopes db scopes with
      | error e => rfl
      | ok valid =>
        dsimp only
        split
        · rfl
        · exact hup _
    · exact hup _

theorem ValidateRedirectURI_congr (db db2 : DB) (clientID uri : String)
    (h : db2.oauth2_clients = db.oauth2_clients) :
    OAuth2ClientRepository.ValidateRedirectURI db2 clientID uri
      = OAuth2ClientRepository.ValidateRedirectURI db clientID uri := by
  unfold OAuth2ClientRepository.ValidateRedirectURI
  rw [GetByClientID_congr db db2 clientID h]

/-- A successful `CreateAuthorizationCode` validated the redirect URI. -/
theorem CreateAuthorizationCode_ok_validated (s : OAuth2AuthorizationService) (db : DB)
    (now : Time) (clientID userID redirectURI : String) (scopes : List String)
    (cc ccm : Option String) (c id out : String)
    (h : (s.CreateAuthorizationCode db now clientID userID redirectURI scopes cc ccm c id).1
      = .ok out) :
    OAuth2ClientRepository.ValidateRedirectURI db clientID redirectURI = .ok true := by
  unfold OAuth2AuthorizationService.CreateAuthorizationCode at h
  cases hcl : OAuth2ClientRepository.GetByClientID db clientID with
  | error e => simp [hcl] at h
  | ok client =>
    simp only [hcl] at h
    split at h
    · cases h
    · cases hv : OAuth2ClientRepository.ValidateRedirectURI db clientID redirectURI with
      | error e => simp [hv] at h
      | ok valid =>
        cases valid with
        | false => simp [hv] at h
        | true => rfl

/-- The approve path of `AuthorizeConsent` redirects only after the redirect
URI was validated for the client. -/
theorem AuthorizeConsent_approve_redirect_validated (s : OAuth2AuthorizationService) (db : DB)
    (now : Time) (userID : Option String) (req : ConsentRequest) (code id url : String)
    (happ : req.Approve = "true")
    (h : (OAuth2Handler.AuthorizeConsent s db now userID (some req) code id).1 = .redirect url) :
    OAuth2ClientRepository.ValidateRedirectURI db req.ClientID req.RedirectURI = .ok true := by
  unfold OAuth2Handler.AuthorizeConsent at h
  cases userID with
  | none => cases h
  | some uid =>
    dsimp only at h
    have hne : ¬ (req.Approve != "true") = true := by simp [happ]
    rw [if_neg hne] at h
    have hcl := GrantConsent_clients db uid req.ClientID (parseScopes req.Scope)
    generalize OAuth2ConsentService.GrantConsent db uid req.ClientID (parseScopes req.Scope)
      = g at h hcl
    obtain ⟨gres, db1⟩ := g
    cases gres with
    | error e => cases h
    | ok u =>
      dsimp only at h hcl
      have hok : ∃ out, (s.CreateAuthorizationCode db1 now req.ClientID uid req.RedirectURI
          (parseScopes req.Scope)
          (OAuth2Handler.challengePointers req.CodeChallenge req.CodeChallengeMethod).1
          (OAuth2Handler.challengePointers req.CodeChallenge req.CodeChallengeMethod).2
          code id).1 = .ok out := by
        generalize s.CreateAuthorizationCode db1 now req.ClientID uid req.RedirectURI
          (parseScopes req.Scope)
          (OAuth2Handler.challengePointers req.CodeChallenge req.CodeChallengeMethod).1
          (OAuth2Handler.challengePointers req.CodeChallenge req.CodeChallengeMethod).2
          code id = r at h
        obtain ⟨res, db2⟩ := r
        cases res with
        | error e => cases h
        | ok out => exact ⟨out, rfl⟩
      obtain ⟨out, hout⟩ := hok
      have := CreateAuthorizationCode_ok_validated s db1 now req.ClientID uid req.RedirectURI
        _ _ _ code id out hout
      rw [ValidateRedirectURI_congr db db1 _ _ hcl] at this
      exact this

theorem Login_unknown_email (s : AuthService) (db : DB) (now : Time)
    (email password ip ua : String) (rnd : SessionDraw) (e : Err)
    (h : GetByEmail db email = .error e) :
    (s.Login db now email password ip ua rnd).1 = .error .ErrInvalidCredentials := by
  simp [Login, h]

/-- C11 (counterexample): with `maxAttempts = 2`, after one failed attempt the
principal is still active and unlocked; the next wrong password is answered
`ErrAccountLocked`, while an unregistered email is answered
`ErrInvalidCredentials`. -/
theorem C11_threshold_attempt_differs_from_unknown_email :
    GetByEmail (Sample.auth.Login Sample.db 10 "a@b.c" "x" "ip" "ua" Sample.draw).2 "a@b.c"
      = .ok { Sample.alice with FailedLoginAttempts := 1 } ∧
    (Sample.auth.Login (Sample.auth.Login Sample.db 10 "a@b.c" "x" "ip" "ua" Sample.draw).2
        20 "a@b.c" "y" "ip" "ua" Sample.draw).1 = .error .ErrAccountLocked ∧
    (Sample.auth.Login (Sample.auth.Login Sample.db 10 "a@b.c" "x" "ip" "ua" Sample.draw).2
        20 "nobody@b.c" "y" "ip" "ua" Sample.draw).1 = .error .ErrInvalidCredentials := by
  decide

/-- C11 (as amended): for an existing, active, unlocked principal, a wrong
password that leaves the failure counter below `maxAttempts` is answered with
the same error, `ErrInvalidCredentials`, as a login with an email for which no
principal exists; a wrong password that brings the counter to `maxAttempts`
is answered `ErrAccountLocked`. -/
theorem C11_same_error_below_threshold (s : AuthService) (db : DB) (now : Time)
    (email password ip ua : String) (rnd : SessionDraw) (u : User)
    (email2 password2 ip2 ua2 : String) (rnd2 : SessionDraw) (e : Err)
    (hget : GetByEmail db email = .ok u) (hact : u.IsActive = true) (hunl : u.IsLocked = false)
    (hpw : s.crypto.ComparePassword u.PasswordHash password = false)
    (hnone : GetByEmail db email2 = .error e) :
    (s.Login db now email2 password2 ip2 ua2 rnd2).1 = .error .ErrInvalidCredentials ∧
    (u.FailedLoginAttempts + 1 < s.maxAttempts →
      (s.Login db now email password ip ua rnd).1 = .error .ErrInvalidCredentials) ∧
    (s.maxAttempts ≤ u.FailedLoginAttempts + 1 →
      (s.Login db now email password ip ua rnd).1 = .error .ErrAccountLocked) := by
  refine ⟨Login_unknown_email s db now email2 password2 ip2 ua2 rnd2 e hnone, ?_, ?_⟩
  · intro hlt
    rw [Login_wrong_password s db now email password ip ua rnd u hget hact hunl hpw]
    exact (loginWrongPassword_below s db now email ip ua u hget hlt).1
  · intro hge
    rw [Login_wrong_password s db now email password ip ua rnd u hget hact hunl hpw]
    exact (loginWrongPassword_lock s db now email ip ua u hget hge).1

theorem C11_same_error_below_threshold_witness :
    (Sample.auth.Login Sample.db 10 "nobody@b.c" "pw" "ip" "ua" Sample.draw).1
      = .error .ErrInvalidCredentials ∧
    (Sample.auth.Login Sample.db 10 "a@b.c" "x" "ip" "ua" Sample.draw).1
      = .error .ErrInvalidCredentials :=
  have h := C11_same_error_below_threshold Sample.auth Sample.db 10 "a@b.c" "x" "ip" "ua"
    Sample.draw Sample.alice "nobody@b.c" "pw" "ip" "ua" Sample.draw .ErrNotFound
    (by decide) (by decide) (by decide) (by decide) (by decide)
  ⟨h.1, h.2.1 (by decide)⟩

/-- C14 (counterexample): the empty method is accepted and reports a match. -/
theorem C14_empty_method_accepted :
    VerifyCodeChallenge Sample.crypto "abc" "abc" "" = .ok true := by
  decide

/-- C14 (as amended): `VerifyCodeChallenge` accepts the methods `plain`, `S256`
and the empty method, which it treats as `plain`; for every other method
string, and every verifier and challenge, it returns an error, never a
match. -/
theorem C14_unsupported_method_rejected (c : Crypto) (verifier challenge method : String)
    (h0 : method ≠ "") (h1 : method ≠ "plain") (h2 : method ≠ "S256") :
    VerifyCodeChallenge c verifier challenge method
      = .error (.msg ("unsupported code challenge method: " ++ method)) ∧
    VerifyCodeChallenge c verifier challenge "" = .ok (verifier == challenge) ∧
    VerifyCodeChallenge c verifier challenge "plain" = .ok (verifier == challenge) := by
  refine ⟨?_, rfl, rfl⟩
  unfold VerifyCodeChallenge
  simp [h0, h1, h2]

theorem C14_unsupported_method_rejected_witness :
    VerifyCodeChallenge Sample.crypto "abc" "abc" "S512"
      = .error (.msg ("unsupported code challenge method: " ++ "S512")) :=
  (C14_unsupported_method_rejected Sample.crypto "abc" "abc" "S512"
    (by decide) (by decide) (by decide)).1

/-- A successful `Login` of a fetched principal took the verified-password
part, either directly (principal unlocked) or after clearing an expired
lock. -/
theorem Login_ok_cases (s : AuthService) (db : DB) (now : Time)
    (email password ip ua : String) (rnd : SessionDraw) (u : User) (res : LoginResult)
    (hget : GetByEmail db email = .ok u)
    (h : (s.Login db now email password ip ua rnd).1 = .ok res) :
    u.IsActive = true ∧ s.crypto.ComparePassword u.PasswordHash password = true ∧
    ((u.IsLocked = false ∧
        s.Login db now email password ip ua rnd = loginVerified s db now u ip ua rnd) ∨
     (u.IsLocked = true ∧
        s.Login db now email password ip ua rnd =
          loginVerified s
            (Update db { u with IsLocked := false, LockedUntil := none,
                                FailedLoginAttempts := 0 }).2
            now { u with IsLocked := false, LockedUntil := none, FailedLoginAttempts := 0 }
            ip ua rnd)) := by
  have hact : u.IsActive = true := by
    by_contra hna
    have hf : u.IsActive = false := by simpa using hna
    cases hl : u.IsLocked <;> cases hlu : u.LockedUntil <;>
      simp [Login, hget, hl, hlu, hf] at h
    split at h <;> cases h
  have hpw : s.crypto.ComparePassword u.PasswordHash password = true := by
    by_contra hnp
    have hf : s.crypto.ComparePassword u.PasswordHash password = false := by simpa using hnp
    cases hl : u.IsLocked <;> cases hlu : u.LockedUntil <;>
      simp [Login, hget, hl, hlu, hf, hact] at h
    · exact loginWrongPassword_not_ok _ _ _ _ _ _ _ _ h
    · exact loginWrongPassword_not_ok _ _ _ _ _ _ _ _ h
    · exact loginWrongPassword_not_ok _ _ _ _ _ _ _ _ h
    · split at h
      · cases h
      · exact loginWrongPassword_not_ok _ _ _ _ _ _ _ _ h
  refine ⟨hact, hpw, ?_⟩
  cases hl : u.IsLocked with
  | false =>
    left
    refine ⟨rfl, ?_⟩
    simp [Login, hget, hl, hact, hpw]
  | true =>
    right
    refine ⟨rfl, ?_⟩
    cases hlu : u.LockedUntil with
    | none => simp [Login, hget, hl, hlu, hact, hpw]
    | some t =>
      by_cases hlt : now < t
      · simp [Login, hget, hl, hlu, hlt] at h
      · simp [Login, hget, hl, hlu, hlt, hact, hpw]

/-- The principal as stored after a successful login. -/
theorem Login_ok_fetch (s : AuthService) (db : DB) (now : Time)
    (email password ip ua : String) (rnd : SessionDraw) (u : User) (res : LoginResult)
    (hget : GetByEmail db email = .ok u) (hnn : 0 ≤ u.FailedLoginAttempts)
    (h : (s.Login db now email password ip ua rnd).1 = .ok res) :
    ∃ u2, GetByEmail (s.Login db now email password ip ua rnd).2 email = .ok u2 ∧
      u2.FailedLoginAttempts = 0 ∧ u2.IsLocked = false ∧ u2.IsActive = true ∧
      u2.PasswordHash = u.PasswordHash := by
  obtain ⟨hact, _, hcase | hcase⟩ := Login_ok_cases s db now email password ip ua rnd u res hget h
  · obtain ⟨hl, heq⟩ := hcase
    rw [heq]
    obtain ⟨v2, h2, _, hl2, _, ha2, hp2, hf2⟩ :=
      loginVerified_fetch s db now u ip ua email rnd u hget
    refine ⟨v2, h2, ?_, by rw [hl2, hl], by rw [ha2, hact], hp2⟩
    rw [hf2]
    split
    · rfl
    · next hn =>
      have : ¬ 0 < u.FailedLoginAttempts := fun hp => hn ⟨hp, rfl⟩
      omega
  · obtain ⟨hl, heq⟩ := hcase
    rw [heq]
    have hem := GetByEmail_email db email u hget
    have hfetch := GetByEmail_Update db email u
      { u with IsLocked := false, LockedUntil := none, FailedLoginAttempts := 0 } hget rfl hem
    obtain ⟨v2, h2, _, hl2, _, ha2, hp2, hf2⟩ :=
      loginVerified_fetch s _ now
        { u with IsLocked := false, LockedUntil := none, FailedLoginAttempts := 0 }
        ip ua email rnd _ hfetch
    refine ⟨v2, h2, ?_, ?_, ?_, ?_⟩
    · rw [hf2]; simp [preload, withTwoFactorAuth]
    · rw [hl2]; simp [preload, withTwoFactorAuth]
    · rw [ha2]; simp [preload, withTwoFactorAuth, hact]
    · rw [hp2]; simp [preload, withTwoFactorAuth]

/-- C12: every successful `Login` of a principal whose stored failure counter
is not negative leaves the stored counter at 0, whether or not the 2FA branch
is taken and whether the principal was unlocked or had an expired lock; a
wrong password right after the success leaves the counter at 1. -/
theorem C12_success_resets_failed_attempts (s : AuthService) (db : DB) (now : Time)
    (email password ip ua : String) (rnd : SessionDraw) (u : User) (res : LoginResult)
    (hget : GetByEmail db email = .ok u) (hnn : 0 ≤ u.FailedLoginAttempts)
    (hres : (s.Login db now email password ip ua rnd).1 = .ok res) :
    (∃ u2, GetByEmail (s.Login db now email password ip ua rnd).2 email = .ok u2 ∧
      u2.FailedLoginAttempts = 0) ∧
    (∀ (now2 : Time) (password2 ip2 ua2 : String) (rnd2 : SessionDraw),
      s.crypto.ComparePassword u.PasswordHash password2 = false →
      ∃ u3, GetByEmail
          (s.Login (s.Login db now email password ip ua rnd).2 now2 email password2 ip2 ua2
            rnd2).2 email = .ok u3 ∧
        u3.FailedLoginAttempts = 1) := by
  obtain ⟨u2, h2, hf, hl, ha, hp⟩ :=
    Login_ok_fetch s db now email password ip ua rnd u res hget hnn hres
  refine ⟨⟨u2, h2, hf⟩, ?_⟩
  intro now2 password2 ip2 ua2 rnd2 hwrong
  rw [Login_wrong_password s _ now2 email password2 ip2 ua2 rnd2 u2 h2 ha hl
    (by rw [hp]; exact hwrong)]
  by_cases hlt : u2.FailedLoginAttempts + 1 < s.maxAttempts
  · have hb := loginWrongPassword_below s _ now2 email ip2 ua2 u2 h2 hlt
    exact ⟨_, hb.2, by simp [hf]⟩
  · obtain ⟨_, u3, h3, _, hf3, _⟩ :=
      loginWrongPassword_lock s _ now2 email ip2 ua2 u2 h2 (not_lt.mp hlt)
    exact ⟨u3, h3, by rw [hf3, hf]; rfl⟩

theorem C12_success_resets_failed_attempts_witness :
    (∃ u2, GetByEmail
        (Sample.auth.Login (Sample.auth.Login Sample.db 10 "a@b.c" "x" "ip" "ua" Sample.draw).2
          20 "a@b.c" "pw" "ip" "ua" Sample.draw).2 "a@b.c" = .ok u2 ∧
      u2.FailedLoginAttempts = 0) ∧
    (∃ u3, GetByEmail
        (Sample.auth.Login
          (Sample.auth.Login (Sample.auth.Login Sample.db 10 "a@b.c" "x" "ip" "ua" Sample.draw).2
            20 "a@b.c" "pw" "ip" "ua" Sample.draw).2
          30 "a@b.c" "z" "ip" "ua" Sample.draw).2 "a@b.c" = .ok u3 ∧
      u3.FailedLoginAttempts = 1) :=
  have h := C12_success_resets_failed_attempts Sample.auth
    (Sample.auth.Login Sample.db 10 "a@b.c" "x" "ip" "ua" Sample.draw).2 20 "a@b.c" "pw" "ip" "ua"
    Sample.draw { Sample.alice with FailedLoginAttempts := 1 }
    { User := { Sample.alice with FailedLoginAttempts := 1 }
      Session := { ID := "s1", UserID := "u1", SessionToken := "T", IPAddress := "ip",
                   UserAgent := "ua", ExpiresAt := 20 + 24 * Hour, LastActivityAt := 20 }
      RequiresTwoFactor := false
      TempToken := "" }
    (by decide) (by decide) (by decide)
  ⟨h.1, h.2 30 "z" "ip" "ua" Sample.draw (by decide)⟩

/-- C18 (counterexample): at the instant `ExpiresAt` itself the session is
still returned. -/
theorem C18_session_valid_at_expiry_instant :
    Sample.auth.sessionService.ValidateSession Sample.sessionDb 100 "T"
      = (.ok Sample.aliceSession, Sample.sessionDb) ∧
    ¬ ((100 : Time) < Sample.aliceSession.ExpiresAt) := by
  decide

theorem GetByToken_ok (db : DB) (token : String) (sess : Session)
    (h : DatabaseSessionStore.GetByToken db token = .ok sess) :
    sess ∈ db.sessions ∧ sess.SessionToken = token := by
  unfold DatabaseSessionStore.GetByToken at h
  cases hf : db.sessions.find? (fun r => r.SessionToken == token) with
  | none => simp [hf] at h
  | some r =>
    simp only [hf] at h
    injection h with h
    subst h
    exact ⟨List.mem_of_find?_eq_some hf, by simpa using List.find?_some hf⟩

/-- After `Delete(id)` no row with that id is left, and a token all of whose
rows had that id is not found any more. -/
theorem Delete_removes (db : DB) (id token : String) :
    (∀ r ∈ (DatabaseSessionStore.Delete db id).2.sessions, r.ID ≠ id) ∧
    ((∀ r ∈ db.sessions, r.SessionToken = token → r.ID = id) →
      DatabaseSessionStore.GetByToken (DatabaseSessionStore.Delete db id).2 token
        = .error (.gorm "record not found")) := by
  constructor
  · intro r hr
    simp only [DatabaseSessionStore.Delete, List.mem_filter] at hr
    simpa using hr.2
  · intro huniq
    unfold DatabaseSessionStore.GetByToken
    have hnone : (DatabaseSessionStore.Delete db id).2.sessions.find?
        (fun r => r.SessionToken == token) = none := by
      rw [List.find?_eq_none]
      intro r hr hrt
      simp only [DatabaseSessionStore.Delete, List.mem_filter] at hr
      have hid := huniq r hr.1 (by simpa using hrt)
      simp [hid] at hr
    rw [hnone]

/-- C18 (as amended): for a session found under its token, `ValidateSession`
returns the session if and only if `now ≤ ExpiresAt` (it is expired only when
`now` is after `ExpiresAt`), leaving the store unchanged; when
`now > ExpiresAt` it fails with `ErrExpiredToken` and deletes the rows with
the session's id, so that the session is no longer stored and, the token being
carried only by rows of that id, a later lookup of the token finds nothing. -/
theorem C18_validate_session_expiry (ss : SessionService) (db : DB) (now : Time)
    (token : String) (sess : Session)
    (hget : DatabaseSessionStore.GetByToken db token = .ok sess) :
    ((∃ r, (ss.ValidateSession db now token).1 = .ok r) ↔ now ≤ sess.ExpiresAt) ∧
    (now ≤ sess.ExpiresAt → ss.ValidateSession db now token = (.ok sess, db)) ∧
    (sess.ExpiresAt < now →
      (ss.ValidateSession db now token).1 = .error .ErrExpiredToken ∧
      sess ∉ (ss.ValidateSession db now token).2.sessions ∧
      ((∀ r ∈ db.sessions, r.SessionToken = token → r.ID = sess.ID) →
        DatabaseSessionStore.GetByToken (ss.ValidateSession db now token).2 token
          = .error (.gorm "record not found"))) := by
  have hle : now ≤ sess.ExpiresAt → ss.ValidateSession db now token = (.ok sess, db) := by
    intro h
    unfold SessionService.ValidateSession
    rw [hget]
    dsimp only
    rw [if_neg (not_lt.mpr h)]
  have hgt : sess.ExpiresAt < now →
      ss.ValidateSession db now token
        = (.error .ErrExpiredToken, (DatabaseSessionStore.Delete db sess.ID).2) := by
    intro h
    unfold SessionService.ValidateSession
    rw [hget]
    dsimp only
    rw [if_pos h]
  refine ⟨?_, hle, ?_⟩
  · constructor
    · rintro ⟨r, hr⟩
      by_contra hn
      rw [hgt (lt_of_not_le hn)] at hr
      cases hr
    · intro h
      rw [hle h]
      exact ⟨sess, rfl⟩
  · intro h
    rw [hgt h]
    refine ⟨rfl, ?_, (Delete_removes db sess.ID token).2⟩
    intro hmem
    exact (Delete_removes db sess.ID token).1 sess hmem rfl

theorem C18_validate_session_expiry_witness :
    Sample.auth.sessionService.ValidateSession Sample.sessionDb 100 "T"
      = (.ok Sample.aliceSession, Sample.sessionDb) ∧
    (Sample.auth.sessionService.ValidateSession Sample.sessionDb 101 "T").1
      = .error .ErrExpiredToken ∧
    DatabaseSessionStore.GetByToken
        (Sample.auth.sessionService.ValidateSession Sample.sessionDb 101 "T").2 "T"
      = .error (.gorm "record not found") :=
  have h100 := C18_validate_session_expiry Sample.auth.sessionService Sample.sessionDb 100 "T"
    Sample.aliceSession (by decide)
  have h101 := C18_validate_session_expiry Sample.auth.sessionService Sample.sessionDb 101 "T"
    Sample.aliceSession (by decide)
  ⟨h100.2.1 (by decide), (h101.2.2 (by decide)).1, (h101.2.2 (by decide)).2.2 (by decide)⟩

/-- The FIPS 180-4 example digests of the messages `abc` and the empty
message. -/
theorem Sum256_examples :
    sha256.Sum256 (bytesOf "abc")
      = [0xba, 0x78, 0x16, 0xbf, 0x8f, 0x01, 0xcf, 0xea, 0x41, 0x41, 0x40, 0xde, 0x5d, 0xae,
         0x22, 0x23, 0xb0, 0x03, 0x61, 0xa3, 0x96, 0x17, 0x7a, 0x9c, 0xb4, 0x10, 0xff, 0x61,
         0xf2, 0x00, 0x15, 0xad] ∧
    sha256.Sum256 []
      = [0xe3, 0xb0, 0xc4, 0x42, 0x98, 0xfc, 0x1c, 0x14, 0x9a, 0xfb, 0xf4, 0xc8, 0x99, 0x6f,
         0xb9, 0x24, 0x27, 0xae, 0x41, 0xe4, 0x64, 0x9b, 0x93, 0x4c, 0xa4, 0x95, 0x99, 0x1b,
         0x78, 0x52, 0xb8, 0x55] := by
  decide!

/-- C13: with the library S256 transform, `VerifyCodeChallenge(V, c, "S256")`
returns (without error) whether `c` is the unpadded base64url encoding of the
SHA-256 digest of the bytes of `V`; so it returns true exactly for that `c`, in
particular for `GenerateCodeChallenge(V)`; and the challenge of the RFC 7636
example verifier is the RFC's example challenge. -/
theorem C13_s256_challenge (cmp : String → String → Bool) (V c : String) :
    VerifyCodeChallenge (Crypto.standard cmp) V c "S256"
      = .ok (decide
          (c = base64.RawURLEncoding.EncodeToString (sha256.Sum256 (bytesOf V)))) ∧
    (VerifyCodeChallenge (Crypto.standard cmp) V c "S256" = .ok true ↔
      c = base64.RawURLEncoding.EncodeToString (sha256.Sum256 (bytesOf V))) ∧
    VerifyCodeChallenge (Crypto.standard cmp) V
      (GenerateCodeChallenge (Crypto.standard cmp) V) "S256" = .ok true ∧
    GenerateCodeChallenge (Crypto.standard cmp) "dBjftJeZ4CVP-mB92K27uhbUJU1p1r_wW1gFWFOEjXk"
      = "E9Melhoa2OwvFrEMTJguCHaoeK1t8URWbuGJSstw-cM" := by
  have hv : ∀ c : String, VerifyCodeChallenge (Crypto.standard cmp) V c "S256"
      = .ok (decide
          (c = base64.RawURLEncoding.EncodeToString (sha256.Sum256 (bytesOf V)))) := by
    intro c
    have h1 : (("S256" : String) == "" || ("S256" : String) == "plain") = false := by decide
    have h2 : (("S256" : String) == "S256") = true := by decide
    unfold VerifyCodeChallenge
    simp only [h1, h2, Bool.false_eq_true, if_false, if_true, GenerateCodeChallenge,
      Crypto.standard]
    congr 1
    by_cases h : c = base64.RawURLEncoding.EncodeToString (sha256.Sum256 (bytesOf V))
    · simp [h]
    · have h' : ¬ base64.RawURLEncoding.EncodeToString (sha256.Sum256 (bytesOf V)) = c :=
        fun e => h e.symm
      simp [h, h']
  refine ⟨hv c, ?_, ?_, ?_⟩
  · rw [hv c]
    constructor
    · intro h
      injection h with h
      exact of_decide_eq_true h
    · intro h
      rw [decide_eq_true h]
  · rw [hv]
    simp [GenerateCodeChallenge, Crypto.standard]
  · show base64.RawURLEncoding.EncodeToString
        (sha256.Sum256 (bytesOf "dBjftJeZ4CVP-mB92K27uhbUJU1p1r_wW1gFWFOEjXk"))
      = "E9Melhoa2OwvFrEMTJguCHaoeK1t8URWbuGJSstw-cM"
    decide!

theorem encodeChar_alphabet (i : Nat) :
    base64.encodeChar i ∈ base64.encodeURL ∧ base64.encodeChar i ≠ '=' := by
  have h : ∀ j : Fin 64, base64.encodeURL.getD j.val 'A' ∈ base64.encodeURL ∧
      base64.encodeURL.getD j.val 'A' ≠ '=' := by decide!
  exact h ⟨i % 64, Nat.mod_lt _ (by decide)⟩

theorem encodeChar_inj (i j : Nat) (h : base64.encodeChar i = base64.encodeChar j) :
    i % 64 = j % 64 := by
  have hd : ∀ a b : Fin 64, base64.encodeURL.getD a.val 'A' = base64.encodeURL.getD b.val 'A' →
      a = b := by decide!
  have := hd ⟨i % 64, Nat.mod_lt _ (by decide)⟩ ⟨j % 64, Nat.mod_lt _ (by decide)⟩ h
  exact Fin.mk.inj this

theorem encodeData_length (l : List Byte) :
    (base64.encodeData l).length = (4 * l.length + 2) / 3 := by
  induction l using base64.encodeData.induct with
  | case1 => rfl
  | case2 a => simp [base64.encodeData]
  | case3 a b => simp [base64.encodeData]
  | case4 a b c rest ih =>
    simp only [base64.encodeData, List.length_cons, ih]
    omega

theorem encodeData_alphabet (l : List Byte) :
    ∀ ch ∈ base64.encodeData l, ch ∈ base64.encodeURL ∧ ch ≠ '=' := by
  induction l using base64.encodeData.induct with
  | case1 => intro ch h; simp [base64.encodeData] at h
  | case2 a =>
    intro ch h
    simp only [base64.encodeData, List.mem_cons, List.mem_singleton, List.not_mem_nil,
      or_false] at h
    rcases h with h | h <;> (rw [h]; exact encodeChar_alphabet _)
  | case3 a b =>
    intro ch h
    simp only [base64.encodeData, List.mem_cons, List.mem_singleton, List.not_mem_nil,
      or_false] at h
    rcases h with h | h | h <;> (rw [h]; exact encodeChar_alphabet _)
  | case4 a b c rest ih =>
    intro ch h
    simp only [base64.encodeData, List.mem_cons] at h
    rcases h with h | h | h | h | h
    · rw [h]; exact encodeChar_alphabet _
    · rw [h]; exact encodeChar_alphabet _
    · rw [h]; exact encodeChar_alphabet _
    · rw [h]; exact encodeChar_alphabet _
    · exact ih ch h

/-- The four characters of a full group determine its three bytes. -/
theorem group_inj (a b c x y z : Byte)
    (h1 : base64.encodeChar ((a.val * 65536 + b.val * 256 + c.val) / 262144)
        = base64.encodeChar ((x.val * 65536 + y.val * 256 + z.val) / 262144))
    (h2 : base64.encodeChar ((a.val * 65536 + b.val * 256 + c.val) / 4096)
        = base64.encodeChar ((x.val * 65536 + y.val * 256 + z.val) / 4096))
    (h3 : base64.encodeChar ((a.val * 65536 + b.val * 256 + c.val) / 64)
        = base64.encodeChar ((x.val * 65536 + y.val * 256 + z.val) / 64))
    (h4 : base64.encodeChar (a.val * 65536 + b.val * 256 + c.val)
        = base64.encodeChar (x.val * 65536 + y.val * 256 + z.val)) :
    a = x ∧ b = y ∧ c = z := by
  have e1 := encodeChar_inj _ _ h1
  have e2 := encodeChar_inj _ _ h2
  have e3 := encodeChar_inj _ _ h3
  have e4 := encodeChar_inj _ _ h4
  have ha := a.isLt
  have hb := b.isLt
  have hc := c.isLt
  have hx := x.isLt
  have hy := y.isLt
  have hz := z.isLt
  refine ⟨Fin.ext ?_, Fin.ext ?_, Fin.ext ?_⟩ <;> omega

/-- The first `4 * k` characters of the encoding determine the first `3 * k`
bytes. -/
theorem encodeData_take_inj (k : Nat) :
    ∀ l1 l2 : List Byte, 3 * k ≤ l1.length → 3 * k ≤ l2.length →
      (base64.encodeData l1).take (4 * k) = (base64.encodeData l2).take (4 * k) →
      l1.take (3 * k) = l2.take (3 * k) := by
  induction k with
  | zero => intro l1 l2 _ _ _; simp
  | succ k ih =>
    intro l1 l2 h1 h2 h
    match l1, l2, h1, h2, h with
    | a :: b :: c :: r1, x :: y :: z :: r2, h1, h2, h =>
      have e4 : 4 * (k + 1) = 4 * k + 1 + 1 + 1 + 1 := by ring
      have e3 : 3 * (k + 1) = 3 * k + 1 + 1 + 1 := by ring
      rw [e4] at h
      simp only [base64.encodeData, List.take_succ_cons, List.cons.injEq] at h
      obtain ⟨q1, q2, q3, q4, hr⟩ := h
      obtain ⟨ea, eb, ec⟩ := group_inj a b c x y z q1 q2 q3 q4
      simp only [List.length_cons] at h1 h2
      have := ih r1 r2 (by omega) (by omega) hr
      rw [e3]
      simp only [List.take_succ_cons, ea, eb, ec, this]
    | [], _, h1, _, _ => simp at h1
    | [_], _, h1, _, _ => simp at h1; omega
    | [_, _], _, h1, _, _ => simp at h1; omega
    | _ :: _ :: _ :: _, [], _, h2, _ => simp at h2
    | _ :: _ :: _ :: _, [_], _, h2, _ => simp at h2; omega
    | _ :: _ :: _ :: _, [_, _], _, h2, _ => simp at h2; omega

theorem EncodeToString_length (bytes : List Byte) :
    (base64.URLEncoding.EncodeToString bytes).length = 4 * ((bytes.length + 2) / 3) := by
  show (base64.encodeData bytes ++ base64.padding bytes.length).length = _
  rw [List.length_append, encodeData_length]
  unfold base64.padding
  split_ifs with h1 h2 <;> simp <;> omega

/-- With a buffer of `n` bytes read, the slice is in range and the token is the
first `n` data characters of the encoding. -/
theorem GenerateRandomToken_ok (n : Nat) (bytes : List Byte) (h : bytes.length = n) :
    GenerateRandomToken n (.ok bytes) = some (.ok ⟨(base64.encodeData bytes).take n⟩) := by
  have hl := EncodeToString_length bytes
  have hd := encodeData_length bytes
  unfold GenerateRandomToken
  simp only
  rw [if_pos (by rw [hl, h]; omega)]
  congr 3
  show (base64.encodeData bytes ++ base64.padding bytes.length).take n = _
  rw [List.take_append_of_le_length (by rw [hd, h]; omega)]

/-- C16 (counterexample): the one-byte strings `[0]` and `[1]` differ and yield
the same token, and the token of a 64-byte draw has 64 characters, fewer than
86. -/
theorem C16_distinct_bytes_same_token :
    ([0] : List Byte) ≠ [1] ∧
    GenerateRandomToken 1 (.ok [0]) = some (.ok "A") ∧
    GenerateRandomToken 1 (.ok [1]) = some (.ok "A") ∧
    base64.URLEncoding.EncodeToString [0] = "AA==" ∧
    base64.URLEncoding.EncodeToString [1] = "AQ==" ∧
    GenerateRandomToken 64 (.ok (List.replicate 64 0))
      = some (.ok (String.mk (List.replicate 64 'A'))) ∧
    (String.mk (List.replicate 64 'A')).length = 64 := by
  decide!

/-- C16 (as amended): with `n` bytes drawn, `GenerateRandomToken(n)` returns the
first `n` characters of the padded URL-safe base64 encoding of the bytes, a
token of exactly `n` characters; two draws of `n` bytes with the same token
agree on their first `3 * (n / 4)` bytes. -/
theorem C16_token_is_truncated_encoding (n : Nat) (b1 b2 : List Byte)
    (h1 : b1.length = n) (h2 : b2.length = n) :
    GenerateRandomToken n (.ok b1)
      = some (.ok (String.mk ((base64.URLEncoding.EncodeToString b1).data.take n))) ∧
    (String.mk ((base64.URLEncoding.EncodeToString b1).data.take n)).length = n ∧
    (GenerateRandomToken n (.ok b1) = GenerateRandomToken n (.ok b2) →
      b1.take (3 * (n / 4)) = b2.take (3 * (n / 4))) := by
  have hl := EncodeToString_length b1
  have hd1 := encodeData_length b1
  have hd2 := encodeData_length b2
  refine ⟨?_, ?_, ?_⟩
  · unfold GenerateRandomToken
    simp only
    rw [if_pos (by rw [hl, h1]; omega)]
  · show ((base64.URLEncoding.EncodeToString b1).data.take n).length = n
    rw [List.length_take]
    have : (base64.URLEncoding.EncodeToString b1).data.length
        = (base64.URLEncoding.EncodeToString b1).length := rfl
    rw [this, hl, h1]
    omega
  · intro h
    rw [GenerateRandomToken_ok n b1 h1, GenerateRandomToken_ok n b2 h2] at h
    injection h with h
    injection h with h
    injection h with h
    apply encodeData_take_inj (n / 4) b1 b2 (by omega) (by omega)
    have e : 4 * (n / 4) = min (4 * (n / 4)) n := by omega
    have t1 := List.take_take (4 * (n / 4)) n (base64.encodeData b1)
    have t2 := List.take_take (4 * (n / 4)) n (base64.encodeData b2)
    rw [← e] at t1 t2
    rw [← t1, ← t2, h]

theorem C16_token_is_truncated_encoding_witness :
    GenerateRandomToken 4 (.ok [1, 2, 3, 4]) = some (.ok "AQID") ∧
    (GenerateRandomToken 4 (.ok [1, 2, 3, 4]) = GenerateRandomToken 4 (.ok [1, 2, 3, 9]) →
      ([1, 2, 3, 4] : List Byte).take (3 * (4 / 4))
        = ([1, 2, 3, 9] : List Byte).take (3 * (4 / 4))) :=
  have h := C16_token_is_truncated_encoding 4 [1, 2, 3, 4] [1, 2, 3, 9] (by decide) (by decide)
  ⟨h.1.trans (by decide), h.2.2⟩

/-- C17: when the read of `n` bytes succeeds, the padded encoding has
`4 * ceil(n / 3)` characters, at least `n`, so the slice `[:n]` is in range;
`GenerateRandomToken(n)` returns a token of exactly `n` characters, each of the
URL-safe base64 alphabet and none the padding character. -/
theorem C17_token_length_and_alphabet (n : Nat) (bytes : List Byte)
    (h : bytes.length = n) :
    (base64.URLEncoding.EncodeToString bytes).length = 4 * ((n + 2) / 3) ∧
    n ≤ 4 * ((n + 2) / 3) ∧
    ∃ token, GenerateRandomToken n (.ok bytes) = some (.ok token) ∧
      token.length = n ∧
      ∀ ch ∈ token.data, ch ∈ base64.encodeURL ∧ ch ≠ '=' := by
  have hd := encodeData_length bytes
  refine ⟨by rw [EncodeToString_length, h], by omega, _, GenerateRandomToken_ok n bytes h, ?_, ?_⟩
  · show ((base64.encodeData bytes).take n).length = n
    rw [List.length_take, hd, h]
    omega
  · intro ch hch
    exact encodeData_alphabet bytes ch (List.mem_of_mem_take hch)

theorem C17_token_length_and_alphabet_witness :
    GenerateRandomToken 5 (.ok [255, 254, 253, 252, 251]) = some (.ok "__79_") ∧
    base64.URLEncoding.EncodeToString [255, 254, 253, 252, 251] = "__79_Ps=" ∧
    ∃ token, GenerateRandomToken 5 (.ok [255, 254, 253, 252, 251]) = some (.ok token) ∧
      token.length = 5 ∧ ∀ ch ∈ token.data, ch ∈ base64.encodeURL ∧ ch ≠ '=' :=
  ⟨by decide, by decide,
    (C17_token_length_and_alphabet 5 [255, 254, 253, 252, 251] (by decide)).2.2⟩

theorem containsChars_iff (s substr : List Char) :
    containsChars s substr = true ↔ substr <:+: s := by
  induction s with
  | nil =>
    simp [containsChars, List.isEmpty_iff]
  | cons c rest ih =>
    simp only [containsChars, Bool.or_eq_true, ih, List.infix_cons_iff,
      List.isPrefixOf_iff_prefix]

theorem isCommonPassword_iff (u : Unicode) (password : String) :
    isCommonPassword u password = true ↔ tooCommon_spec u password := by
  unfold isCommonPassword tooCommon_spec
  simp only
  constructor
  · intro h
    split at h
    next hex =>
      left
      obtain ⟨c, hc, hceq⟩ := List.any_eq_true.mp hex
      have : u.ToLower password = c := by simpa using hceq
      rw [this]
      exact hc
    next _ =>
      right
      obtain ⟨c, hc, hcc⟩ := List.any_eq_true.mp h
      simp only [Bool.and_eq_true, decide_eq_true_eq, Contains] at hcc
      exact ⟨c, hc, hcc.2, (containsChars_iff _ _).mp hcc.1⟩
  · intro h
    split
    next _ => rfl
    next hex =>
      rcases h with h | ⟨c, hc, hlen, hin⟩
      · exfalso
        apply hex
        exact List.any_eq_true.mpr ⟨_, h, by simp⟩
      · apply List.any_eq_true.mpr
        refine ⟨c, hc, ?_⟩
        simp only [Bool.and_eq_true, decide_eq_true_eq, Contains]
        exact ⟨(containsChars_iff _ _).mpr hin, hlen⟩

/-- The cases of `TestValidatePassword`, on the ASCII character classes. -/
theorem ValidatePassword_tests :
    ValidatePassword Sample.unicode "ValidPass123!" Sample.policy = .ok () ∧
    ValidatePassword Sample.unicode "Short1!" Sample.policy = .error .ErrPasswordTooShort ∧
    ValidatePassword Sample.unicode "lowercase123!" Sample.policy
      = .error .ErrPasswordNoUppercase ∧
    ValidatePassword Sample.unicode "UPPERCASE123!" Sample.policy
      = .error .ErrPasswordNoLowercase ∧
    ValidatePassword Sample.unicode "NoNumbers!" Sample.policy = .error .ErrPasswordNoNumber ∧
    ValidatePassword Sample.unicode "NoSpecial123" Sample.policy
      = .error .ErrPasswordNoSpecial ∧
    ValidatePassword Sample.unicode "Iloveyou1!" Sample.policy = .error .ErrPasswordCommon := by
  decide!

/-- C15: for every password and policy, `ValidatePassword` returns the error
of the first failing check in the order too-short, missing-upper,
missing-lower, missing-digit, missing-special (each of the four only when the
policy requires it), too-common, and returns nil exactly when no check fails;
the too-common check of the code holds exactly when the lower-cased password
equals an entry of the bundled list or contains an entry of length greater
than 4 as a substring. -/
theorem C15_validate_password_first_failing_check (u : Unicode) (password : String)
    (policy : PasswordPolicy) :
    ValidatePassword u password policy = ValidatePassword_spec u password policy ∧
    (ValidatePassword u password policy = .ok () ↔
      ∀ check ∈ passwordChecks_spec u password policy, check.1 = false) ∧
    (isCommonPassword u password = true ↔ tooCommon_spec u password) := by
  have hc := isCommonPassword_iff u password
  have hsp : (fun ch => decide (ch ∈ specialChars)) = (fun ch => specialChars.contains ch) := by
    funext ch
    simp
  have hdc : decide (tooCommon_spec u password) = isCommonPassword u password := by
    by_cases h : tooCommon_spec u password
    · rw [decide_eq_true h, hc.mpr h]
    · rw [decide_eq_false h]
      cases hi : isCommonPassword u password
      · rfl
      · exact absurd (hc.mp hi) h
  refine ⟨?_, ?_, hc⟩
  · unfold ValidatePassword ValidatePassword_spec passwordChecks_spec
    rw [hsp, hdc]
    by_cases h1 : (password.utf8ByteSize : Int) < policy.MinLength
    · simp [h1]
    · cases h2 : (policy.RequireUpper && !(password.data.any u.IsUpper)) <;>
      cases h3 : (policy.RequireLower && !(password.data.any u.IsLower)) <;>
      cases h4 : (policy.RequireNumber && !(password.data.any u.IsDigit)) <;>
      cases h5 : (policy.RequireSpecial &&
          !(password.data.any (fun ch => specialChars.contains ch))) <;>
      cases h6 : isCommonPassword u password <;>
      simp [h1, List.find?]
  · unfold ValidatePassword passwordChecks_spec
    rw [hsp, hdc]
    by_cases h1 : (password.utf8ByteSize : Int) < policy.MinLength
    · simp [h1]
    · cases h2 : (policy.RequireUpper && !(password.data.any u.IsUpper)) <;>
      cases h3 : (policy.RequireLower && !(password.data.any u.IsLower)) <;>
      cases h4 : (policy.RequireNumber && !(password.data.any u.IsDigit)) <;>
      cases h5 : (policy.RequireSpecial &&
          !(password.data.any (fun ch => specialChars.contains ch))) <;>
      cases h6 : isCommonPassword u password <;>
      simp [h1]

/-- The database-backed store meets the contract of `Delete`: after
`Delete(id)` on the id of a stored session whose token no row of another id
carries, the token is not found and the user's list does not hold the
session. -/
theorem DatabaseSessionStore_Delete_contract (db : DB) (sess : Session)
    (huniq : ∀ r ∈ db.sessions, r.SessionToken = sess.SessionToken → r.ID = sess.ID) :
    DatabaseSessionStore.GetByToken (DatabaseSessionStore.Delete db sess.ID).2 sess.SessionToken
      = .error (.gorm "record not found") ∧
    sess ∉ DatabaseSessionStore.GetByUserID (DatabaseSessionStore.Delete db sess.ID).2
      sess.UserID := by
  refine ⟨(Delete_removes db sess.ID sess.SessionToken).2 huniq, ?_⟩
  intro hmem
  unfold DatabaseSessionStore.GetByUserID at hmem
  exact (Delete_removes db sess.ID sess.SessionToken).1 sess (List.mem_filter.mp hmem).1 rfl

/-- `RedisSessionStore.Delete` leaves the store as it was: a session found
under its token before `Delete(id)` of its id is found after it, and the
user's list is the same. -/
theorem RedisSessionStore_Delete_keeps (rd : Redis) (sess : Session)
    (h : RedisSessionStore.GetByToken rd sess.SessionToken = .ok sess) :
    RedisSessionStore.Delete rd sess.ID = (.ok (), rd) ∧
    RedisSessionStore.GetByToken (RedisSessionStore.Delete rd sess.ID).2 sess.SessionToken
      = .ok sess ∧
    RedisSessionStore.GetByUserID (RedisSessionStore.Delete rd sess.ID).2 sess.UserID
      = RedisSessionStore.GetByUserID rd sess.UserID :=
  ⟨rfl, h, rfl⟩

/-- C19: on the Redis store holding the session of alice (id `s1`, token `T`,
user `u1`), after `Delete("s1")` the token is still found and the user's list
still holds the session; on the database-backed store with the same session,
after `Delete("s1")` the token is not found and the user's list is empty. -/
theorem C19_redis_delete_keeps_session :
    RedisSessionStore.GetByToken Sample.redis "T" = .ok Sample.aliceSession ∧
    RedisSessionStore.GetByToken (RedisSessionStore.Delete Sample.redis "s1").2 "T"
      = .ok Sample.aliceSession ∧
    (RedisSessionStore.GetByUserID (RedisSessionStore.Delete Sample.redis "s1").2 "u1").1
      = [Sample.aliceSession] ∧
    DatabaseSessionStore.GetByToken (DatabaseSessionStore.Delete Sample.sessionDb "s1").2 "T"
      = .error (.gorm "record not found") ∧
    DatabaseSessionStore.GetByUserID (DatabaseSessionStore.Delete Sample.sessionDb "s1").2 "u1"
      = [] := by
  decide

theorem recordHistory_sessions (s : PasswordService) (db : DB) (now : Time)
    (userID oldPasswordHash historyID : String) :
    (s.recordHistory db now userID oldPasswordHash historyID).sessions = db.sessions := by
  have hc : ∀ d : DB, (PasswordHistoryRepository.Create d userID oldPasswordHash historyID
      now).2.sessions = d.sessions := by
    intro d
    unfold PasswordHistoryRepository.Create
    split_ifs <;> rfl
  have hk : ∀ d : DB, (PasswordHistoryRepository.CleanupOldPasswords d userID
      s.historyCount).2.sessions = d.sessions := by
    intro d
    unfold PasswordHistoryRepository.CleanupOldPasswords
    simp only
    split_ifs <;> rfl
  unfold PasswordService.recordHistory
  split_ifs
  · rw [hk, hc]
  · rfl

theorem UserRepository_Update_sessions (db : DB) (user : User) :
    (UserRepository.Update db user).2.sessions = db.sessions := by
  unfold UserRepository.Update
  split_ifs <;> rfl

/-- A successful `ChangePassword` leaves in the `sessions` table exactly the
rows of the other users. -/
theorem ChangePassword_sessions (s : PasswordService) (db db2 : DB) (now : Time)
    (userID currentPassword newPassword : String) (hashed : Except Err String)
    (historyID : String)
    (h : s.ChangePassword db now userID currentPassword newPassword hashed historyID
      = (.ok (), db2)) :
    db2.sessions = db.sessions.filter (fun r => !(r.UserID == userID)) := by
  unfold PasswordService.ChangePassword at h
  split at h
  · cases h
  · split at h
    · cases h
    · split at h
      · cases h
      · split at h
        · cases h
        · split at h
          · cases h
          · split at h
            · cases h
            · rename_i user _ _ _ _ _ _ hashedPassword _ db1 hupd
              injection h with _ h
              rw [← h]
              show ((s.recordHistory db1 now userID user.PasswordHash historyID).sessions).filter _
                = _
              rw [recordHistory_sessions]
              have := UserRepository_Update_sessions db
                { user with PasswordHash := hashedPassword, PasswordChangedAt := now }
              rw [hupd] at this
              rw [this]

/-- The lookup of a token in a table without the rows of one user: a token of
that user is not found, a token of another user is found as before, when no
two rows carry the same token. -/
theorem GetByToken_filter_user (db db2 : DB) (userID : String)
    (hs : db2.sessions = db.sessions.filter (fun r => !(r.UserID == userID)))
    (huniq : uniqueSessionTokens db) (r : Session) (hr : r ∈ db.sessions) :
    (r.UserID = userID →
      DatabaseSessionStore.GetByToken db2 r.SessionToken = .error (.gorm "record not found")) ∧
    (r.UserID ≠ userID →
      DatabaseSessionStore.GetByToken db2 r.SessionToken = .ok r ∧
      DatabaseSessionStore.GetByToken db r.SessionToken = .ok r) := by
  have hfind : ∀ l : List Session, (∀ a ∈ l, a.SessionToken = r.SessionToken → a = r) →
      r ∈ l → l.find? (fun a => a.SessionToken == r.SessionToken) = some r := by
    intro l
    induction l with
    | nil => intro _ h; cases h
    | cons a l ih =>
      intro hu hm
      by_cases ha : a.SessionToken = r.SessionToken
      · rw [List.find?_cons_of_pos _ (by simpa using ha)]
        rw [hu a (List.mem_cons_self _ _) ha]
      · rw [List.find?_cons_of_neg _ (by simpa using ha)]
        apply ih (fun b hb => hu b (List.mem_cons_of_mem _ hb))
        rcases List.mem_cons.mp hm with h | h
        · exact absurd (by rw [h]) ha
        · exact h
  constructor
  · intro hu
    unfold DatabaseSessionStore.GetByToken
    have hnone : db2.sessions.find? (fun a => a.SessionToken == r.SessionToken) = none := by
      rw [List.find?_eq_none]
      intro a ha hat
      rw [hs, List.mem_filter] at ha
      have := huniq a ha.1 r hr (by simpa using hat)
      rw [this, hu] at ha
      simp at ha
    rw [hnone]
  · intro hu
    unfold DatabaseSessionStore.GetByToken
    rw [hfind db.sessions (fun a ha => huniq a ha r hr) hr]
    rw [hfind db2.sessions
      (fun a ha => huniq a (by rw [hs] at ha; exact (List.mem_filter.mp ha).1) r hr)
      (by rw [hs]; exact List.mem_filter.mpr ⟨hr, by simpa using hu⟩)]
    exact ⟨rfl, rfl⟩

/-- C20: after a successful `PasswordService.ChangePassword` of a principal,
over a `sessions` table in which no two rows carry the same token, the store
holds no session of that principal: `GetByUserID` returns the empty list and
`ValidateSession` fails at every instant for each token a session of the
principal carried; the sessions of every other principal are unchanged: the
table holds exactly the rows of the other principals, `GetByUserID` returns
for them what it returned before, and their tokens are found as before. -/
theorem C20_change_password_drops_sessions (s : PasswordService) (ss : SessionService)
    (db db2 : DB) (now : Time) (userID currentPassword newPassword : String)
    (hashed : Except Err String) (historyID : String)
    (hok : s.ChangePassword db now userID currentPassword newPassword hashed historyID
      = (.ok (), db2))
    (huniq : uniqueSessionTokens db) :
    DatabaseSessionStore.GetByUserID db2 userID = [] ∧
    (∀ r ∈ db.sessions, r.UserID = userID → ∀ now2 : Time,
      ∃ e, (ss.ValidateSession db2 now2 r.SessionToken).1 = .error e) ∧
    db2.sessions = db.sessions.filter (fun r => !(r.UserID == userID)) ∧
    (∀ other : String, other ≠ userID →
      DatabaseSessionStore.GetByUserID db2 other = DatabaseSessionStore.GetByUserID db other) ∧
    (∀ r ∈ db.sessions, r.UserID ≠ userID →
      DatabaseSessionStore.GetByToken db2 r.SessionToken
        = DatabaseSessionStore.GetByToken db r.SessionToken) := by
  have hs := ChangePassword_sessions s db db2 now userID currentPassword newPassword hashed
    historyID hok
  refine ⟨?_, ?_, hs, ?_, ?_⟩
  · unfold DatabaseSessionStore.GetByUserID
    rw [hs, List.filter_filter, List.filter_eq_nil_iff]
    intro a _
    simp
  · intro r hr hu now2
    have hg := (GetByToken_filter_user db db2 userID hs huniq r hr).1 hu
    unfold SessionService.ValidateSession
    rw [hg]
    exact ⟨_, rfl⟩
  · intro other hne
    unfold DatabaseSessionStore.GetByUserID
    rw [hs, List.filter_filter]
    apply List.filter_congr
    intro a _
    by_cases ha : a.UserID = other
    · have : ¬ a.UserID = userID := fun h => hne (ha.symm.trans h)
      simp [ha, hne]
    · simp [ha]
  · intro r hr hu
    obtain ⟨h1, h2⟩ := (GetByToken_filter_user db db2 userID hs huniq r hr).2 hu
    rw [h1, h2]

theorem C20_change_password_drops_sessions_witness :
    (Sample.passwords.ChangePassword Sample.sessionDb 50 "u1" "pw" "Str0ng!Pass#"
      (.ok "hash2") "h1").1 = .ok () ∧
    DatabaseSessionStore.GetByUserID Sample.sessionDb "u1" = [Sample.aliceSession] ∧
    DatabaseSessionStore.GetByUserID
      (Sample.passwords.ChangePassword Sample.sessionDb 50 "u1" "pw" "Str0ng!Pass#"
        (.ok "hash2") "h1").2 "u1" = [] ∧
    DatabaseSessionStore.GetByUserID
      (Sample.passwords.ChangePassword Sample.sessionDb 50 "u1" "pw" "Str0ng!Pass#"
        (.ok "hash2") "h1").2 "u2" = [Sample.bobSession] :=
  have hok : (Sample.passwords.ChangePassword Sample.sessionDb 50 "u1" "pw" "Str0ng!Pass#"
      (.ok "hash2") "h1").1 = .ok () := by decide
  have h := C20_change_password_drops_sessions Sample.passwords Sample.auth.sessionService
    Sample.sessionDb
    (Sample.passwords.ChangePassword Sample.sessionDb 50 "u1" "pw" "Str0ng!Pass#"
      (.ok "hash2") "h1").2
    50 "u1" "pw" "Str0ng!Pass#" (.ok "hash2") "h1" (Prod.ext hok rfl)
    (show ∀ a ∈ Sample.sessionDb.sessions, ∀ b ∈ Sample.sessionDb.sessions,
      a.SessionToken = b.SessionToken → a = b by decide)
  ⟨hok, by decide, h.1, (h.2.2.2.1 "u2" (by decide)).trans (by decide)⟩

/-- C27: the claim set `GenerateAccessToken` hands to the signer has exactly
the keys `client_id`, `scope`, `iat`, `exp`, followed by `sub` exactly when a
principal is given; it has no `iss` and no `nbf`; `scope` is the space-joined
scope list, `iat` the seconds of the mint instant and `exp` the seconds of the
mint instant plus the access-token expiry; and the token stored and returned
by a successful mint is the signature over this claim set. -/
theorem C27_access_claims_without_iss_nbf (s : OAuth2TokenService) (db : DB) (now : Time)
    (clientID : String) (userID : Option String) (scopes : List String) (id : String) :
    (s.accessClaims now clientID userID scopes).map Prod.fst
      = ["client_id", "scope", "iat", "exp"] ++ (if userID.isSome then ["sub"] else []) ∧
    "iss" ∉ (s.accessClaims now clientID userID scopes).map Prod.fst ∧
    "nbf" ∉ (s.accessClaims now clientID userID scopes).map Prod.fst ∧
    (s.accessClaims now clientID userID scopes).lookup "scope"
      = some (.str (String.intercalate " " scopes)) ∧
    (s.accessClaims now clientID userID scopes).lookup "client_id" = some (.str clientID) ∧
    (s.accessClaims now clientID userID scopes).lookup "iat" = some (.num (unix now)) ∧
    (s.accessClaims now clientID userID scopes).lookup "exp"
      = some (.num (unix (now + s.accessTokenExpiry))) ∧
    (s.accessClaims now clientID userID scopes).lookup "sub" = userID.map ClaimValue.str ∧
    (∀ token row, (s.GenerateAccessToken db now clientID userID scopes id).1 = .ok (token, row) →
      s.sign (s.accessClaims now clientID userID scopes) = .ok token) := by
  have hkeys : (s.accessClaims now clientID userID scopes).map Prod.fst
      = ["client_id", "scope", "iat", "exp"] ++ (if userID.isSome then ["sub"] else []) := by
    cases userID <;> rfl
  refine ⟨hkeys, ?_, ?_, ?_, ?_, ?_, ?_, ?_, ?_⟩
  · rw [hkeys]; cases userID <;> simp
  · rw [hkeys]; cases userID <;> simp
  · cases userID <;> rfl
  · cases userID <;> rfl
  · cases userID <;> rfl
  · cases userID <;> rfl
  · cases userID <;> rfl
  · intro token row h
    unfold OAuth2TokenService.GenerateAccessToken at h
    cases hs : s.sign (s.accessClaims now clientID userID scopes) with
    | error e => rw [hs] at h; cases h
    | ok tok =>
      rw [hs] at h
      dsimp only at h
      split at h
      · cases h
      · simp only [Except.ok.injEq, Prod.mk.injEq] at h
        rw [h.1]

/-- The token minted on the sample service for client `C2` and principal `u1`
is the signature over the claims `client_id`, `scope`, `iat`, `exp`, `sub`. -/
theorem GenerateAccessToken_sample :
    (Sample.tokens.GenerateAccessToken Sample.oauthDb 2000000000 "C2" (some "u1")
      ["openid", "email"] "a1").1.map Prod.fst
      = .ok "jwt|client_id=C2|scope=openid email|iat=2|exp=3602|sub=u1" := by
  decide

/-- C28: `CheckConsent` never fails; it reports consent as granted exactly
when an entry for (user, client) is found and every requested scope is among
its scopes; with an entry found it returns the requested scopes that are not
among the entry's scopes, in request order, when there is one, and no scope
otherwise; with no entry it reports not granted with no scope, for every
request; and an entry is found exactly when the table has a row for (user,
client). -/
theorem C28_check_consent (db : DB) (userID clientID : String) (requested : List String) :
    (∃ granted missing,
      OAuth2ConsentRepository.CheckConsent db userID clientID requested
        = .ok (granted, missing)) ∧
    ((∃ missing, OAuth2ConsentRepository.CheckConsent db userID clientID requested
        = .ok (true, missing)) ↔
      ∃ consent, OAuth2ConsentRepository.GetByUserAndClient db userID clientID = .ok consent ∧
        ∀ scope ∈ requested, scope ∈ consent.Scopes) ∧
    (∀ consent, OAuth2ConsentRepository.GetByUserAndClient db userID clientID = .ok consent →
      OAuth2ConsentRepository.CheckConsent db userID clientID requested
        = .ok (decide (∀ scope ∈ requested, scope ∈ consent.Scopes),
            requested.filter (fun scope => decide (scope ∉ consent.Scopes)))) ∧
    ((∀ consent ∈ db.oauth2_consents, ¬ (consent.UserID = userID ∧ consent.ClientID = clientID)) →
      OAuth2ConsentRepository.CheckConsent db userID clientID requested = .ok (false, [])) ∧
    ((∃ consent, OAuth2ConsentRepository.GetByUserAndClient db userID clientID = .ok consent) ↔
      ∃ consent ∈ db.oauth2_consents, consent.UserID = userID ∧ consent.ClientID = clientID) := by
  have hfilter : ∀ consent : OAuth2Consent,
      requested.filter (fun r => !consent.Scopes.contains r)
        = requested.filter (fun scope => decide (scope ∉ consent.Scopes)) := by
    intro consent
    apply List.filter_congr
    intro r _
    simp
  have hfound : ∀ consent, OAuth2ConsentRepository.GetByUserAndClient db userID clientID
      = .ok consent →
      OAuth2ConsentRepository.CheckConsent db userID clientID requested
        = .ok (decide (∀ scope ∈ requested, scope ∈ consent.Scopes),
            requested.filter (fun scope => decide (scope ∉ consent.Scopes))) := by
    intro consent hg
    unfold OAuth2ConsentRepository.CheckConsent
    rw [hg]
    simp only [hfilter]
    by_cases hall : ∀ scope ∈ requested, scope ∈ consent.Scopes
    · have hnil : requested.filter (fun scope => decide (scope ∉ consent.Scopes)) = [] := by
        rw [List.filter_eq_nil_iff]
        intro a ha
        simpa using hall a ha
      rw [hnil, decide_eq_true hall]
      rfl
    · have hne : requested.filter (fun scope => decide (scope ∉ consent.Scopes)) ≠ [] := by
        intro hnil
        rw [List.filter_eq_nil_iff] at hnil
        apply hall
        intro a ha
        simpa using hnil a ha
      rw [decide_eq_false hall, if_pos (by simpa [List.length_pos] using hne)]
  have hnone : OAuth2ConsentRepository.GetByUserAndClient db userID clientID
      = .error .ErrConsentNotFound →
      OAuth2ConsentRepository.CheckConsent db userID clientID requested = .ok (false, []) := by
    intro hg
    unfold OAuth2ConsentRepository.CheckConsent
    rw [hg]
  have hcases : (∃ consent, OAuth2ConsentRepository.GetByUserAndClient db userID clientID
      = .ok consent ∧ consent ∈ db.oauth2_consents ∧ consent.UserID = userID ∧
        consent.ClientID = clientID) ∨
      (OAuth2ConsentRepository.GetByUserAndClient db userID clientID = .error .ErrConsentNotFound ∧
        ∀ consent ∈ db.oauth2_consents,
          ¬ (consent.UserID = userID ∧ consent.ClientID = clientID)) := by
    unfold OAuth2ConsentRepository.GetByUserAndClient
    cases hf : db.oauth2_consents.find? (fun c => c.UserID == userID && c.ClientID == clientID) with
    | none =>
      right
      refine ⟨rfl, ?_⟩
      intro c hc
      have := List.find?_eq_none.mp hf c hc
      simpa using this
    | some c =>
      left
      have hp := List.find?_some hf
      simp only [Bool.and_eq_true, beq_iff_eq] at hp
      exact ⟨c, rfl, List.mem_of_find?_eq_some hf, hp.1, hp.2⟩
  refine ⟨?_, ?_, hfound, ?_, ?_⟩
  · rcases hcases with ⟨c, hg, _⟩ | ⟨hg, _⟩
    · exact ⟨_, _, hfound c hg⟩
    · exact ⟨_, _, hnone hg⟩
  · constructor
    · rintro ⟨missing, h⟩
      rcases hcases with ⟨c, hg, _⟩ | ⟨hg, _⟩
      · rw [hfound c hg] at h
        simp only [Except.ok.injEq, Prod.mk.injEq, decide_eq_true_eq] at h
        exact ⟨c, hg, h.1⟩
      · rw [hnone hg] at h
        simp at h
    · rintro ⟨c, hg, hall⟩
      exact ⟨_, by rw [hfound c hg, decide_eq_true hall]⟩
  · intro hno
    rcases hcases with ⟨c, _, hc, hu, hcl⟩ | ⟨hg, _⟩
    · exact absurd ⟨hu, hcl⟩ (hno c hc)
    · exact hnone hg
  · constructor
    · rintro ⟨c, hg⟩
      rcases hcases with ⟨c2, _, hc, hu, hcl⟩ | ⟨hg2, _⟩
      · exact ⟨c2, hc, hu, hcl⟩
      · rw [hg2] at hg; cases hg
    · rintro ⟨c, hc, hu, hcl⟩
      rcases hcases with ⟨c2, hg, _⟩ | ⟨_, hno⟩
      · exact ⟨c2, hg⟩
      · exact absurd ⟨hu, hcl⟩ (hno c hc)

/-- What a successful refresh wrote in the access-token table and returned as
scope. -/
theorem RefreshAccessToken_access (s : OAuth2TokenService) (db db2 : DB) (now : Time)
    (R C : String) (rnd : TokenDraw) (resp : TokenResponse)
    (h : s.RefreshAccessToken db now R C rnd = (.ok resp, db2)) :
    ∃ row token, OAuth2TokenRepository.GetRefreshToken db now R = .ok row ∧
      db2.oauth2_access_tokens = db.oauth2_access_tokens ++
        [({ ID := rnd.accessID, TokenHash := s.hashToken token, ClientID := row.ClientID,
            UserID := some row.UserID, Scopes := row.Scopes,
            ExpiresAt := now + s.accessTokenExpiry } : OAuth2AccessToken)] ∧
      resp.Scope = String.intercalate " " row.Scopes := by
  unfold OAuth2TokenService.RefreshAccessToken at h
  cases hg : OAuth2TokenRepository.GetRefreshToken db now R with
  | error e => simp [hg] at h
  | ok row =>
    simp only [hg] at h
    split at h
    · cases h
    · unfold OAuth2TokenService.GenerateAccessToken OAuth2TokenRepository.CreateAccessToken at h
      cases hs : s.sign (s.accessClaims now row.ClientID (some row.UserID) row.Scopes) with
      | error e => simp [hs] at h
      | ok token =>
        simp only [hs] at h
        split_ifs at h with h1 h2
        · cases h
        · cases h
        · unfold OAuth2TokenService.GenerateRefreshToken
            OAuth2TokenRepository.CreateRefreshToken at h
          dsimp only at h
          split_ifs at h with h3
          · cases h
          · simp only [Prod.mk.injEq, Except.ok.injEq] at h
            obtain ⟨hr, hd⟩ := h
            refine ⟨row, token, rfl, ?_, ?_⟩
            · rw [← hd]; rfl
            · rw [← hr]

/-- C30: for every successful `RefreshAccessToken(R, C)`, with `row` the
refresh-token record found for `R`: the access-token table gains one record
and the refresh-token table one record, both carrying the scopes, the client id
and the principal id of `row`; the scope of the response is the space-join of
the scopes of `row`; and a call whose client id differs from the one of the
record found for `R` fails with the mismatch error and leaves the database,
hence the record of `R` and the token tables, as they were. -/
theorem C30_refresh_keeps_grant (s : OAuth2TokenService) (db db2 : DB) (now : Time)
    (R C : String) (rnd : TokenDraw) (resp : TokenResponse)
    (h : s.RefreshAccessToken db now R C rnd = (.ok resp, db2)) :
    (∃ row newAccess newRefresh,
      OAuth2TokenRepository.GetRefreshToken db now R = .ok row ∧ row.ClientID = C ∧
      db2.oauth2_access_tokens = db.oauth2_access_tokens ++ [newAccess] ∧
      newAccess.Scopes = row.Scopes ∧ newAccess.ClientID = row.ClientID ∧
      newAccess.UserID = some row.UserID ∧
      db2.oauth2_refresh_tokens
        = (db.oauth2_refresh_tokens.map (fun r : OAuth2RefreshToken =>
            if r.Token == R then { r with Revoked := true } else r)) ++ [newRefresh] ∧
      newRefresh.Scopes = row.Scopes ∧ newRefresh.ClientID = row.ClientID ∧
      newRefresh.UserID = row.UserID ∧ newRefresh.Token = resp.RefreshToken ∧
      resp.Scope = String.intercalate " " row.Scopes) ∧
    (∀ (C2 : String) (rnd2 : TokenDraw) (row : OAuth2RefreshToken),
      OAuth2TokenRepository.GetRefreshToken db now R = .ok row → row.ClientID ≠ C2 →
      s.RefreshAccessToken db now R C2 rnd2 = (.error (.msg "client ID mismatch"), db)) := by
  constructor
  · obtain ⟨row, hg, hC, hfresh, htok, hrt⟩ := RefreshAccessToken_ok s db now R C rnd resp
      (by rw [h])
    obtain ⟨row2, token, hg2, hat, hsc⟩ := RefreshAccessToken_access s db db2 now R C rnd resp h
    rw [hg] at hg2
    injection hg2 with hg2
    subst hg2
    rw [h] at hrt
    have hne : R ≠ rnd.refreshToken := by
      intro e
      have hmem : ∃ r ∈ db.oauth2_refresh_tokens, r.Token = R := by
        unfold OAuth2TokenRepository.GetRefreshToken at hg
        cases hf : db.oauth2_refresh_tokens.find? (fun r => r.Token == R) with
        | none => simp [hf] at hg
        | some r =>
          exact ⟨r, List.mem_of_find?_eq_some hf, by simpa using List.find?_some hf⟩
      obtain ⟨r, hr, hrT⟩ := hmem
      have := List.any_eq_false.mp hfresh r hr
      simp [hrT, e] at this
    refine ⟨row, _,
      ({ ID := rnd.refreshID, Token := rnd.refreshToken,
         AccessTokenID := some rnd.accessID, ClientID := row.ClientID, UserID := row.UserID,
         Scopes := row.Scopes, ExpiresAt := now + s.refreshTokenExpiry,
         Revoked := false } : OAuth2RefreshToken),
      hg, hC, hat, rfl, rfl, rfl, ?_, rfl, rfl, rfl, htok.symm, hsc⟩
    rw [hrt, List.map_append, List.map_singleton]
    have : (rnd.refreshToken == R) = false := by
      simpa using fun e : rnd.refreshToken = R => hne e.symm
    simp only [this, Bool.false_eq_true, if_false]
  · intro C2 rnd2 row hg hne
    unfold OAuth2TokenService.RefreshAccessToken
    rw [hg]
    dsimp only
    rw [if_pos (by simpa using hne)]

theorem C30_refresh_keeps_grant_witness :
    (∃ row newAccess newRefresh,
      OAuth2TokenRepository.GetRefreshToken Sample.tokenDb 2000000000 "R1" = .ok row ∧
      row.ClientID = "C2" ∧
      (Sample.tokens.RefreshAccessToken Sample.tokenDb 2000000000 "R1" "C2"
        Sample.mint2).2.oauth2_access_tokens
        = Sample.tokenDb.oauth2_access_tokens ++ [newAccess] ∧
      newAccess.Scopes = row.Scopes ∧ newAccess.ClientID = row.ClientID ∧
      newAccess.UserID = some row.UserID ∧
      (Sample.tokens.RefreshAccessToken Sample.tokenDb 2000000000 "R1" "C2"
        Sample.mint2).2.oauth2_refresh_tokens
        = (Sample.tokenDb.oauth2_refresh_tokens.map (fun r : OAuth2RefreshToken =>
            if r.Token == "R1" then { r with Revoked := true } else r)) ++ [newRefresh] ∧
      newRefresh.Scopes = row.Scopes ∧ newRefresh.ClientID = row.ClientID ∧
      newRefresh.UserID = row.UserID ∧
      newRefresh.Token = Sample.refreshResponse.RefreshToken ∧
      Sample.refreshResponse.Scope = String.intercalate " " row.Scopes) ∧
    Sample.tokens.RefreshAccessToken Sample.tokenDb 2000000000 "R1" "C1" Sample.mint2
      = (.error (.msg "client ID mismatch"), Sample.tokenDb) :=
  have h := C30_refresh_keeps_grant Sample.tokens Sample.tokenDb
    (Sample.tokens.RefreshAccessToken Sample.tokenDb 2000000000 "R1" "C2" Sample.mint2).2
    2000000000 "R1" "C2" Sample.mint2 Sample.refreshResponse
    (Prod.ext (by decide) rfl)
  ⟨h.1, h.2 "C1" Sample.mint2 Sample.refreshRow (by decide) (by decide)⟩

/-- C29: two wrong passwords lock `alice` with the invariant holding (2 failed
attempts, lock instant in the future); `UnlockAccount` then clears the
counter and the lock instant and leaves `is_locked` set, so the invariant does
not hold for the stored principal, at the instant of the call or any other. -/
theorem C29_unlock_account_breaks_lock_invariant :
    (Sample.auth.Login (Sample.auth.Login Sample.db 10 "a@b.c" "x" "ip" "ua" Sample.draw).2
        20 "a@b.c" "y" "ip" "ua" Sample.draw).2.users
      = [{ Sample.alice with IsLocked := true, LockedUntil := some (20 + 30 * Minute),
                              FailedLoginAttempts := 2 }] ∧
    (Sample.auth.Login (Sample.auth.Login Sample.db 10 "a@b.c" "x" "ip" "ua" Sample.draw).2
        20 "a@b.c" "y" "ip" "ua" Sample.draw).2.users.all (lockInvariant 2 30) = true ∧
    (UnlockAccount
        (Sample.auth.Login (Sample.auth.Login Sample.db 10 "a@b.c" "x" "ip" "ua" Sample.draw).2
          20 "a@b.c" "y" "ip" "ua" Sample.draw).2 "u1").2.users
      = [{ Sample.alice with IsLocked := true, LockedUntil := none, FailedLoginAttempts := 0 }] ∧
    (∀ now : Time, (UnlockAccount
        (Sample.auth.Login (Sample.auth.Login Sample.db 10 "a@b.c" "x" "ip" "ua" Sample.draw).2
          20 "a@b.c" "y" "ip" "ua" Sample.draw).2 "u1").2.users.all (lockInvariant 2 now)
      = false) := by
  have h3 : (UnlockAccount
        (Sample.auth.Login (Sample.auth.Login Sample.db 10 "a@b.c" "x" "ip" "ua" Sample.draw).2
          20 "a@b.c" "y" "ip" "ua" Sample.draw).2 "u1").2.users
      = [{ Sample.alice with IsLocked := true, LockedUntil := none, FailedLoginAttempts := 0 }] := by
    decide
  refine ⟨by decide, by decide, h3, ?_⟩
  intro now
  rw [h3]
  rfl

theorem logAudit_users (db : DB) (now : Time) (uid : Option String)
    (a r ip ua d : String) : (logAudit db now uid a r ip ua d).users = db.users := by
  simp [logAudit, AuditLogRepository.Create]

theorem lockInvariant_preload (M : Int) (now : Time) (db : DB) (u : User) :
    lockInvariant M now (preload db u) = lockInvariant M now u := rfl

theorem Update_lockInvariant (M : Int) (now : Time) (db : DB) (user : User)
    (hg : ∀ u ∈ db.users, lockInvariant M now u = true)
    (hu : lockInvariant M now user = true) :
    ∀ u ∈ (Update db user).2.users, lockInvariant M now u = true := by
  unfold Update
  split
  · intro u hu2
    simp only [List.mem_map] at hu2
    obtain ⟨a, ha, rfl⟩ := hu2
    split
    · exact hu
    · exact hg a ha
  · exact hg

theorem Increment_lockInvariant (M : Int) (now : Time) (db : DB) (id : String)
    (hg : ∀ u ∈ db.users, lockInvariant M now u = true) :
    ∀ u ∈ (IncrementFailedAttempts db id).2.users, lockInvariant M now u = true := by
  unfold IncrementFailedAttempts
  intro u hu
  simp only [List.mem_map] at hu
  obtain ⟨a, ha, rfl⟩ := hu
  have := hg a ha
  split
  · unfold lockInvariant at this ⊢
    simp only [Bool.or_eq_true, Bool.not_eq_true', decide_eq_true_eq] at this ⊢
    rcases this with (h | h) | h
    · exact Or.inl (Or.inl h)
    · exact Or.inl (Or.inr h)
    · exact Or.inr (by omega)
  · exact this

theorem Reset_lockInvariant (M : Int) (now : Time) (db : DB) (id : String)
    (hg : ∀ u ∈ db.users, lockInvariant M now u = true)
    (hid : ∀ u ∈ db.users, u.ID = id → u.IsLocked = false) :
    ∀ u ∈ (ResetFailedAttempts db id).2.users, lockInvariant M now u = true := by
  unfold ResetFailedAttempts
  split
  · intro u hu
    simp only [List.mem_map] at hu
    obtain ⟨a, ha, rfl⟩ := hu
    split
    · next h =>
      have := hid a ha (by simpa using h)
      simp [lockInvariant, this]
    · exact hg a ha
  · exact hg

theorem UpdateLastLogin_lockInvariant (M : Int) (now : Time) (db : DB) (id : String)
    (t : Option Time) (hg : ∀ u ∈ db.users, lockInvariant M now u = true) :
    ∀ u ∈ (UpdateLastLogin db id t).2.users, lockInvariant M now u = true := by
  unfold UpdateLastLogin
  intro u hu
  simp only [List.mem_map] at hu
  obtain ⟨a, ha, rfl⟩ := hu
  split
  · exact hg a ha
  · exact hg a ha

theorem loginWrongPassword_lockInvariant (s : AuthService) (db : DB) (now : Time) (user : User)
    (email ip ua : String)
    (hg : ∀ u ∈ db.users, lockInvariant s.maxAttempts now u = true) :
    ∀ u ∈ (s.loginWrongPassword db now user email ip ua).2.users,
      lockInvariant s.maxAttempts now u = true := by
  have h1 := Increment_lockInvariant s.maxAttempts now db user.ID hg
  unfold loginWrongPassword
  dsimp only
  cases hget : GetByEmail (IncrementFailedAttempts db user.ID).2 email with
  | error e => exact h1
  | ok user2 =>
    dsimp only
    split
    · next hge =>
      rw [logAudit_users]
      apply Update_lockInvariant s.maxAttempts now _ _ h1
      simp only [lockInvariant, Bool.or_eq_true, decide_eq_true_eq]
      exact Or.inr hge
    · rw [logAudit_users]
      exact h1

theorem loginVerified_lockInvariant (s : AuthService) (db : DB) (now : Time) (user : User)
    (ip ua : String) (rnd : SessionDraw)
    (hg : ∀ u ∈ db.users, lockInvariant s.maxAttempts now u = true)
    (hid : ∀ u ∈ db.users, u.ID = user.ID → u.IsLocked = false) :
    ∀ u ∈ (s.loginVerified db now user ip ua rnd).2.users,
      lockInvariant s.maxAttempts now u = true := by
  have h1 : ∀ u ∈ (if user.FailedLoginAttempts > 0 then (ResetFailedAttempts db user.ID).2
      else db).users, lockInvariant s.maxAttempts now u = true := by
    split
    · exact Reset_lockInvariant s.maxAttempts now db user.ID hg hid
    · exact hg
  unfold loginVerified
  dsimp only
  generalize (if user.FailedLoginAttempts > 0 then (ResetFailedAttempts db user.ID).2
      else db) = db1 at h1 ⊢
  have hc := (CreateSession_frame s.sessionService db1 now user.ID ip ua rnd).1
  generalize s.sessionService.CreateSession db1 now user.ID ip ua rnd = r at hc ⊢
  obtain ⟨res, db2⟩ := r
  dsimp only at hc
  have h2 : ∀ u ∈ db2.users, lockInvariant s.maxAttempts now u = true := by
    rw [hc]; exact h1
  split
  · cases res with
    | error e => exact h2
    | ok sess =>
      dsimp only
      rw [logAudit_users]
      exact h2
  · cases res with
    | error e => exact h2
    | ok sess =>
      dsimp only
      rw [logAudit_users]
      exact UpdateLastLogin_lockInvariant s.maxAttempts now db2 user.ID (some now) h2

/-- `Login` keeps the lock invariant, whatever its outcome: when every stored
principal satisfies the invariant at the instant of the call, and no two rows
share an id (primary key), every stored principal satisfies it after the
call. -/
theorem Login_lockInvariant (s : AuthService) (db : DB) (now : Time)
    (email password ip ua : String) (rnd : SessionDraw)
    (hg : ∀ u ∈ db.users, lockInvariant s.maxAttempts now u = true)
    (huniq : ∀ a ∈ db.users, ∀ b ∈ db.users, a.ID = b.ID → a = b) :
    ∀ u ∈ (s.Login db now email password ip ua rnd).2.users,
      lockInvariant s.maxAttempts now u = true := by
  unfold Login
  cases hget : GetByEmail db email with
  | error e =>
    dsimp only
    rw [logAudit_users]
    exact hg
  | ok user =>
    obtain ⟨u0, hf, hu0⟩ := GetByEmail_ok db email user hget
    have hmem : u0 ∈ db.users := List.mem_of_find?_eq_some hf
    dsimp only
    split
    · rw [logAudit_users]
      exact hg
    · have hgood : ∀ u ∈ (if user.IsLocked = true then
            (({ user with IsLocked := false, LockedUntil := none, FailedLoginAttempts := 0 } : User),
              (Update db { user with IsLocked := false, LockedUntil := none,
                                     FailedLoginAttempts := 0 }).2)
          else (user, db)).2.users, lockInvariant s.maxAttempts now u = true := by
        split
        · exact Update_lockInvariant s.maxAttempts now db _ hg (by simp [lockInvariant])
        · exact hg
      have hunl : ∀ u ∈ (if user.IsLocked = true then
            (({ user with IsLocked := false, LockedUntil := none, FailedLoginAttempts := 0 } : User),
              (Update db { user with IsLocked := false, LockedUntil := none,
                                     FailedLoginAttempts := 0 }).2)
          else (user, db)).2.users,
          u.ID = (if user.IsLocked = true then
            (({ user with IsLocked := false, LockedUntil := none, FailedLoginAttempts := 0 } : User),
              (Update db { user with IsLocked := false, LockedUntil := none,
                                     FailedLoginAttempts := 0 }).2)
          else (user, db)).1.ID → u.IsLocked = false := by
        split
        · next hl =>
          intro u hu hid
          dsimp only at hu hid
          unfold Update at hu
          split at hu
          · simp only [List.mem_map] at hu
            obtain ⟨a, ha, rfl⟩ := hu
            split
            · rfl
            · next hne =>
              exfalso
              apply hne
              rw [if_neg hne] at hid
              simpa using hid
          · next hany =>
            exfalso
            apply hany
            exact List.any_eq_true.mpr ⟨u0, hmem, by rw [hu0]; simp [preload, withTwoFactorAuth]⟩
        · next hl =>
          intro u hu hid
          dsimp only at hu hid
          have : u = u0 := huniq u hu u0 hmem (by rw [hid, hu0]; rfl)
          rw [this]
          have hl2 : user.IsLocked = false := by simpa using hl
          rw [hu0] at hl2
          exact hl2
      generalize (if user.IsLocked = true then
            (({ user with IsLocked := false, LockedUntil := none, FailedLoginAttempts := 0 } : User),
              (Update db { user with IsLocked := false, LockedUntil := none,
                                     FailedLoginAttempts := 0 }).2)
          else (user, db)) = unlocked at hgood hunl ⊢
      split
      · rw [logAudit_users]
        exact hgood
      · split
        · exact loginWrongPassword_lockInvariant s unlocked.2 now unlocked.1 email ip ua hgood
        · exact loginVerified_lockInvariant s unlocked.2 now unlocked.1 ip ua rnd hgood hunl

/-- `SetupTOTP` writes nothing. -/
theorem SetupTOTP_db (s : TOTPService) (db : DB) (userID : String) (rnd : TOTPDraw) :
    (s.SetupTOTP db userID rnd).2 = db := by
  unfold TOTPService.SetupTOTP
  cases GetByID db userID with
  | error e => rfl
  | ok u =>
    dsimp only
    cases rnd.key <;> rfl

/-- C26: for `alice`, who has no enrollment, `SetupTOTP` succeeds and returns
the secret, and no enrollment is recorded: the `two_factor_auth` table is
still empty, the principal is fetched without enrollment, and
`VerifyAndEnableTOTP` with the code valid for the returned secret fails with
`ErrTwoFactorNotSetup`. -/
theorem C26_setup_totp_records_nothing :
    Sample.totp.validate "code:SECRET" "SECRET" 20 = true ∧
    (Sample.totp.SetupTOTP Sample.db "u1" Sample.totpDraw).1 = .ok ("SECRET", ["b1", "b2"]) ∧
    (Sample.totp.SetupTOTP Sample.db "u1" Sample.totpDraw).2.two_factor_auth = [] ∧
    (GetByID (Sample.totp.SetupTOTP Sample.db "u1" Sample.totpDraw).2 "u1").map
      (fun u => u.TwoFactorAuth) = .ok none ∧
    Sample.totp.VerifyAndEnableTOTP (Sample.totp.SetupTOTP Sample.db "u1" Sample.totpDraw).2
        20 "u1" "code:SECRET"
      = (.error .ErrTwoFactorNotSetup, Sample.db) := by
  decide

/-- A ticket that `FindByToken` returns carries the token, is unused and
expires after `now`. -/
theorem FindByToken_ok (db : DB) (now : Time) (token : String) (r : PasswordResetToken)
    (h : PasswordResetTokenRepository.FindByToken db now token = .ok r) :
    r ∈ db.password_reset_tokens ∧ r.Token = token ∧ r.Used = false ∧ now < r.ExpiresAt := by
  unfold PasswordResetTokenRepository.FindByToken at h
  split at h
  · cases h
  · next r0 hf =>
    injection h with h
    subst h
    have hp := List.find?_some hf
    simp only [Bool.and_eq_true, beq_iff_eq, decide_eq_true_eq, gt_iff_lt] at hp
    exact ⟨List.mem_of_find?_eq_some hf, hp.1.1, hp.1.2, hp.2⟩

/-- When every ticket carrying the token is used or has `expires_at ≤ now`,
`ResetPassword` answers `ErrResetTokenNotFound` and writes nothing. -/
theorem ResetPassword_not_found (s : PasswordService) (db : DB) (now : Time)
    (token newPassword : String) (hashed : Except Err String) (historyID : String)
    (h : ∀ r ∈ db.password_reset_tokens, r.Token = token → r.Used = true ∨ r.ExpiresAt ≤ now) :
    s.ResetPassword db now token newPassword hashed historyID
      = (.error .ErrResetTokenNotFound, db) := by
  unfold PasswordService.ResetPassword
  cases hf : PasswordResetTokenRepository.FindByToken db now token with
  | error e => rfl
  | ok r =>
    exfalso
    obtain ⟨hm, ht, hu, he⟩ := FindByToken_ok db now token r hf
    rcases h r hm ht with h1 | h1
    · rw [hu] at h1; cases h1
    · exact absurd he (not_lt.mpr h1)

/-- `ResetPassword` never answers `ErrTokenUsed` or `ErrResetTokenExpired` from
its own checks: a ticket it finds is unused and unexpired. -/
theorem ResetPassword_found_checks (db : DB) (now : Time) (token : String)
    (r : PasswordResetToken)
    (h : PasswordResetTokenRepository.FindByToken db now token = .ok r) :
    r.Used = false ∧ ¬ (now > r.ExpiresAt) := by
  obtain ⟨_, _, hu, he⟩ := FindByToken_ok db now token r h
  exact ⟨hu, not_lt.mpr (le_of_lt he)⟩

/-- C23: on the sample database, the ticket `RT1` exists and has
`used = true`, and `ResetPassword` with it fails with `ErrResetTokenNotFound`,
not `ErrTokenUsed`; the ticket `RT2` exists, is unused and has
`expires_at = 100`, and `ResetPassword` with it at the instants 100 and 200
fails with `ErrResetTokenNotFound`, not `ErrResetTokenExpired`. -/
theorem C23_used_and_expired_tickets_reported_not_found :
    Sample.usedTicket ∈ Sample.ticketDb.password_reset_tokens ∧
    Sample.usedTicket.Token = "RT1" ∧ Sample.usedTicket.Used = true ∧
    Sample.passwords.ResetPassword Sample.ticketDb 50 "RT1" "Str0ng!Pass#" (.ok "hash2") "h1"
      = (.error .ErrResetTokenNotFound, Sample.ticketDb) ∧
    Sample.expiredTicket ∈ Sample.ticketDb.password_reset_tokens ∧
    Sample.expiredTicket.Token = "RT2" ∧ Sample.expiredTicket.Used = false ∧
    Sample.expiredTicket.ExpiresAt = 100 ∧
    Sample.passwords.ResetPassword Sample.ticketDb 100 "RT2" "Str0ng!Pass#" (.ok "hash2") "h1"
      = (.error .ErrResetTokenNotFound, Sample.ticketDb) ∧
    Sample.passwords.ResetPassword Sample.ticketDb 200 "RT2" "Str0ng!Pass#" (.ok "hash2") "h1"
      = (.error .ErrResetTokenNotFound, Sample.ticketDb) ∧
    (Sample.passwords.ResetPassword Sample.ticketDb 50 "RT3" "Str0ng!Pass#" (.ok "hash2")
      "h1").1 = .ok () := by
  decide

theorem recordHistory_frame (s : PasswordService) (db : DB) (now : Time)
    (userID oldPasswordHash historyID : String) :
    (s.recordHistory db now userID oldPasswordHash historyID).password_reset_tokens
      = db.password_reset_tokens ∧
    (s.recordHistory db now userID oldPasswordHash historyID).users = db.users ∧
    (s.recordHistory db now userID oldPasswordHash historyID).two_factor_auth
      = db.two_factor_auth := by
  have hc : ∀ d : DB, (PasswordHistoryRepository.Create d userID oldPasswordHash historyID
      now).2.password_reset_tokens = d.password_reset_tokens ∧
      (PasswordHistoryRepository.Create d userID oldPasswordHash historyID now).2.users
        = d.users ∧
      (PasswordHistoryRepository.Create d userID oldPasswordHash historyID
        now).2.two_factor_auth = d.two_factor_auth := by
    intro d
    unfold PasswordHistoryRepository.Create
    split_ifs <;> exact ⟨rfl, rfl, rfl⟩
  have hk : ∀ d : DB, (PasswordHistoryRepository.CleanupOldPasswords d userID
      s.historyCount).2.password_reset_tokens = d.password_reset_tokens ∧
      (PasswordHistoryRepository.CleanupOldPasswords d userID s.historyCount).2.users
        = d.users ∧
      (PasswordHistoryRepository.CleanupOldPasswords d userID
        s.historyCount).2.two_factor_auth = d.two_factor_auth := by
    intro d
    unfold PasswordHistoryRepository.CleanupOldPasswords
    simp only
    split_ifs <;> exact ⟨rfl, rfl, rfl⟩
  unfold PasswordService.recordHistory
  split_ifs
  · exact ⟨by rw [(hk _).1, (hc _).1], by rw [(hk _).2.1, (hc _).2.1],
      by rw [(hk _).2.2, (hc _).2.2]⟩
  · exact ⟨rfl, rfl, rfl⟩

theorem Update_tickets (db : DB) (user : User) :
    (Update db user).2.password_reset_tokens = db.password_reset_tokens := by
  unfold Update
  split <;> rfl

theorem Update_error_db (db db1 : DB) (user : User) (e : Err)
    (h : Update db user = (.error e, db1)) : db1 = db := by
  unfold Update at h
  split at h
  · cases h
  · injection h with _ h
    exact h.symm

/-- What a successful `ChangePassword` read, checked and wrote. -/
theorem ChangePassword_ok_inv (s : PasswordService) (db db2 : DB) (now : Time)
    (userID currentPassword newPassword : String) (hashed : Except Err String)
    (historyID : String)
    (h : s.ChangePassword db now userID currentPassword newPassword hashed historyID
      = (.ok (), db2)) :
    ∃ user hashedPassword db1, GetByID db userID = .ok user ∧
      s.crypto.ComparePassword user.PasswordHash currentPassword = true ∧
      ValidatePassword s.unicode newPassword s.policy = .ok () ∧
      s.reused db userID newPassword = false ∧
      hashed = .ok hashedPassword ∧
      Update db { user with PasswordHash := hashedPassword, PasswordChangedAt := now }
        = (.ok (), db1) ∧
      db2 = (DatabaseSessionStore.DeleteByUserID
        (s.recordHistory db1 now userID user.PasswordHash historyID) userID).2 := by
  unfold PasswordService.ChangePassword at h
  split at h
  · cases h
  · split at h
    · cases h
    · split at h
      · cases h
      · split at h
        · cases h
        · split at h
          · cases h
          · split at h
            · cases h
            · rename_i _ user hget hcmp _ hval hre _ hashedPassword _ db1 hupd
              injection h with _ h
              exact ⟨user, hashedPassword, db1, hget, by simpa using hcmp, hval,
                by simpa using hre, rfl, hupd, h.symm⟩

/-- A failing `ChangePassword` writes nothing. -/
theorem ChangePassword_error_db (s : PasswordService) (db : DB) (now : Time)
    (userID currentPassword newPassword : String) (hashed : Except Err String)
    (historyID : String) (e : Err)
    (h : (s.ChangePassword db now userID currentPassword newPassword hashed historyID).1
      = .error e) :
    (s.ChangePassword db now userID currentPassword newPassword hashed historyID).2 = db := by
  have key : ∀ r : Except Err Unit × DB,
      s.ChangePassword db now userID currentPassword newPassword hashed historyID = r →
      r.1 = .error e → r.2 = db := by
    intro r hr he
    unfold PasswordService.ChangePassword at hr
    split at hr
    · rw [← hr]
    · split at hr
      · rw [← hr]
      · split at hr
        · rw [← hr]
        · split at hr
          · rw [← hr]
          · split at hr
            · rw [← hr]
            · split at hr
              · rename_i e2 db1 hupd
                rw [← hr]
                exact Update_error_db _ _ _ _ hupd
              · rw [← hr] at he
                cases he
  exact key _ rfl h

/-- What a successful `ResetPassword` read, checked and wrote. -/
theorem ResetPassword_ok_inv (s : PasswordService) (db db2 : DB) (now : Time)
    (token newPassword : String) (hashed : Except Err String) (historyID : String)
    (h : s.ResetPassword db now token newPassword hashed historyID = (.ok (), db2)) :
    ∃ tk user hashedPassword db1,
      PasswordResetTokenRepository.FindByToken db now token = .ok tk ∧
      ValidatePassword s.unicode newPassword s.policy = .ok () ∧
      GetByID db tk.UserID = .ok user ∧
      s.reused db user.ID newPassword = false ∧
      hashed = .ok hashedPassword ∧
      Update db { user with PasswordHash := hashedPassword, PasswordChangedAt := now }
        = (.ok (), db1) ∧
      db2 = (DatabaseSessionStore.DeleteByUserID
        (s.recordHistory (PasswordResetTokenRepository.MarkAsUsed db1 now token).2 now user.ID
          user.PasswordHash historyID) tk.UserID).2 := by
  unfold PasswordService.ResetPassword at h
  split at h
  · cases h
  · split at h
    · cases h
    · split at h
      · cases h
      · split at h
        · cases h
        · split at h
          · cases h
          · split at h
            · cases h
            · split at h
              · cases h
              · split at h
                · cases h
                · rename_i _ tk hfind _ _ _ hval _ user hget hre _ hashedPassword _ db1 hupd
                  injection h with _ h
                  exact ⟨tk, user, hashedPassword, db1, hfind, hval, hget,
                    by simpa using hre, rfl, hupd, h.symm⟩

/-- A failing `ResetPassword` writes nothing. -/
theorem ResetPassword_error_db (s : PasswordService) (db : DB) (now : Time)
    (token newPassword : String) (hashed : Except Err String) (historyID : String) (e : Err)
    (h : (s.ResetPassword db now token newPassword hashed historyID).1 = .error e) :
    (s.ResetPassword db now token newPassword hashed historyID).2 = db := by
  have key : ∀ r : Except Err Unit × DB,
      s.ResetPassword db now token newPassword hashed historyID = r →
      r.1 = .error e → r.2 = db := by
    intro r hr he
    unfold PasswordService.ResetPassword at hr
    split at hr
    · rw [← hr]
    · split at hr
      · rw [← hr]
      · split at hr
        · rw [← hr]
        · split at hr
          · rw [← hr]
          · split at hr
            · rw [← hr]
            · split at hr
              · rw [← hr]
              · split at hr
                · rw [← hr]
                · split at hr
                  · rename_i e2 db1 hupd
                    rw [← hr]
                    exact Update_error_db _ _ _ _ hupd
                  · rw [← hr] at he
                    cases he
  exact key _ rfl h

/-- `ChangePassword` leaves the tickets as they were. -/
theorem ChangePassword_tickets (s : PasswordService) (db : DB) (now : Time)
    (userID currentPassword newPassword : String) (hashed : Except Err String)
    (historyID : String) :
    (s.ChangePassword db now userID currentPassword newPassword hashed
      historyID).2.password_reset_tokens = db.password_reset_tokens := by
  cases hres : (s.ChangePassword db now userID currentPassword newPassword hashed
      historyID).1 with
  | error e => rw [ChangePassword_error_db s db now _ _ _ _ _ e hres]
  | ok v =>
    obtain ⟨user, hp, db1, _, _, _, _, _, hupd, hdb⟩ := ChangePassword_ok_inv s db _ now
      userID currentPassword newPassword hashed historyID (Prod.ext hres rfl)
    refine (congrArg DB.password_reset_tokens hdb).trans ?_
    show (s.recordHistory db1 now userID user.PasswordHash historyID).password_reset_tokens = _
    rw [(recordHistory_frame s db1 now userID user.PasswordHash historyID).1]
    have := Update_tickets db { user with PasswordHash := hp, PasswordChangedAt := now }
    rw [hupd] at this
    exact this

/-- `ResetPassword` leaves the tickets as they were when it fails, and marks
the tickets of the token used when it succeeds. -/
theorem ResetPassword_tickets (s : PasswordService) (db : DB) (now : Time)
    (token newPassword : String) (hashed : Except Err String) (historyID : String) :
    (∀ e, (s.ResetPassword db now token newPassword hashed historyID).1 = .error e →
      (s.ResetPassword db now token newPassword hashed historyID).2 = db) ∧
    ((s.ResetPassword db now token newPassword hashed historyID).1 = .ok () →
      (∃ r, PasswordResetTokenRepository.FindByToken db now token = .ok r) ∧
      (s.ResetPassword db now token newPassword hashed historyID).2.password_reset_tokens
        = db.password_reset_tokens.map (fun r =>
            if r.Token == token then { r with Used := true, UsedAt := some now } else r)) := by
  refine ⟨fun e h => ResetPassword_error_db s db now _ _ _ _ e h, fun hres => ?_⟩
  obtain ⟨tk, user, hp, db1, hfind, _, _, _, _, hupd, hdb⟩ := ResetPassword_ok_inv s db _ now
    token newPassword hashed historyID (Prod.ext hres rfl)
  refine ⟨⟨tk, hfind⟩, ?_⟩
  refine (congrArg DB.password_reset_tokens hdb).trans ?_
  show (s.recordHistory (PasswordResetTokenRepository.MarkAsUsed db1 now token).2
    now user.ID user.PasswordHash historyID).password_reset_tokens = _
  rw [(recordHistory_frame s _ now user.ID user.PasswordHash historyID).1]
  show db1.password_reset_tokens.map _ = _
  have := Update_tickets db { user with PasswordHash := hp, PasswordChangedAt := now }
  rw [hupd] at this
  rw [this]

/-- `GenerateResetToken` leaves the tickets as they were or appends one unused
ticket whose id and token no stored ticket carries. -/
theorem GenerateResetToken_tickets (s : PasswordService) (db : DB) (now : Time)
    (email : String) (token : Except Err String) (id : String) :
    (s.GenerateResetToken db now email token id).2.password_reset_tokens
      = db.password_reset_tokens ∨
    ∃ t, (s.GenerateResetToken db now email token id).2.password_reset_tokens
        = db.password_reset_tokens ++ [t] ∧ t.Used = false ∧
      ∀ r ∈ db.password_reset_tokens, r.ID ≠ t.ID ∧ r.Token ≠ t.Token := by
  unfold PasswordService.GenerateResetToken
  split
  · exact Or.inl rfl
  · split
    · exact Or.inl rfl
    · next user _ _ tokenString =>
      unfold PasswordResetTokenRepository.Create
      dsimp only
      split_ifs with hany
      · exact Or.inl rfl
      · right
        refine ⟨_, rfl, rfl, ?_⟩
        intro r hr
        have hf : db.password_reset_tokens.any
            (fun r => r.ID == id || r.Token == tokenString) = false := by simpa using hany
        have := List.any_eq_false.mp hf r hr
        simpa using this

theorem ticketUsed_iff (db : DB) (token : String) :
    ticketUsed db token = true ↔
      (∃ r ∈ db.password_reset_tokens, r.Token = token) ∧
      ∀ r ∈ db.password_reset_tokens, r.Token = token → r.Used = true := by
  unfold ticketUsed
  simp only [Bool.and_eq_true, List.any_eq_true, List.all_eq_true, beq_iff_eq,
    Bool.or_eq_true, Bool.not_eq_true', beq_eq_false_iff_ne, ne_eq]
  constructor
  · rintro ⟨h1, h2⟩
    refine ⟨h1, fun r hr ht => ?_⟩
    rcases h2 r hr with h | h
    · exact absurd ht h
    · exact h
  · rintro ⟨h1, h2⟩
    refine ⟨h1, fun r hr => ?_⟩
    by_cases ht : r.Token = token
    · exact Or.inr (h2 r hr ht)
    · exact Or.inl ht

/-- A used-up ticket stays used up through every password operation. -/
theorem ticketUsed_run (s : PasswordService) (db : DB) (token : String) (op : PasswordOp)
    (h : ticketUsed db token = true) : ticketUsed (op.run s db) token = true := by
  rw [ticketUsed_iff] at h ⊢
  obtain ⟨⟨r0, hr0, ht0⟩, hall⟩ := h
  cases op with
  | change now userID cur new hashed hid =>
    show (∃ r ∈ (s.ChangePassword db now userID cur new hashed hid).2.password_reset_tokens, _) ∧
      ∀ r ∈ (s.ChangePassword db now userID cur new hashed hid).2.password_reset_tokens, _
    rw [ChangePassword_tickets]
    exact ⟨⟨r0, hr0, ht0⟩, hall⟩
  | forgot now email tok id =>
    show (∃ r ∈ (s.GenerateResetToken db now email tok id).2.password_reset_tokens, _) ∧
      ∀ r ∈ (s.GenerateResetToken db now email tok id).2.password_reset_tokens, _
    rcases GenerateResetToken_tickets s db now email tok id with he | ⟨t, he, _, hfresh⟩
    · rw [he]
      exact ⟨⟨r0, hr0, ht0⟩, hall⟩
    · rw [he]
      refine ⟨⟨r0, List.mem_append_left _ hr0, ht0⟩, ?_⟩
      intro r hr ht
      rcases List.mem_append.mp hr with hr | hr
      · exact hall r hr ht
      · exfalso
        have : r = t := by simpa using hr
        subst this
        exact (hfresh r0 hr0).2 (ht0.trans ht.symm)
  | reset now tok new hashed hid =>
    show (∃ r ∈ (s.ResetPassword db now tok new hashed hid).2.password_reset_tokens, _) ∧
      ∀ r ∈ (s.ResetPassword db now tok new hashed hid).2.password_reset_tokens, _
    have hfr := ResetPassword_tickets s db now tok new hashed hid
    cases hres : (s.ResetPassword db now tok new hashed hid).1 with
    | error e =>
      rw [hfr.1 e hres]
      exact ⟨⟨r0, hr0, ht0⟩, hall⟩
    | ok v =>
      rw [(hfr.2 hres).2]
      constructor
      · refine ⟨_, List.mem_map.mpr ⟨r0, hr0, rfl⟩, ?_⟩
        split
        · exact ht0
        · exact ht0
      · intro r hr ht
        obtain ⟨a, ha, rfl⟩ := List.mem_map.mp hr
        split
        · rfl
        · next hne =>
          rw [if_neg hne] at ht
          exact hall a ha ht

theorem ticketUsed_runPasswordOps (s : PasswordService) (token : String)
    (ops : List PasswordOp) :
    ∀ db : DB, ticketUsed db token = true → ticketUsed (runPasswordOps s db ops) token = true := by
  induction ops with
  | nil => intro db h; exact h
  | cons op rest ih =>
    intro db h
    exact ih (op.run s db) (ticketUsed_run s db token op h)

/-- An unused ticket after a password operation is a ticket that was stored
unchanged before it, or a new ticket whose id and token no stored ticket
carried: no operation turns `used` back to false. -/
theorem unused_after_run (s : PasswordService) (db : DB) (op : PasswordOp) :
    ∀ r ∈ (op.run s db).password_reset_tokens, r.Used = false →
      r ∈ db.password_reset_tokens ∨
      ∀ r0 ∈ db.password_reset_tokens, r0.ID ≠ r.ID ∧ r0.Token ≠ r.Token := by
  intro r hr hu
  cases op with
  | change now userID cur new hashed hid =>
    left
    have : (PasswordOp.change now userID cur new hashed hid).run s db
      = (s.ChangePassword db now userID cur new hashed hid).2 := rfl
    rw [this, ChangePassword_tickets] at hr
    exact hr
  | forgot now email tok id =>
    have : (PasswordOp.forgot now email tok id).run s db
      = (s.GenerateResetToken db now email tok id).2 := rfl
    rw [this] at hr
    rcases GenerateResetToken_tickets s db now email tok id with he | ⟨t, he, _, hfresh⟩
    · rw [he] at hr; exact Or.inl hr
    · rw [he] at hr
      rcases List.mem_append.mp hr with hr | hr
      · exact Or.inl hr
      · right
        have : r = t := by simpa using hr
        subst this
        exact hfresh
  | reset now tok new hashed hid =>
    left
    have : (PasswordOp.reset now tok new hashed hid).run s db
      = (s.ResetPassword db now tok new hashed hid).2 := rfl
    rw [this] at hr
    have hfr := ResetPassword_tickets s db now tok new hashed hid
    cases hres : (s.ResetPassword db now tok new hashed hid).1 with
    | error e =>
      rw [hfr.1 e hres] at hr
      exact hr
    | ok v =>
      rw [(hfr.2 hres).2] at hr
      obtain ⟨a, ha, rfl⟩ := List.mem_map.mp hr
      split at hu
      · cases hu
      · next hne =>
        rw [if_neg hne]
        exact ha

/-- C24: after a successful `ResetPassword(token, p)` the ticket is used up (a
row carries the token and every row carrying it has `used = true`); it stays
used up through every sequence of password operations, and in every such
later state `ResetPassword` with the same token fails and leaves the database,
hence the password hash, the history and the sessions, as it was; and an
unused ticket after any password operation is a ticket stored unchanged before
or a new ticket with a fresh id and token, so `used` never turns back to
false. -/
theorem C24_reset_ticket_single_use (s : PasswordService) (db db1 : DB) (now : Time)
    (token newPassword : String) (hashed : Except Err String) (historyID : String)
    (hok : s.ResetPassword db now token newPassword hashed historyID = (.ok (), db1)) :
    ticketUsed db1 token = true ∧
    (∀ (ops : List PasswordOp) (now2 : Time) (p2 : String) (hashed2 : Except Err String)
        (historyID2 : String),
      ticketUsed (runPasswordOps s db1 ops) token = true ∧
      s.ResetPassword (runPasswordOps s db1 ops) now2 token p2 hashed2 historyID2
        = (.error .ErrResetTokenNotFound, runPasswordOps s db1 ops)) ∧
    (∀ (d : DB) (op : PasswordOp), ∀ r ∈ (op.run s d).password_reset_tokens, r.Used = false →
      r ∈ d.password_reset_tokens ∨
      ∀ r0 ∈ d.password_reset_tokens, r0.ID ≠ r.ID ∧ r0.Token ≠ r.Token) := by
  have hfr := (ResetPassword_tickets s db now token newPassword hashed historyID).2
    (by rw [hok])
  rw [hok] at hfr
  obtain ⟨⟨tk, hfind⟩, htick⟩ := hfr
  obtain ⟨hm, ht, _, _⟩ := FindByToken_ok db now token tk hfind
  have h1 : ticketUsed db1 token = true := by
    rw [ticketUsed_iff]
    dsimp only at htick
    rw [htick]
    constructor
    · refine ⟨_, List.mem_map.mpr ⟨tk, hm, rfl⟩, ?_⟩
      rw [if_pos (by simpa using ht)]
      exact ht
    · intro r hr hrt
      obtain ⟨a, ha, rfl⟩ := List.mem_map.mp hr
      split
      · rfl
      · next hne =>
        exfalso
        rw [if_neg hne] at hrt
        exact hne (by simpa using hrt)
  refine ⟨h1, ?_, fun d op => unused_after_run s d op⟩
  intro ops now2 p2 hashed2 historyID2
  have h2 := ticketUsed_runPasswordOps s token ops db1 h1
  refine ⟨h2, ?_⟩
  apply ResetPassword_not_found
  intro r hr hrt
  exact Or.inl (((ticketUsed_iff _ _).mp h2).2 r hr hrt)

theorem C24_reset_ticket_single_use_witness :
    ticketUsed (Sample.passwords.ResetPassword Sample.ticketDb 50 "RT3" "Str0ng!Pass#"
      (.ok "hash2") "h1").2 "RT3" = true ∧
    Sample.passwords.ResetPassword
        (runPasswordOps Sample.passwords
          (Sample.passwords.ResetPassword Sample.ticketDb 50 "RT3" "Str0ng!Pass#"
            (.ok "hash2") "h1").2
          [.forgot 60 "a@b.c" (.ok "RT3") "k9", .change 70 "u1" "hash2" "0ther!Pass#9"
            (.ok "hash3") "h2"])
        80 "RT3" "An0ther!Pass#" (.ok "hash4") "h3"
      = (.error .ErrResetTokenNotFound,
         runPasswordOps Sample.passwords
          (Sample.passwords.ResetPassword Sample.ticketDb 50 "RT3" "Str0ng!Pass#"
            (.ok "hash2") "h1").2
          [.forgot 60 "a@b.c" (.ok "RT3") "k9", .change 70 "u1" "hash2" "0ther!Pass#9"
            (.ok "hash3") "h2"]) :=
  have h := C24_reset_ticket_single_use Sample.passwords Sample.ticketDb
    (Sample.passwords.ResetPassword Sample.ticketDb 50 "RT3" "Str0ng!Pass#"
      (.ok "hash2") "h1").2
    50 "RT3" "Str0ng!Pass#" (.ok "hash2") "h1" (Prod.ext (by decide) rfl)
  ⟨h.1, (h.2.1 [.forgot 60 "a@b.c" (.ok "RT3") "k9", .change 70 "u1" "hash2" "0ther!Pass#9"
    (.ok "hash3") "h2"] 80 "An0ther!Pass#" (.ok "hash4") "h3").2⟩

/-- C21: with a history window `N > 0`, a correct current password and a new
password that passes the policy, `ChangePassword` fails with
`ErrPasswordReused` when the new password verifies against the hash of one of
the `N` most recent history rows of the principal, and then leaves the whole
database, hence the stored hash, the history and the sessions, as it was. -/
theorem C21_reused_password_rejected (s : PasswordService) (db : DB) (now : Time)
    (userID currentPassword newPassword : String) (hashed : Except Err String)
    (historyID : String) (user : User) (row : PasswordHistory)
    (hN : 0 < s.historyCount)
    (hget : GetByID db userID = .ok user)
    (hcur : s.crypto.ComparePassword user.PasswordHash currentPassword = true)
    (hpol : ValidatePassword s.unicode newPassword s.policy = .ok ())
    (hrow : row ∈ PasswordHistoryRepository.GetRecentPasswords db userID s.historyCount)
    (hver : s.crypto.ComparePassword row.PasswordHash newPassword = true) :
    s.ChangePassword db now userID currentPassword newPassword hashed historyID
      = (.error .ErrPasswordReused, db) := by
  have hre : s.reused db userID newPassword = true := by
    unfold PasswordService.reused
    simp only [Bool.and_eq_true, decide_eq_true_eq, List.any_eq_true]
    exact ⟨hN, row, hrow, hver⟩
  unfold PasswordService.ChangePassword
  rw [hget]
  simp only [hcur, hpol, hre, Bool.not_true, Bool.false_eq_true, if_false, if_true]

theorem C21_reused_password_rejected_witness :
    (PasswordHistoryRepository.GetRecentPasswords
      (runPasswordOps Sample.passwords Sample.sessionDb
        [.change 50 "u1" "pw" "Str0ng!Pass#" (.ok "Str0ng!Pass#") "h1",
         .change 60 "u1" "Str0ng!Pass#" "0ther!Pass#9" (.ok "0ther!Pass#9") "h2"]) "u1" 3).map
      (fun r => r.PasswordHash) = ["Str0ng!Pass#", "pw"] ∧
    Sample.passwords.ChangePassword
        (runPasswordOps Sample.passwords Sample.sessionDb
          [.change 50 "u1" "pw" "Str0ng!Pass#" (.ok "Str0ng!Pass#") "h1",
           .change 60 "u1" "Str0ng!Pass#" "0ther!Pass#9" (.ok "0ther!Pass#9") "h2"])
        70 "u1" "0ther!Pass#9" "Str0ng!Pass#" (.ok "Str0ng!Pass#") "h3"
      = (.error .ErrPasswordReused,
         runPasswordOps Sample.passwords Sample.sessionDb
          [.change 50 "u1" "pw" "Str0ng!Pass#" (.ok "Str0ng!Pass#") "h1",
           .change 60 "u1" "Str0ng!Pass#" "0ther!Pass#9" (.ok "0ther!Pass#9") "h2"]) :=
  ⟨by decide,
   C21_reused_password_rejected Sample.passwords
    (runPasswordOps Sample.passwords Sample.sessionDb
      [.change 50 "u1" "pw" "Str0ng!Pass#" (.ok "Str0ng!Pass#") "h1",
       .change 60 "u1" "Str0ng!Pass#" "0ther!Pass#9" (.ok "0ther!Pass#9") "h2"])
    70 "u1" "0ther!Pass#9" "Str0ng!Pass#" (.ok "Str0ng!Pass#") "h3"
    { Sample.alice with PasswordHash := "0ther!Pass#9", PasswordChangedAt := 60 }
    { ID := "h2", UserID := "u1", PasswordHash := "Str0ng!Pass#", CreatedAt := 60 }
    (by decide) (by decide) (by decide) (by decide) (by decide) (by decide)⟩

/-- Sorting newest first moves a row that is newer than all others from the
end to the front. -/
theorem insertionSort_append_newest (l : List PasswordHistory) (x : PasswordHistory)
    (h : ∀ y ∈ l, y.CreatedAt < x.CreatedAt) :
    (l ++ [x]).insertionSort (fun a b => b.CreatedAt ≤ a.CreatedAt)
      = x :: l.insertionSort (fun a b => b.CreatedAt ≤ a.CreatedAt) := by
  induction l with
  | nil => rfl
  | cons a l ih =>
    have hx := h a (List.mem_cons_self _ _)
    show List.orderedInsert _ a (List.insertionSort _ (l ++ [x]))
      = x :: List.orderedInsert _ a (List.insertionSort _ l)
    rw [ih (fun y hy => h y (List.mem_cons_of_mem _ hy)), List.orderedInsert,
      if_neg (not_le.mpr hx)]

/-- Rows inserted at strictly increasing instants are, newest first, the
reversed list. -/
theorem insertionSort_ascending (l : List PasswordHistory)
    (h : l.Pairwise (fun a b => a.CreatedAt < b.CreatedAt)) :
    l.insertionSort (fun a b => b.CreatedAt ≤ a.CreatedAt) = l.reverse := by
  induction l using List.reverseRecOn with
  | nil => rfl
  | append_singleton l x ih =>
    rw [List.pairwise_append] at h
    rw [insertionSort_append_newest l x (fun y hy => h.2.2 y hy x (List.mem_singleton_self x)),
      ih h.1, List.reverse_append]
    rfl

/-- Keeping the rows whose id is among the ids of the `n` last rows keeps
exactly the `n` last rows, when the ids differ. -/
theorem filter_ids_of_last (l : List PasswordHistory) (n : Nat)
    (h : l.Pairwise (fun a b => a.ID ≠ b.ID)) :
    l.filter (fun r => ((l.reverse.take n).map (fun r => r.ID)).contains r.ID)
      = l.drop (l.length - n) := by
  rw [List.take_reverse]
  have hmem : ∀ (B : List PasswordHistory) (r : PasswordHistory),
      ((B.reverse.map (fun r => r.ID)).contains r.ID) = true ↔ ∃ b ∈ B, b.ID = r.ID := by
    intro B r
    simp
  have hsplit := List.take_append_drop (l.length - n) l
  generalize l.drop (l.length - n) = B at hsplit ⊢
  generalize l.take (l.length - n) = A at hsplit
  subst hsplit
  rw [List.pairwise_append] at h
  rw [List.filter_append]
  have hA : A.filter (fun r => ((B.reverse.map (fun r => r.ID)).contains r.ID)) = [] := by
    rw [List.filter_eq_nil_iff]
    intro a ha hc
    obtain ⟨b, hb, hid⟩ := (hmem B a).mp hc
    exact h.2.2 a ha b hb hid.symm
  have hB : B.filter (fun r => ((B.reverse.map (fun r => r.ID)).contains r.ID)) = B := by
    rw [List.filter_eq_self]
    intro b hb
    exact (hmem B b).mpr ⟨b, hb, rfl⟩
  rw [hA, hB, List.nil_append]

theorem newestFirst_eq_reverse (n : Nat) (db : DB) (userID : String)
    (h : historyWF n db userID) :
    PasswordHistoryRepository.newestFirst db userID = (historyRows db userID).reverse :=
  insertionSort_ascending _ h.1

/-- The history writes for a principal with well-formed history, a fresh id
and a later instant: the old hash is appended and the `n` last rows are
kept. -/
theorem recordHistory_rows_self (s : PasswordService) (db : DB) (now : Time)
    (userID oldPasswordHash historyID : String)
    (hN : 0 < s.historyCount)
    (hwf : historyWF s.historyCount.toNat db userID)
    (hnow : ∀ r ∈ historyRows db userID, r.CreatedAt < now)
    (hid : ∀ r ∈ db.password_history, r.ID ≠ historyID) :
    historyRows (s.recordHistory db now userID oldPasswordHash historyID) userID
      = (historyRows db userID ++
          [({ ID := historyID, UserID := userID, PasswordHash := oldPasswordHash,
              CreatedAt := now } : PasswordHistory)]).drop
          ((historyRows db userID).length + 1 - s.historyCount.toNat) := by
  obtain ⟨hasc, hids, hlen⟩ := hwf
  have hn : 0 < s.historyCount.toNat := by omega
  have hany : db.password_history.any (fun r => r.ID == historyID) = false := by
    rw [List.any_eq_false]
    intro r hr
    simpa using hid r hr
  have hrows1 : (db.password_history ++
      [({ ID := historyID, UserID := userID, PasswordHash := oldPasswordHash,
          CreatedAt := now } : PasswordHistory)]).filter (fun r => r.UserID == userID)
      = historyRows db userID ++
          [{ ID := historyID, UserID := userID, PasswordHash := oldPasswordHash,
             CreatedAt := now }] := by
    rw [List.filter_append]
    simp [historyRows]
  have hasc1 : (historyRows db userID ++
      [({ ID := historyID, UserID := userID, PasswordHash := oldPasswordHash,
          CreatedAt := now } : PasswordHistory)]).Pairwise
        (fun a b => a.CreatedAt < b.CreatedAt) := by
    rw [List.pairwise_append]
    refine ⟨hasc, List.pairwise_singleton _ _, ?_⟩
    intro a ha b hb
    rw [List.mem_singleton] at hb
    rw [hb]
    exact hnow a ha
  have hids1 : (historyRows db userID ++
      [({ ID := historyID, UserID := userID, PasswordHash := oldPasswordHash,
          CreatedAt := now } : PasswordHistory)]).Pairwise (fun a b => a.ID ≠ b.ID) := by
    rw [List.pairwise_append]
    refine ⟨hids, List.pairwise_singleton _ _, ?_⟩
    intro a ha b hb
    rw [List.mem_singleton] at hb
    rw [hb]
    exact hid a (List.mem_filter.mp ha).1
  unfold PasswordService.recordHistory
  rw [if_pos hN]
  unfold PasswordHistoryRepository.Create
  rw [if_neg (by rw [hany]; exact Bool.false_ne_true)]
  unfold PasswordHistoryRepository.CleanupOldPasswords PasswordHistoryRepository.newestFirst
  dsimp only
  rw [hrows1, insertionSort_ascending _ hasc1]
  have hpos : 0 < (((historyRows db userID ++
      [({ ID := historyID, UserID := userID, PasswordHash := oldPasswordHash,
          CreatedAt := now } : PasswordHistory)]).reverse.take s.historyCount.toNat).map
        (fun r => r.ID)).length := by
    rw [List.length_map, List.length_take, List.length_reverse, List.length_append]
    simp only [List.length_singleton]
    omega
  rw [if_pos hpos]
  unfold historyRows
  dsimp only
  rw [List.filter_filter]
  have hcongr : (db.password_history ++
      [({ ID := historyID, UserID := userID, PasswordHash := oldPasswordHash,
          CreatedAt := now } : PasswordHistory)]).filter
        (fun a => (a.UserID == userID) &&
          !(a.UserID == userID &&
            !((((List.filter (fun r => r.UserID == userID) db.password_history ++
              [({ ID := historyID, UserID := userID, PasswordHash := oldPasswordHash,
                  CreatedAt := now } : PasswordHistory)]).reverse.take
                s.historyCount.toNat).map (fun r => r.ID)).contains a.ID)))
      = ((db.password_history ++
      [({ ID := historyID, UserID := userID, PasswordHash := oldPasswordHash,
          CreatedAt := now } : PasswordHistory)]).filter (fun r => r.UserID == userID)).filter
        (fun a => (((List.filter (fun r => r.UserID == userID) db.password_history ++
              [({ ID := historyID, UserID := userID, PasswordHash := oldPasswordHash,
                  CreatedAt := now } : PasswordHistory)]).reverse.take
                s.historyCount.toNat).map (fun r => r.ID)).contains a.ID) := by
    rw [List.filter_filter]
    apply List.filter_congr
    intro a _
    cases a.UserID == userID <;> simp
  rw [hcongr, hrows1]
  exact (filter_ids_of_last _ s.historyCount.toNat hids1).trans
    (by rw [List.length_append]; rfl)

/-- The history writes for one principal leave the rows of another. -/
theorem recordHistory_rows_other (s : PasswordService) (db : DB) (now : Time)
    (userID other oldPasswordHash historyID : String) (hne : other ≠ userID) :
    historyRows (s.recordHistory db now other oldPasswordHash historyID) userID
      = historyRows db userID := by
  have hc : ∀ d : DB, historyRows
      (PasswordHistoryRepository.Create d other oldPasswordHash historyID now).2 userID
      = historyRows d userID := by
    intro d
    unfold PasswordHistoryRepository.Create historyRows
    split_ifs
    · rfl
    · dsimp only
      rw [List.filter_append]
      simp [hne]
  have hk : ∀ d : DB, historyRows
      (PasswordHistoryRepository.CleanupOldPasswords d other s.historyCount).2 userID
      = historyRows d userID := by
    intro d
    unfold PasswordHistoryRepository.CleanupOldPasswords historyRows
    dsimp only
    split_ifs
    · dsimp only
      rw [List.filter_filter]
      apply List.filter_congr
      intro a _
      by_cases ha : a.UserID = userID
      · have : ¬ a.UserID = other := fun e => hne (e.symm.trans ha)
        simp [ha, this, Ne.symm hne]
      · simp [ha]
    · dsimp only
      rw [List.filter_filter]
      apply List.filter_congr
      intro a _
      by_cases ha : a.UserID = userID
      · simp [ha, Ne.symm hne]
      · simp [ha]
  unfold PasswordService.recordHistory
  split_ifs
  · rw [hk, hc]
  · rfl

theorem GetByID_id (db : DB) (id : String) (u : User) (h : GetByID db id = .ok u) :
    u.ID = id := by
  unfold GetByID at h
  split at h
  · cases h
  · next u0 hf =>
    injection h with h
    rw [← h]
    have := List.find?_some hf
    simpa [preload, withTwoFactorAuth] using this

theorem GetByID_congr (db db2 : DB) (id : String) (hu : db2.users = db.users)
    (ht : db2.two_factor_auth = db.two_factor_auth) : GetByID db2 id = GetByID db id := by
  unfold GetByID preload
  rw [hu, ht]

theorem currentHash_congr (db db2 : DB) (id : String) (hu : db2.users = db.users)
    (ht : db2.two_factor_auth = db.two_factor_auth) : currentHash db2 id = currentHash db id := by
  unfold currentHash
  rw [GetByID_congr db db2 id hu ht]

theorem Update_two_factor_auth (db : DB) (user : User) :
    (Update db user).2.two_factor_auth = db.two_factor_auth := by
  unfold Update
  split <;> rfl

theorem Update_history (db : DB) (user : User) :
    (Update db user).2.password_history = db.password_history := by
  unfold Update
  split <;> rfl

/-- After a successful `Update` of a user, the stored hash of its id is the
written hash. -/
theorem currentHash_Update_self (db db1 : DB) (user : User)
    (h : Update db user = (.ok (), db1)) :
    currentHash db1 user.ID = some user.PasswordHash := by
  unfold Update at h
  split at h
  · next hany =>
    injection h with _ h
    subst h
    obtain ⟨a, ha, hid⟩ := List.any_eq_true.mp hany
    unfold currentHash GetByID
    have hfind : ∀ l : List User, (∃ a ∈ l, (a.ID == user.ID) = true) →
        (l.map (fun u => if u.ID == user.ID then user else u)).find?
          (fun u => u.ID == user.ID) = some user := by
      intro l
      induction l with
      | nil => rintro ⟨a, ha, _⟩; cases ha
      | cons x xs ih =>
        rintro ⟨a, ha, hid⟩
        by_cases hx : (x.ID == user.ID) = true
        · rw [List.map_cons, if_pos hx, List.find?_cons_of_pos _ (by simp)]
        · rw [List.map_cons, if_neg hx, List.find?_cons_of_neg _ (by exact hx)]
          apply ih
          rcases List.mem_cons.mp ha with h | h
          · rw [h] at hid; exact absurd hid hx
          · exact ⟨a, h, hid⟩
    dsimp only
    rw [hfind db.users ⟨a, ha, hid⟩]
    rfl
  · cases h

/-- An `Update` of a user leaves the stored hash of every other id. -/
theorem currentHash_Update_other (db : DB) (user : User) (id : String) (hne : user.ID ≠ id) :
    currentHash (Update db user).2 id = currentHash db id := by
  unfold Update
  split
  · unfold currentHash GetByID
    dsimp only
    have hfind : ∀ l : List User,
        (l.map (fun u => if u.ID == user.ID then user else u)).find? (fun u => u.ID == id)
          = l.find? (fun u => u.ID == id) := by
      intro l
      induction l with
      | nil => rfl
      | cons x xs ih =>
        by_cases hx : (x.ID == user.ID) = true
        · have hxid : ¬ (x.ID == id) = true := by
            intro e
            apply hne
            rw [← beq_iff_eq.mp hx, beq_iff_eq.mp e]
          rw [List.map_cons, if_pos hx, List.find?_cons_of_neg _ (by simpa using hne),
            List.find?_cons_of_neg _ (by exact hxid), ih]
        · rw [List.map_cons, if_neg hx]
          by_cases hxid : (x.ID == id) = true
          · rw [List.find?_cons_of_pos _ (by exact hxid),
              List.find?_cons_of_pos _ (by exact hxid)]
          · rw [List.find?_cons_of_neg _ (by exact hxid),
              List.find?_cons_of_neg _ (by exact hxid), ih]
    rw [hfind]
    cases db.users.find? (fun u => u.ID == id) <;> rfl
  · rfl

theorem currentHash_of_GetByID (db : DB) (id : String) (u : User)
    (h : GetByID db id = .ok u) : currentHash db id = some u.PasswordHash := by
  unfold currentHash
  rw [h]

theorem historyRows_congr (db db2 : DB) (userID : String)
    (h : db2.password_history = db.password_history) :
    historyRows db2 userID = historyRows db userID := by
  unfold historyRows
  rw [h]

theorem recordHistory_history_congr (s : PasswordService) (db db2 : DB) (now : Time)
    (userID oldPasswordHash historyID : String)
    (h : db2.password_history = db.password_history) :
    (s.recordHistory db2 now userID oldPasswordHash historyID).password_history
      = (s.recordHistory db now userID oldPasswordHash historyID).password_history := by
  unfold PasswordService.recordHistory PasswordHistoryRepository.CleanupOldPasswords
    PasswordHistoryRepository.Create PasswordHistoryRepository.newestFirst
  split_ifs <;> simp only [h] <;> split_ifs <;> simp_all

theorem GenerateResetToken_frame (s : PasswordService) (db : DB) (now : Time)
    (email : String) (token : Except Err String) (id : String) :
    (s.GenerateResetToken db now email token id).2.password_history = db.password_history ∧
    (s.GenerateResetToken db now email token id).2.users = db.users ∧
    (s.GenerateResetToken db now email token id).2.two_factor_auth = db.two_factor_auth := by
  unfold PasswordService.GenerateResetToken
  split
  · exact ⟨rfl, rfl, rfl⟩
  · split
    · exact ⟨rfl, rfl, rfl⟩
    · unfold PasswordResetTokenRepository.Create
      dsimp only
      split_ifs <;> exact ⟨rfl, rfl, rfl⟩

/-- The database a successful setting of a password leaves, for the history
and the stored hash: a successful `ChangePassword`. -/
theorem ChangePassword_ok_state (s : PasswordService) (db db2 : DB) (now : Time)
    (userID currentPassword newPassword : String) (hashed : Except Err String)
    (historyID : String)
    (h : s.ChangePassword db now userID currentPassword newPassword hashed historyID
      = (.ok (), db2)) :
    ∃ user new, GetByID db userID = .ok user ∧ hashed = .ok new ∧
      currentHash db2 userID = some new ∧
      (∀ other, other ≠ userID → currentHash db2 other = currentHash db other) ∧
      db2.password_history
        = (s.recordHistory db now userID user.PasswordHash historyID).password_history := by
  obtain ⟨user, hp, db1, hget, _, _, _, hh, hupd, hdb⟩ :=
    ChangePassword_ok_inv s db db2 now userID currentPassword newPassword hashed historyID h
  have hid := GetByID_id db userID user hget
  have hfr := recordHistory_frame s db1 now userID user.PasswordHash historyID
  have hu1 := Update_history db { user with PasswordHash := hp, PasswordChangedAt := now }
  rw [hupd] at hu1
  refine ⟨user, hp, hget, hh, ?_, ?_, ?_⟩
  · have := currentHash_Update_self db db1
      { user with PasswordHash := hp, PasswordChangedAt := now } hupd
    rw [hdb, currentHash_congr db1 _ userID (by exact hfr.2.1) (by exact hfr.2.2)]
    rw [← hid]
    exact this
  · intro other hne
    have := currentHash_Update_other db
      { user with PasswordHash := hp, PasswordChangedAt := now } other
      (by rw [← hid] at hne; exact fun e => hne e.symm)
    rw [hupd] at this
    rw [hdb, currentHash_congr db1 _ other (by exact hfr.2.1) (by exact hfr.2.2)]
    exact this
  · rw [hdb]
    exact recordHistory_history_congr s db db1 now userID user.PasswordHash historyID hu1

/-- The same for a successful `ResetPassword`, with the ticket it found. -/
theorem ResetPassword_ok_state (s : PasswordService) (db db2 : DB) (now : Time)
    (token newPassword : String) (hashed : Except Err String) (historyID : String)
    (h : s.ResetPassword db now token newPassword hashed historyID = (.ok (), db2)) :
    ∃ tk user new, PasswordResetTokenRepository.FindByToken db now token = .ok tk ∧
      GetByID db tk.UserID = .ok user ∧ hashed = .ok new ∧
      currentHash db2 tk.UserID = some new ∧
      (∀ other, other ≠ tk.UserID → currentHash db2 other = currentHash db other) ∧
      db2.password_history
        = (s.recordHistory db now tk.UserID user.PasswordHash historyID).password_history := by
  obtain ⟨tk, user, hp, db1, hfind, _, hget, _, hh, hupd, hdb⟩ :=
    ResetPassword_ok_inv s db db2 now token newPassword hashed historyID h
  have hid := GetByID_id db tk.UserID user hget
  have hfr := recordHistory_frame s (PasswordResetTokenRepository.MarkAsUsed db1 now token).2
    now user.ID user.PasswordHash historyID
  have hu1 := Update_history db { user with PasswordHash := hp, PasswordChangedAt := now }
  rw [hupd] at hu1
  refine ⟨tk, user, hp, hfind, hget, hh, ?_, ?_, ?_⟩
  · have := currentHash_Update_self db db1
      { user with PasswordHash := hp, PasswordChangedAt := now } hupd
    rw [hdb, currentHash_congr db1 _ tk.UserID (by exact hfr.2.1) (by exact hfr.2.2)]
    rw [← hid]
    exact this
  · intro other hne
    have := currentHash_Update_other db
      { user with PasswordHash := hp, PasswordChangedAt := now } other
      (by rw [← hid] at hne; exact fun e => hne e.symm)
    rw [hupd] at this
    rw [hdb, currentHash_congr db1 _ other (by exact hfr.2.1) (by exact hfr.2.2)]
    exact this
  · rw [hdb, ← hid]
    exact recordHistory_history_congr s db
      (PasswordResetTokenRepository.MarkAsUsed db1 now token).2 now user.ID user.PasswordHash
      historyID hu1

theorem fresh_spec (userID : String) (db : DB) (op : PasswordOp)
    (h : op.fresh userID db = true) :
    (∀ r ∈ historyRows db userID, r.CreatedAt < op.instant) ∧
    (∀ r ∈ db.password_history, r.ID ≠ op.historyID) ∧
    (∀ h, op.hashed = .ok h → currentHash db userID ≠ some h ∧ h ∉ historyHashes db userID) := by
  unfold PasswordOp.fresh at h
  simp only [Bool.and_eq_true, List.all_eq_true, decide_eq_true_eq, Bool.not_eq_true',
    beq_eq_false_iff_ne, ne_eq] at h
  obtain ⟨⟨h1, h2⟩, h3⟩ := h
  refine ⟨h1, h2, ?_⟩
  intro hh hok
  rw [hok] at h3
  simpa using h3

/-- What an operation that sets the password of the principal does to the
stored hash and to the history rows. -/
theorem sets_step (s : PasswordService) (userID : String) (db : DB) (op : PasswordOp)
    (hN : 0 < s.historyCount) (hwf : historyWF s.historyCount.toNat db userID)
    (hsets : op.sets s userID db = true) (hfresh : op.fresh userID db = true) :
    ∃ old new, currentHash db userID = some old ∧ op.hashed = .ok new ∧
      currentHash (op.run s db) userID = some new ∧
      historyRows (op.run s db) userID
        = (historyRows db userID ++
            [({ ID := op.historyID, UserID := userID, PasswordHash := old,
                CreatedAt := op.instant } : PasswordHistory)]).drop
            ((historyRows db userID).length + 1 - s.historyCount.toNat) := by
  unfold PasswordOp.sets at hsets
  simp only [Bool.and_eq_true, decide_eq_true_eq] at hsets
  obtain ⟨hprin, hres⟩ := hsets
  obtain ⟨hnow, hid, _⟩ := fresh_spec userID db op hfresh
  cases op with
  | change now uid cur new hashed hidn =>
    have hu : uid = userID := by
      simpa [PasswordOp.principal] using hprin
    subst hu
    obtain ⟨user, hp, hget, hh, hcur, _, hhist⟩ := ChangePassword_ok_state s db _ now uid cur
      new hashed hidn (Prod.ext hres rfl)
    refine ⟨user.PasswordHash, hp, currentHash_of_GetByID db uid user hget, hh, hcur, ?_⟩
    have := recordHistory_rows_self s db now uid user.PasswordHash hidn hN hwf hnow hid
    exact (historyRows_congr _ _ uid hhist).trans this
  | forgot now email tok id =>
    simp [PasswordOp.principal] at hprin
  | reset now token new hashed hidn =>
    obtain ⟨tk, user, hp, hfind, hget, hh, hcur, _, hhist⟩ := ResetPassword_ok_state s db _ now
      token new hashed hidn (Prod.ext hres rfl)
    have hu : tk.UserID = userID := by
      simpa [PasswordOp.principal, hfind] using hprin
    rw [hu] at hget hcur hhist
    refine ⟨user.PasswordHash, hp, currentHash_of_GetByID db userID user hget, hh, hcur, ?_⟩
    have := recordHistory_rows_self s db now userID user.PasswordHash hidn hN hwf hnow hid
    exact (historyRows_congr _ _ userID hhist).trans this

/-- An operation that does not set the password of the principal leaves the
stored hash and the history rows of the principal. -/
theorem not_sets_frame (s : PasswordService) (userID : String) (db : DB) (op : PasswordOp)
    (hsets : op.sets s userID db = false) :
    currentHash (op.run s db) userID = currentHash db userID ∧
    historyRows (op.run s db) userID = historyRows db userID := by
  unfold PasswordOp.sets at hsets
  cases op with
  | change now uid cur new hashed hidn =>
    cases hres : (s.ChangePassword db now uid cur new hashed hidn).1 with
    | error e =>
      have := ChangePassword_error_db s db now uid cur new hashed hidn e hres
      show currentHash (s.ChangePassword db now uid cur new hashed hidn).2 userID = _ ∧
        historyRows (s.ChangePassword db now uid cur new hashed hidn).2 userID = _
      rw [this]
      exact ⟨rfl, rfl⟩
    | ok v =>
      have hne : userID ≠ uid := by
        intro e
        subst e
        simp [PasswordOp.principal, PasswordOp.result, hres] at hsets
      obtain ⟨user, hp, hget, hh, _, hother, hhist⟩ := ChangePassword_ok_state s db _ now uid cur
        new hashed hidn (Prod.ext hres rfl)
      refine ⟨hother userID hne, ?_⟩
      rw [← recordHistory_rows_other s db now userID uid user.PasswordHash hidn
        (fun e => hne e.symm)]
      exact historyRows_congr _ _ userID hhist
  | forgot now email tok id =>
    have hfr := GenerateResetToken_frame s db now email tok id
    exact ⟨currentHash_congr db _ userID hfr.2.1 hfr.2.2, historyRows_congr _ _ userID hfr.1⟩
  | reset now token new hashed hidn =>
    cases hres : (s.ResetPassword db now token new hashed hidn).1 with
    | error e =>
      have := ResetPassword_error_db s db now token new hashed hidn e hres
      show currentHash (s.ResetPassword db now token new hashed hidn).2 userID = _ ∧
        historyRows (s.ResetPassword db now token new hashed hidn).2 userID = _
      rw [this]
      exact ⟨rfl, rfl⟩
    | ok v =>
      obtain ⟨tk, user, hp, hfind, hget, hh, _, hother, hhist⟩ := ResetPassword_ok_state s db _
        now token new hashed hidn (Prod.ext hres rfl)
      have hne : userID ≠ tk.UserID := by
        intro e
        simp [PasswordOp.principal, PasswordOp.result, hres, hfind, e] at hsets
      refine ⟨hother userID hne, ?_⟩
      rw [← recordHistory_rows_other s db now userID tk.UserID user.PasswordHash hidn
        (fun e => hne e.symm)]
      exact historyRows_congr _ _ userID hhist

theorem take_append_take (n : Nat) (A B : List String) :
    (A ++ B.take n).take n = (A ++ B).take n := by
  rw [List.take_append_eq_append_take, List.take_append_eq_append_take, List.take_take]
  congr 2
  omega

theorem historyHashes_of_wf (n : Nat) (db : DB) (userID : String)
    (h : historyWF n db userID) :
    historyHashes db userID = (historyRows db userID).reverse.map (fun r => r.PasswordHash) := by
  unfold historyHashes
  rw [newestFirst_eq_reverse n db userID h]

/-- After an operation that sets the password of the principal the history is
well formed, and its hashes are the replaced hash followed by the hashes
before, cut to the window. -/
theorem sets_history (s : PasswordService) (userID : String) (db : DB) (op : PasswordOp)
    (hN : 0 < s.historyCount) (hwf : historyWF s.historyCount.toNat db userID)
    (hsets : op.sets s userID db = true) (hfresh : op.fresh userID db = true) :
    ∃ old new, currentHash db userID = some old ∧ op.hashed = .ok new ∧
      currentHash (op.run s db) userID = some new ∧
      historyWF s.historyCount.toNat (op.run s db) userID ∧
      historyHashes (op.run s db) userID
        = (old :: historyHashes db userID).take s.historyCount.toNat := by
  obtain ⟨old, new, hold, hh, hnew, hrows⟩ := sets_step s userID db op hN hwf hsets hfresh
  obtain ⟨hnow, hid, _⟩ := fresh_spec userID db op hfresh
  have hn : 0 < s.historyCount.toNat := by omega
  have hasc1 : (historyRows db userID ++
      [({ ID := op.historyID, UserID := userID, PasswordHash := old,
          CreatedAt := op.instant } : PasswordHistory)]).Pairwise
        (fun a b => a.CreatedAt < b.CreatedAt) := by
    rw [List.pairwise_append]
    refine ⟨hwf.1, List.pairwise_singleton _ _, ?_⟩
    intro a ha b hb
    rw [List.mem_singleton] at hb
    rw [hb]
    exact hnow a ha
  have hids1 : (historyRows db userID ++
      [({ ID := op.historyID, UserID := userID, PasswordHash := old,
          CreatedAt := op.instant } : PasswordHistory)]).Pairwise (fun a b => a.ID ≠ b.ID) := by
    rw [List.pairwise_append]
    refine ⟨hwf.2.1, List.pairwise_singleton _ _, ?_⟩
    intro a ha b hb
    rw [List.mem_singleton] at hb
    rw [hb]
    exact hid a (List.mem_filter.mp ha).1
  have hwf2 : historyWF s.historyCount.toNat (op.run s db) userID := by
    unfold historyWF
    rw [hrows]
    refine ⟨hasc1.sublist (List.drop_sublist _ _), hids1.sublist (List.drop_sublist _ _), ?_⟩
    rw [List.length_drop, List.length_append, List.length_singleton]
    have := hwf.2.2
    omega
  refine ⟨old, new, hold, hh, hnew, hwf2, ?_⟩
  rw [historyHashes_of_wf _ _ _ hwf2, historyHashes_of_wf _ _ _ hwf, hrows, List.reverse_drop,
    List.reverse_append, List.length_append, List.length_singleton, List.map_take]
  have hlen := hwf.2.2
  have hk : (historyRows db userID).length + 1 -
      ((historyRows db userID).length + 1 - s.historyCount.toNat)
      = min s.historyCount.toNat ((historyRows db userID).length + 1) := by omega
  rw [hk, ← List.take_take]
  have hl : (List.map (fun r : PasswordHistory => r.PasswordHash)
      ([({ ID := op.historyID, UserID := userID, PasswordHash := old,
           CreatedAt := op.instant } : PasswordHistory)].reverse ++
        (historyRows db userID).reverse)).length = (historyRows db userID).length + 1 := by
    simp
  rw [← hl, List.take_length]
  rfl

/-- Along a fresh run from a well-formed history, the history stays well
formed and its hashes are the replaced hashes, newest first, followed by the
hashes of the start, cut to the window. -/
theorem history_run (s : PasswordService) (userID : String) (hN : 0 < s.historyCount)
    (ops : List PasswordOp) :
    ∀ db : DB, historyWF s.historyCount.toNat db userID → freshRun s userID db ops = true →
      historyWF s.historyCount.toNat (runPasswordOps s db ops) userID ∧
      historyHashes (runPasswordOps s db ops) userID
        = ((replacedHashes s userID db ops).reverse ++ historyHashes db userID).take
            s.historyCount.toNat := by
  induction ops with
  | nil =>
    intro db hwf _
    refine ⟨hwf, ?_⟩
    have e1 : replacedHashes s userID db [] = [] := rfl
    have e2 : runPasswordOps s db [] = db := rfl
    rw [e1, e2, List.reverse_nil, List.nil_append, List.take_of_length_le]
    rw [historyHashes_of_wf _ _ _ hwf, List.length_map, List.length_reverse]
    exact hwf.2.2
  | cons op rest ih =>
    intro db hwf hfresh
    have e0 : freshRun s userID db (op :: rest)
        = ((!(op.sets s userID db) || op.fresh userID db) &&
            freshRun s userID (op.run s db) rest) := rfl
    rw [e0, Bool.and_eq_true] at hfresh
    obtain ⟨hf0, hf2⟩ := hfresh
    have hf1 : op.sets s userID db = true → op.fresh userID db = true := by
      intro hs
      simpa [hs] using hf0
    have e1 : replacedHashes s userID db (op :: rest)
        = (if op.sets s userID db then (currentHash db userID).toList else []) ++
            replacedHashes s userID (op.run s db) rest := rfl
    have e2 : runPasswordOps s db (op :: rest) = runPasswordOps s (op.run s db) rest := rfl
    rw [e1, e2]
    cases hs : op.sets s userID db with
    | true =>
      obtain ⟨old, new, hold, _, _, hwf2, hh2⟩ := sets_history s userID db op hN hwf hs (hf1 hs)
      obtain ⟨hw, hh⟩ := ih (op.run s db) hwf2 hf2
      refine ⟨hw, ?_⟩
      rw [hh, hh2, take_append_take, if_pos rfl, hold]
      simp
    | false =>
      obtain ⟨hc, hr⟩ := not_sets_frame s userID db op hs
      have hwf2 : historyWF s.historyCount.toNat (op.run s db) userID := by
        unfold historyWF
        rw [hr]
        exact hwf
      obtain ⟨hw, hh⟩ := ih (op.run s db) hwf2 hf2
      refine ⟨hw, ?_⟩
      rw [hh]
      have hheq : historyHashes (op.run s db) userID = historyHashes db userID := by
        rw [historyHashes_of_wf _ _ _ hwf2, historyHashes_of_wf _ _ _ hwf, hr]
      rw [hheq]
      simp

theorem historyWF_empty (n : Nat) (db : DB) (userID : String)
    (h : historyRows db userID = []) : historyWF n db userID := by
  unfold historyWF
  rw [h]
  exact ⟨List.Pairwise.nil, List.Pairwise.nil, Nat.zero_le _⟩

/-- C25: with a history window `N > 0`, start from a database in which the
principal has no history row and run any sequence of password operations in
which every successful change or reset of the principal gets a later instant,
a fresh history id and a fresh hash. Then the history of the principal has at
most `N` rows, and its hashes, newest first, are the last `min(k, N)` of the
`k` hashes that the successful changes and resets replaced; and after one more
successful change or reset the replaced hash is in the history and the newly
set hash, which is then the stored one, is not. -/
theorem C25_history_keeps_last_replaced (s : PasswordService) (userID : String) (db0 : DB)
    (ops : List PasswordOp)
    (hN : 0 < s.historyCount)
    (hempty : historyRows db0 userID = [])
    (hfresh : freshRun s userID db0 ops = true) :
    (historyRows (runPasswordOps s db0 ops) userID).length ≤ s.historyCount.toNat ∧
    historyHashes (runPasswordOps s db0 ops) userID
      = (replacedHashes s userID db0 ops).reverse.take s.historyCount.toNat ∧
    (historyHashes (runPasswordOps s db0 ops) userID).length
      = min (replacedHashes s userID db0 ops).length s.historyCount.toNat ∧
    (∀ op : PasswordOp, op.sets s userID (runPasswordOps s db0 ops) = true →
      op.fresh userID (runPasswordOps s db0 ops) = true →
      ∃ old new, currentHash (runPasswordOps s db0 ops) userID = some old ∧
        op.hashed = .ok new ∧
        currentHash (op.run s (runPasswordOps s db0 ops)) userID = some new ∧
        old ∈ historyHashes (op.run s (runPasswordOps s db0 ops)) userID ∧
        new ∉ historyHashes (op.run s (runPasswordOps s db0 ops)) userID) := by
  have hwf0 := historyWF_empty s.historyCount.toNat db0 userID hempty
  obtain ⟨hwf, hh⟩ := history_run s userID hN ops db0 hwf0 hfresh
  have hn : 0 < s.historyCount.toNat := by omega
  have hH0 : historyHashes db0 userID = [] := by
    rw [historyHashes_of_wf _ _ _ hwf0, hempty]
    rfl
  rw [hH0, List.append_nil] at hh
  refine ⟨hwf.2.2, hh, ?_, ?_⟩
  · rw [hh, List.length_take, List.length_reverse, Nat.min_comm]
  · intro op hsets hfr
    obtain ⟨old, new, hold, hnew, hcur, _, hhist⟩ :=
      sets_history s userID _ op hN hwf hsets hfr
    obtain ⟨_, _, hf3⟩ := fresh_spec userID _ op hfr
    obtain ⟨hne, hnotin⟩ := hf3 new hnew
    refine ⟨old, new, hold, hnew, hcur, ?_, ?_⟩
    · rw [hhist]
      obtain ⟨m, hm⟩ : ∃ m, s.historyCount.toNat = m + 1 := ⟨s.historyCount.toNat - 1, by omega⟩
      rw [hm, List.take_succ_cons]
      exact List.mem_cons_self _ _
    · rw [hhist]
      intro hmem
      have := List.mem_of_mem_take hmem
      rcases List.mem_cons.mp this with h | h
      · exact hne (by rw [hold, h])
      · exact hnotin h

theorem C25_history_keeps_last_replaced_witness :
    replacedHashes Sample.passwords "u1" Sample.ticketDb
        [.change 50 "u1" "pw" "Str0ng!Pass#" (.ok "Str0ng!Pass#") "h1",
         .reset 60 "RT3" "0ther!Pass#9" (.ok "0ther!Pass#9") "h2",
         .change 70 "u1" "0ther!Pass#9" "Th1rd!Pass#x" (.ok "Th1rd!Pass#x") "h3",
         .change 80 "u1" "Th1rd!Pass#x" "F0urth!Pass#" (.ok "F0urth!Pass#") "h4"]
      = ["pw", "Str0ng!Pass#", "0ther!Pass#9", "Th1rd!Pass#x"] ∧
    historyHashes (runPasswordOps Sample.passwords Sample.ticketDb
        [.change 50 "u1" "pw" "Str0ng!Pass#" (.ok "Str0ng!Pass#") "h1",
         .reset 60 "RT3" "0ther!Pass#9" (.ok "0ther!Pass#9") "h2",
         .change 70 "u1" "0ther!Pass#9" "Th1rd!Pass#x" (.ok "Th1rd!Pass#x") "h3",
         .change 80 "u1" "Th1rd!Pass#x" "F0urth!Pass#" (.ok "F0urth!Pass#") "h4"]) "u1"
      = ["Th1rd!Pass#x", "0ther!Pass#9", "Str0ng!Pass#"] :=
  have h := C25_history_keeps_last_replaced Sample.passwords "u1" Sample.ticketDb
    [.change 50 "u1" "pw" "Str0ng!Pass#" (.ok "Str0ng!Pass#") "h1",
     .reset 60 "RT3" "0ther!Pass#9" (.ok "0ther!Pass#9") "h2",
     .change 70 "u1" "0ther!Pass#9" "Th1rd!Pass#x" (.ok "Th1rd!Pass#x") "h3",
     .change 80 "u1" "Th1rd!Pass#x" "F0urth!Pass#" (.ok "F0urth!Pass#") "h4"]
    (by decide) (by decide) (by decide)
  ⟨by decide, h.2.1.trans (by decide)⟩

/-- C22 (counterexample): after the change from `pw` to `Str0ng!Pass#`, the
stored hash verifies `Str0ng!Pass#`, the most recently accepted password, and
both a `ChangePassword` and a `ResetPassword` to `Str0ng!Pass#` succeed; a
`ChangePassword` with a wrong current password to the replaced `pw` fails with
the error of the current password, and one with the right current password
fails with the policy error, neither with `ErrPasswordReused`. -/
theorem C22_current_password_can_be_set_again :
    currentHash (runPasswordOps Sample.passwords Sample.ticketDb
      [.change 50 "u1" "pw" "Str0ng!Pass#" (.ok "Str0ng!Pass#") "h1"]) "u1"
      = some "Str0ng!Pass#" ∧
    Sample.crypto.ComparePassword "Str0ng!Pass#" "Str0ng!Pass#" = true ∧
    (Sample.passwords.ChangePassword
      (runPasswordOps Sample.passwords Sample.ticketDb
        [.change 50 "u1" "pw" "Str0ng!Pass#" (.ok "Str0ng!Pass#") "h1"])
      60 "u1" "Str0ng!Pass#" "Str0ng!Pass#" (.ok "Str0ng!Pass#") "h2").1 = .ok () ∧
    (Sample.passwords.ResetPassword
      (runPasswordOps Sample.passwords Sample.ticketDb
        [.change 50 "u1" "pw" "Str0ng!Pass#" (.ok "Str0ng!Pass#") "h1"])
      60 "RT3" "Str0ng!Pass#" (.ok "Str0ng!Pass#") "h2").1 = .ok () ∧
    historyHashes (runPasswordOps Sample.passwords Sample.ticketDb
      [.change 50 "u1" "pw" "Str0ng!Pass#" (.ok "Str0ng!Pass#") "h1"]) "u1" = ["pw"] ∧
    (Sample.passwords.ChangePassword
      (runPasswordOps Sample.passwords Sample.ticketDb
        [.change 50 "u1" "pw" "Str0ng!Pass#" (.ok "Str0ng!Pass#") "h1"])
      60 "u1" "wrong" "pw" (.ok "pw") "h2").1
      = .error (.msg "current password is incorrect") ∧
    (Sample.passwords.ChangePassword
      (runPasswordOps Sample.passwords Sample.ticketDb
        [.change 50 "u1" "pw" "Str0ng!Pass#" (.ok "Str0ng!Pass#") "h1"])
      60 "u1" "Str0ng!Pass#" "pw" (.ok "pw") "h2").1 = .error .ErrPasswordTooShort := by
  decide

/-- The reuse check finds a hash of the history that verifies the new
password, when the history is well formed. -/
theorem reused_of_history (s : PasswordService) (db : DB) (userID h p : String)
    (hN : 0 < s.historyCount) (hwf : historyWF s.historyCount.toNat db userID)
    (hh : h ∈ historyHashes db userID) (hver : s.crypto.ComparePassword h p = true) :
    s.reused db userID p = true := by
  unfold PasswordService.reused PasswordHistoryRepository.GetRecentPasswords
  simp only [Bool.and_eq_true, decide_eq_true_eq, List.any_eq_true]
  refine ⟨hN, ?_⟩
  unfold historyHashes at hh
  obtain ⟨row, hrow, hrh⟩ := List.mem_map.mp hh
  refine ⟨row, ?_, by rw [hrh]; exact hver⟩
  rw [List.take_of_length_le]
  · exact hrow
  · rw [newestFirst_eq_reverse _ db userID hwf, List.length_reverse]
    exact hwf.2.2

/-- C22 (as amended): with a history window `N > 0`, after any sequence of
password operations run from an empty history of the principal (successful
changes and resets of the principal getting fresh instants, ids and hashes),
a new password that passes the policy and verifies against one of the last
`N` hashes replaced for the principal is refused with `ErrPasswordReused`,
the database left as it was, by every `ChangePassword` with the correct
current password and by every `ResetPassword` with a ticket found for the
principal. -/
theorem C22_replaced_password_rejected (s : PasswordService) (userID : String) (db0 : DB)
    (ops : List PasswordOp) (h p : String)
    (hN : 0 < s.historyCount)
    (hempty : historyRows db0 userID = [])
    (hfresh : freshRun s userID db0 ops = true)
    (hh : h ∈ (replacedHashes s userID db0 ops).reverse.take s.historyCount.toNat)
    (hver : s.crypto.ComparePassword h p = true)
    (hpol : ValidatePassword s.unicode p s.policy = .ok ()) :
    (∀ (now : Time) (cur : String) (hashed : Except Err String) (historyID : String)
        (user : User),
      GetByID (runPasswordOps s db0 ops) userID = .ok user →
      s.crypto.ComparePassword user.PasswordHash cur = true →
      s.ChangePassword (runPasswordOps s db0 ops) now userID cur p hashed historyID
        = (.error .ErrPasswordReused, runPasswordOps s db0 ops)) ∧
    (∀ (now : Time) (token : String) (hashed : Except Err String) (historyID : String)
        (ticket : PasswordResetToken) (user : User),
      PasswordResetTokenRepository.FindByToken (runPasswordOps s db0 ops) now token
        = .ok ticket →
      ticket.UserID = userID →
      GetByID (runPasswordOps s db0 ops) userID = .ok user →
      s.ResetPassword (runPasswordOps s db0 ops) now token p hashed historyID
        = (.error .ErrPasswordReused, runPasswordOps s db0 ops)) := by
  have hwf0 := historyWF_empty s.historyCount.toNat db0 userID hempty
  obtain ⟨hwf, hhist⟩ := history_run s userID hN ops db0 hwf0 hfresh
  have hH0 : historyHashes db0 userID = [] := by
    rw [historyHashes_of_wf _ _ _ hwf0, hempty]
    rfl
  rw [hH0, List.append_nil] at hhist
  have hre := reused_of_history s (runPasswordOps s db0 ops) userID h p hN hwf
    (by rw [hhist]; exact hh) hver
  constructor
  · intro now cur hashed historyID user hget hcur
    unfold PasswordService.ChangePassword
    rw [hget]
    simp only [hcur, hpol, hre, Bool.not_true, Bool.false_eq_true, if_false, if_true]
  · intro now token hashed historyID ticket user hfind hu hget
    obtain ⟨_, _, hused, hexp⟩ := FindByToken_ok _ now token ticket hfind
    have hid := GetByID_id _ userID user hget
    unfold PasswordService.ResetPassword
    rw [hfind]
    dsimp only
    rw [if_neg (by rw [hused]; exact Bool.false_ne_true),
      if_neg (not_lt.mpr (le_of_lt hexp)), hpol]
    dsimp only
    rw [hu, hget]
    dsimp only
    rw [hid, if_pos hre]

theorem C22_replaced_password_rejected_witness :
    Sample.passwords.ChangePassword
        (runPasswordOps Sample.passwords Sample.ticketDb
          [.change 50 "u1" "pw" "Str0ng!Pass#" (.ok "Str0ng!Pass#") "h1",
           .change 60 "u1" "Str0ng!Pass#" "0ther!Pass#9" (.ok "0ther!Pass#9") "h2"])
        70 "u1" "0ther!Pass#9" "Str0ng!Pass#" (.ok "Str0ng!Pass#") "h3"
      = (.error .ErrPasswordReused,
         runPasswordOps Sample.passwords Sample.ticketDb
          [.change 50 "u1" "pw" "Str0ng!Pass#" (.ok "Str0ng!Pass#") "h1",
           .change 60 "u1" "Str0ng!Pass#" "0ther!Pass#9" (.ok "0ther!Pass#9") "h2"]) ∧
    Sample.passwords.ResetPassword
        (runPasswordOps Sample.passwords Sample.ticketDb
          [.change 50 "u1" "pw" "Str0ng!Pass#" (.ok "Str0ng!Pass#") "h1",
           .change 60 "u1" "Str0ng!Pass#" "0ther!Pass#9" (.ok "0ther!Pass#9") "h2"])
        70 "RT3" "Str0ng!Pass#" (.ok "Str0ng!Pass#") "h3"
      = (.error .ErrPasswordReused,
         runPasswordOps Sample.passwords Sample.ticketDb
          [.change 50 "u1" "pw" "Str0ng!Pass#" (.ok "Str0ng!Pass#") "h1",
           .change 60 "u1" "Str0ng!Pass#" "0ther!Pass#9" (.ok "0ther!Pass#9") "h2"]) :=
  have h := C22_replaced_password_rejected Sample.passwords "u1" Sample.ticketDb
    [.change 50 "u1" "pw" "Str0ng!Pass#" (.ok "Str0ng!Pass#") "h1",
     .change 60 "u1" "Str0ng!Pass#" "0ther!Pass#9" (.ok "0ther!Pass#9") "h2"]
    "Str0ng!Pass#" "Str0ng!Pass#"
    (by decide) (by decide) (by decide) (by decide) (by decide) (by decide)
  ⟨h.1 70 "0ther!Pass#9" (.ok "Str0ng!Pass#") "h3"
      { Sample.alice with PasswordHash := "0ther!Pass#9", PasswordChangedAt := 60 }
      (by decide) (by decide),
   h.2 70 "RT3" (.ok "Str0ng!Pass#") "h3" Sample.liveTicket
      { Sample.alice with PasswordHash := "0ther!Pass#9", PasswordChangedAt := 60 }
      (by decide) (by decide) (by decide)⟩

end SSO
